import Mathlib

/-!
Verification of the query construction engine of the pg-query-sdk repository:
the parameter-binding context (`src/core/ParamContext.ts`), the recursive
condition builder (`src/query/ConditionBuilder.ts`), the statement assembler
(`src/query/QueryBuilder.ts`) and the two dialect implementations
(`src/dialects/PostgresDialect.ts`, `src/dialects/MysqlDialect.ts`).

The TypeScript classes mutate a `ParamContext` object that is shared by
reference between a `QueryBuilder`, its two `ConditionBuilder`s and any
nested group builders.  The embedding makes that sharing explicit: a
`Store` is a list of `ParamContext` values addressed by index, and every
object that holds a `ParamContext` reference in the source holds the
index of that context here.  All builder methods become state-passing
functions `Store → ... → Store × _`, and methods that `throw` return
`Except String _` carrying the thrown message.
-/

/-- SQL parameter values (`SQLParam` in `ParamContext.ts`): scalars, the
null sentinel, arrays, and `vObj` standing for any other object a caller
could pass (the wire layer accepts it unvalidated). -/
inductive Val where
  | vInt (n : Int)
  | vStr (s : String)
  | vBool (b : Bool)
  | vNull
  | vObj
  | vArr (vs : List Val)

/-- Boolean equality on `Val`, recursing through arrays. -/
def Val.beq : Val → Val → Bool
  | .vInt a, .vInt b => a == b
  | .vStr a, .vStr b => a == b
  | .vBool a, .vBool b => a == b
  | .vNull, .vNull => true
  | .vObj, .vObj => true
  | .vArr as, .vArr bs => go as bs
  | _, _ => false
where go : List Val → List Val → Bool
  | [], [] => true
  | a :: as, b :: bs => Val.beq a b && go as bs
  | _, _ => false

mutual
theorem Val.beq_eq : ∀ a b : Val, Val.beq a b = true ↔ a = b
  | .vInt _, .vInt _ => by simp [Val.beq]
  | .vInt _, .vStr _ => by simp [Val.beq]
  | .vInt _, .vBool _ => by simp [Val.beq]
  | .vInt _, .vNull => by simp [Val.beq]
  | .vInt _, .vObj => by simp [Val.beq]
  | .vInt _, .vArr _ => by simp [Val.beq]
  | .vStr _, .vInt _ => by simp [Val.beq]
  | .vStr _, .vStr _ => by simp [Val.beq]
  | .vStr _, .vBool _ => by simp [Val.beq]
  | .vStr _, .vNull => by simp [Val.beq]
  | .vStr _, .vObj => by simp [Val.beq]
  | .vStr _, .vArr _ => by simp [Val.beq]
  | .vBool _, .vInt _ => by simp [Val.beq]
  | .vBool _, .vStr _ => by simp [Val.beq]
  | .vBool _, .vBool _ => by simp [Val.beq]
  | .vBool _, .vNull => by simp [Val.beq]
  | .vBool _, .vObj => by simp [Val.beq]
  | .vBool _, .vArr _ => by simp [Val.beq]
  | .vNull, .vInt _ => by simp [Val.beq]
  | .vNull, .vStr _ => by simp [Val.beq]
  | .vNull, .vBool _ => by simp [Val.beq]
  | .vNull, .vNull => by simp [Val.beq]
  | .vNull, .vObj => by simp [Val.beq]
  | .vNull, .vArr _ => by simp [Val.beq]
  | .vObj, .vInt _ => by simp [Val.beq]
  | .vObj, .vStr _ => by simp [Val.beq]
  | .vObj, .vBool _ => by simp [Val.beq]
  | .vObj, .vNull => by simp [Val.beq]
  | .vObj, .vObj => by simp [Val.beq]
  | .vObj, .vArr _ => by simp [Val.beq]
  | .vArr _, .vInt _ => by simp [Val.beq]
  | .vArr _, .vStr _ => by simp [Val.beq]
  | .vArr _, .vBool _ => by simp [Val.beq]
  | .vArr _, .vNull => by simp [Val.beq]
  | .vArr _, .vObj => by simp [Val.beq]
  | .vArr as, .vArr bs => by
      simp only [Val.beq]
      rw [Val.beqList_eq as bs]
      simp

theorem Val.beqList_eq : ∀ as bs : List Val, Val.beq.go as bs = true ↔ as = bs
  | [], [] => by simp [Val.beq.go]
  | [], _ :: _ => by simp [Val.beq.go]
  | _ :: _, [] => by simp [Val.beq.go]
  | a :: as, b :: bs => by
      simp [Val.beq.go, Val.beq_eq a b, Val.beqList_eq as bs]
end

instance : DecidableEq Val := fun a b =>
  decidable_of_iff (Val.beq a b = true) (Val.beq_eq a b)

instance {ε α : Type} [DecidableEq ε] [DecidableEq α] : DecidableEq (Except ε α) := fun a b =>
  match a, b with
  | .ok x, .ok y => decidable_of_iff (x = y) (by simp)
  | .error x, .error y => decidable_of_iff (x = y) (by simp)
  | .ok _, .error _ => .isFalse (by simp)
  | .error _, .ok _ => .isFalse (by simp)

/-- The `Dialect` contract (`src/dialects/Dialect.ts`): a positional
placeholder for a 1-based index and identifier quoting. -/
structure Dialect where
  placeholder : Nat → String
  wrapIdentifier : String → String

/-- `PostgresDialect`: indexed tokens and double-quote wrapping. -/
def PostgresDialect : Dialect :=
  ⟨fun index => "$" ++ toString index, fun id => "\"" ++ id ++ "\""⟩

/-- `MysqlDialect`: the fixed token for every index and back-tick wrapping. -/
def MysqlDialect : Dialect :=
  ⟨fun _ => "?", fun id => "`" ++ id ++ "`"⟩

/-- A `ParamContext` object: its dialect and its ordered `params` array. -/
structure ParamContext where
  dialect : Dialect
  params : List Val

/-- The heap of live `ParamContext` objects; an object reference in the
source is an index into this list. -/
abbrev Store := List ParamContext

/-- Placeholder context used for an out-of-range index (never reached by
programs built through the constructors below). -/
def junkCtx : ParamContext := ⟨⟨fun _ => "", fun id => id⟩, []⟩

/-- Dereference a context. -/
def ctxGet (s : Store) (i : Nat) : ParamContext := s.getD i junkCtx

/-- `ParamContext.add`: push the value and return
`dialect.placeholder(params.length)` for the new length. -/
def ctxAdd (s : Store) (i : Nat) (v : Val) : Store × String :=
  let c := ctxGet s i
  (s.set i ⟨c.dialect, c.params ++ [v]⟩, c.dialect.placeholder (c.params.length + 1))

/-- `params.forEach(p => this.ctx.add(p))`: append many values, dropping
the returned tokens. -/
def ctxAddMany (s : Store) (i : Nat) : List Val → Store
  | [] => s
  | v :: vs => ctxAddMany (ctxAdd s i v).1 i vs

/-- `value.map(v => this.ctx.add(v))`: append many values, collecting the
returned tokens. -/
def ctxAddTokens (s : Store) (i : Nat) : List Val → Store × List String
  | [] => (s, [])
  | v :: vs =>
      let (s1, tok) := ctxAdd s i v
      let (s2, toks) := ctxAddTokens s1 i vs
      (s2, tok :: toks)

/-- `ParamContext.getParams`: the (frozen copy of the) params array. -/
def getParams (s : Store) (i : Nat) : List Val := (ctxGet s i).params

/-- `new ParamContext(dialect)`: allocate a fresh empty context. -/
def newCtx (s : Store) (d : Dialect) : Store × Nat := (s ++ [⟨d, []⟩], s.length)

/-- `ParamContext.clone`: allocate a context with a copy of the params and
the same dialect. -/
def cloneCtx (s : Store) (i : Nat) : Store × Nat := (s ++ [ctxGet s i], s.length)

/-- Logical connector of a condition node (`'AND' | 'OR'`). -/
inductive Conn where
  | and
  | or
deriving DecidableEq

/-- Text of a connector. -/
def Conn.str : Conn → String
  | .and => "AND"
  | .or => "OR"

/-- A `ConditionNode`: `{type, expression}`. -/
structure CondNode where
  type : Conn
  expression : String
deriving DecidableEq

/-- A `ConditionBuilder` object: the index of its shared `ParamContext`
and its ordered list of condition nodes. -/
structure ConditionBuilder where
  ctx : Nat
  parts : List CondNode
deriving DecidableEq

/-- `ConditionBuilder.add`: push `{type, expression}` onto `parts`. -/
def ConditionBuilder.push (cb : ConditionBuilder) (type : Conn) (expression : String) :
    ConditionBuilder :=
  ⟨cb.ctx, cb.parts ++ [⟨type, expression⟩]⟩

/-- The fold inside `ConditionBuilder.build`: node 0 bare, later nodes
prefixed by their stored connector. -/
def joinParts : List CondNode → String
  | [] => ""
  | p :: ps => p.expression ++ joinPartsTail ps
where joinPartsTail : List CondNode → String
  | [] => ""
  | p :: ps => " " ++ p.type.str ++ " " ++ p.expression ++ joinPartsTail ps

/-- `ConditionBuilder.build(prefix)`: empty string when no nodes exist,
otherwise the prefix keyword followed by the joined nodes. -/
def ConditionBuilder.build (cb : ConditionBuilder) (kw : String) : String :=
  if cb.parts = [] then "" else kw ++ " " ++ joinParts cb.parts

/-- The `replace(/^WHERE\s/, '')` applied to a built clause before a group
is parenthesized (the builder only ever produces the single space form). -/
def stripWhere (s : String) : String :=
  if s.data.take 6 = "WHERE ".data then String.mk (s.data.drop 6) else s

/-- `Array.join(sep)`: the elements separated by `sep`. -/
def joinSep (sep : String) : List String → String
  | [] => ""
  | [a] => a
  | a :: rest => a ++ sep ++ joinSep sep rest

mutual
/-- A `QueryBuilder` object.  The executor and `cacheTTL` fields play no
part in query construction and are omitted. -/
inductive QueryBuilder where
  | mk (fields joins groupByFields orderByFields : List String)
       (limitCount offsetCount : Option Nat)
       (ctes : CteList)
       (fromClause : String)
       (dialect : Dialect)
       (ctx : Nat)
       (condition havingCondition : ConditionBuilder)

/-- The `ctes` array: `{name, query, recursive}` entries in order. -/
inductive CteList where
  | nil
  | cons (name : String) (recursive : Bool) (query : QueryBuilder) (rest : CteList)
end

/-- Append one `{name, recursive, query}` entry at the end of a cte list. -/
def CteList.push : CteList → String → Bool → QueryBuilder → CteList
  | .nil, n, r, q => .cons n r q .nil
  | .cons n0 r0 q0 rest, n, r, q => .cons n0 r0 q0 (rest.push n r q)

/-- `ctes.some(c => c.recursive)`. -/
def CteList.anyRec : CteList → Bool
  | .nil => false
  | .cons _ r _ rest => r || rest.anyRec

/-- `ctes.length` equals zero. -/
def CteList.isNil : CteList → Bool
  | .nil => true
  | .cons _ _ _ _ => false

def QueryBuilder.fields : QueryBuilder → List String
  | .mk f _ _ _ _ _ _ _ _ _ _ _ => f

def QueryBuilder.joins : QueryBuilder → List String
  | .mk _ j _ _ _ _ _ _ _ _ _ _ => j

def QueryBuilder.groupByFields : QueryBuilder → List String
  | .mk _ _ g _ _ _ _ _ _ _ _ _ => g

def QueryBuilder.orderByFields : QueryBuilder → List String
  | .mk _ _ _ o _ _ _ _ _ _ _ _ => o

def QueryBuilder.limitCount : QueryBuilder → Option Nat
  | .mk _ _ _ _ l _ _ _ _ _ _ _ => l

def QueryBuilder.offsetCount : QueryBuilder → Option Nat
  | .mk _ _ _ _ _ o _ _ _ _ _ _ => o

def QueryBuilder.ctes : QueryBuilder → CteList
  | .mk _ _ _ _ _ _ c _ _ _ _ _ => c

def QueryBuilder.fromClause : QueryBuilder → String
  | .mk _ _ _ _ _ _ _ f _ _ _ _ => f

def QueryBuilder.dialect : QueryBuilder → Dialect
  | .mk _ _ _ _ _ _ _ _ d _ _ _ => d

def QueryBuilder.ctx : QueryBuilder → Nat
  | .mk _ _ _ _ _ _ _ _ _ c _ _ => c

def QueryBuilder.condition : QueryBuilder → ConditionBuilder
  | .mk _ _ _ _ _ _ _ _ _ _ c _ => c

def QueryBuilder.havingCondition : QueryBuilder → ConditionBuilder
  | .mk _ _ _ _ _ _ _ _ _ _ _ h => h

def QueryBuilder.setFields (q : QueryBuilder) (fs : List String) : QueryBuilder :=
  match q with
  | .mk _ j g o l off c f d x cd h => .mk fs j g o l off c f d x cd h

def QueryBuilder.pushJoin (q : QueryBuilder) (j : String) : QueryBuilder :=
  match q with
  | .mk fl js g o l off c f d x cd h => .mk fl (js ++ [j]) g o l off c f d x cd h

def QueryBuilder.pushGroupBy (q : QueryBuilder) (fs : List String) : QueryBuilder :=
  match q with
  | .mk fl j g o l off c f d x cd h => .mk fl j (g ++ fs) o l off c f d x cd h

def QueryBuilder.pushOrderBy (q : QueryBuilder) (ob : String) : QueryBuilder :=
  match q with
  | .mk fl j g o l off c f d x cd h => .mk fl j g (o ++ [ob]) l off c f d x cd h

def QueryBuilder.setLimit (q : QueryBuilder) (n : Option Nat) : QueryBuilder :=
  match q with
  | .mk fl j g o _ off c f d x cd h => .mk fl j g o n off c f d x cd h

def QueryBuilder.setOffset (q : QueryBuilder) (n : Option Nat) : QueryBuilder :=
  match q with
  | .mk fl j g o l _ c f d x cd h => .mk fl j g o l n c f d x cd h

def QueryBuilder.pushCte (q : QueryBuilder) (name : String) (r : Bool) (sub : QueryBuilder) :
    QueryBuilder :=
  match q with
  | .mk fl j g o l off c f d x cd h => .mk fl j g o l off (c.push name r sub) f d x cd h

def QueryBuilder.setFrom (q : QueryBuilder) (f : String) : QueryBuilder :=
  match q with
  | .mk fl j g o l off c _ d x cd h => .mk fl j g o l off c f d x cd h

def QueryBuilder.setCondition (q : QueryBuilder) (cb : ConditionBuilder) : QueryBuilder :=
  match q with
  | .mk fl j g o l off c f d x _ h => .mk fl j g o l off c f d x cb h

def QueryBuilder.setHaving (q : QueryBuilder) (cb : ConditionBuilder) : QueryBuilder :=
  match q with
  | .mk fl j g o l off c f d x cd _ => .mk fl j g o l off c f d x cd cb

/-- The `QueryBuilder` constructor: record the table as the FROM clause,
allocate a fresh `ParamContext`, and attach WHERE and HAVING
`ConditionBuilder`s sharing that context. -/
def newQueryBuilder (table : String) (d : Dialect) (s : Store) : Store × QueryBuilder :=
  let (s1, c) := newCtx s d
  (s1, .mk [] [] [] [] none none .nil table d c ⟨c, []⟩ ⟨c, []⟩)

mutual
/-- `QueryBuilder.build`: assemble the SQL text and return the parameter
array accumulated in this builder's context.  Building a statement with
CTEs first builds every cte sub-statement and appends its parameters to
this builder's context (a side effect on the store, exactly as in the
source). -/
def QueryBuilder.build (s : Store) (q : QueryBuilder) : Store × String × List Val :=
  match q with
  | .mk fields joins groupByFields orderByFields limitCount offsetCount ctes fromClause _ ctx
      condition havingCondition =>
    let (s1, withPart) :=
      if ctes.isNil then (s, "")
      else
        let (s1, parts) := buildCtes s ctx ctes
        (s1, "WITH " ++ (if ctes.anyRec then "RECURSIVE " else "") ++
          joinSep ", " parts ++ " ")
    let select := if fields = [] then "*" else joinSep ", " fields
    let q0 := withPart ++ "SELECT " ++ select ++ " FROM " ++ fromClause
    let q1 := if joins = [] then q0 else q0 ++ " " ++ joinSep " " joins
    let whereS := condition.build "WHERE"
    let q2 := if whereS = "" then q1 else q1 ++ " " ++ whereS
    let q3 := if groupByFields = [] then q2
      else q2 ++ " GROUP BY " ++ joinSep ", " groupByFields
    let havingS := havingCondition.build "HAVING"
    let q4 := if havingS = "" then q3 else q3 ++ " " ++ havingS
    let q5 := if orderByFields = [] then q4
      else q4 ++ " ORDER BY " ++ joinSep ", " orderByFields
    let q6 := match limitCount with
      | some n => if n = 0 then q5 else q5 ++ " LIMIT " ++ toString n
      | none => q5
    let q7 := match offsetCount with
      | some n => if n = 0 then q6 else q6 ++ " OFFSET " ++ toString n
      | none => q6
    (s1, q7, getParams s1 ctx)

/-- The `ctes.map` inside `build`: build each cte query, flatten its
parameters into the parent context, and render `name AS (subsql)`. -/
def buildCtes (s : Store) (parentCtx : Nat) : CteList → Store × List String
  | .nil => (s, [])
  | .cons name _ sub rest =>
      let (s1, subSql, subParams) := QueryBuilder.build s sub
      let s2 := ctxAddMany s1 parentCtx subParams
      let (s3, texts) := buildCtes s2 parentCtx rest
      (s3, (name ++ " AS (" ++ subSql ++ ")") :: texts)
end

/-- `QueryBuilder.clone` (the `src/query` variant): copy the list-valued
fields and the bounds, let `ConditionBuilder.clone` copy the node lists
while keeping the original shared context reference, and replace the
builder's own context with `this.ctx.clone()`.  The constructor call
inside `clone` allocates a context that is immediately superseded; it is
kept here because the allocation is visible in the store. -/
def QueryBuilder.clone (s : Store) (q : QueryBuilder) : Store × QueryBuilder :=
  match q with
  | .mk fields joins groupByFields orderByFields limitCount offsetCount ctes fromClause d ctx
      condition havingCondition =>
    let (s1, _) := newCtx s d
    let (s2, c1) := cloneCtx s1 ctx
    (s2, .mk fields joins groupByFields orderByFields limitCount offsetCount ctes fromClause d c1
      condition havingCondition)

/-- Join kinds (`JoinType`). -/
inductive JoinKind where
  | inner
  | left
  | right
deriving DecidableEq

/-- Keyword of a join kind. -/
def JoinKind.str : JoinKind → String
  | .inner => "INNER"
  | .left => "LEFT"
  | .right => "RIGHT"

/-- Order directions accepted by `orderBy`. -/
inductive OrderDir where
  | asc
  | desc
deriving DecidableEq

/-- Keyword of an order direction. -/
def OrderDir.str : OrderDir → String
  | .asc => "ASC"
  | .desc => "DESC"

mutual
/-- The right-hand side passed with an operator: a plain value or a
sub-statement (a `QueryBuilder` object in the source, given here as the
program that constructs it). -/
inductive Operand where
  | val (v : Val)
  | sub (p : Plan)

/-- One value of a `where`/`having` object: the null sentinel, a plain
scalar (the `column = value` path), or an `{op, value}` shape. -/
inductive CondVal where
  | nullv
  | scalar (v : Val)
  | cmp (op : String) (x : Operand)

/-- One call made by a group callback on its nested `ConditionBuilder`. -/
inductive CondOp where
  | centry (key : String) (c : CondVal)
  | craw (e : String)
  | cgroup (conn : Conn) (ops : List CondOp)

/-- One chained `QueryBuilder` call. -/
inductive QOp where
  | selectQ (fields : List String)
  | joinQ (kind : JoinKind) (table localKey foreignKey : String)
  | whereQ (key : String) (c : CondVal)
  | whereRawQ (e : String)
  | groupQ (conn : Conn) (ops : List CondOp)
  | groupByQ (fields : List String)
  | havingQ (key : String) (c : CondVal)
  | havingRawQ (e : String)
  | orderByQ (column : String) (dir : OrderDir)
  | limitQ (n : Nat)
  | offsetQ (n : Nat)
  | withCteQ (name : String) (sub : Plan) (recursive : Bool)
  | fromSubqueryQ (sub : Plan) (al : String)

/-- A complete builder program: the constructor's table argument and the
chained calls in order. -/
inductive Plan where
  | mk (table : String) (ops : List QOp)
end

/-- The operator allow-list of `handleOperator`. -/
def allowedOperators : List String :=
  ["=", ">", "<", ">=", "<=", "!=", "<>", "LIKE", "ILIKE", "IN", "NOT IN", "BETWEEN", "EXISTS"]

mutual
/-- Run a builder program: construct the builder, then apply its calls. -/
def runPlan (d : Dialect) (p : Plan) (s : Store) : Except String (Store × QueryBuilder) :=
  match p with
  | .mk table ops =>
      let (s1, q) := newQueryBuilder table d s
      runOps d ops q s1

/-- Apply chained calls left to right; a thrown error aborts the chain. -/
def runOps (d : Dialect) (ops : List QOp) (q : QueryBuilder) (s : Store) :
    Except String (Store × QueryBuilder) :=
  match ops with
  | [] => .ok (s, q)
  | o :: rest => do
      let (s1, q1) ← runOp d o q s
      runOps d rest q1 s1

/-- One `QueryBuilder` method call. -/
def runOp (d : Dialect) (o : QOp) (q : QueryBuilder) (s : Store) :
    Except String (Store × QueryBuilder) :=
  match o with
  | .selectQ fs => .ok (s, q.setFields fs)
  | .joinQ kind table localKey foreignKey =>
      .ok (s, q.pushJoin (kind.str ++ " JOIN " ++ table ++ " ON " ++ localKey ++ " = " ++
        foreignKey))
  | .whereQ key c => do
      let (s1, cb) ← condEntry d key c q.condition s
      .ok (s1, q.setCondition cb)
  | .whereRawQ e => .ok (s, q.setCondition (q.condition.push .and e))
  | .groupQ conn ops => do
      let (s1, nested) ← runCondOps d ops ⟨q.condition.ctx, []⟩ s
      let built := nested.build "WHERE"
      if built = "" then .ok (s1, q)
      else .ok (s1, q.setCondition (q.condition.push conn ("(" ++ stripWhere built ++ ")")))
  | .groupByQ fs => .ok (s, q.pushGroupBy fs)
  | .havingQ key c => do
      let (s1, cb) ← condEntry d key c q.havingCondition s
      .ok (s1, q.setHaving cb)
  | .havingRawQ e => .ok (s, q.setHaving (q.havingCondition.push .and e))
  | .orderByQ column dir => .ok (s, q.pushOrderBy (column ++ " " ++ dir.str))
  | .limitQ n => .ok (s, q.setLimit (some n))
  | .offsetQ n => .ok (s, q.setOffset (some n))
  | .withCteQ name sub r => do
      let (s1, subQ) ← runPlan d sub s
      .ok (s1, q.pushCte name r subQ)
  | .fromSubqueryQ sub al => do
      let (s1, subQ) ← runPlan d sub s
      let (s2, subSql, subParams) := QueryBuilder.build s1 subQ
      let s3 := ctxAddMany s2 q.ctx subParams
      .ok (s3, q.setFrom ("(" ++ subSql ++ ") AS " ++ al))

/-- One entry of a `where`/`having` object (`Object.entries(obj).forEach`). -/
def condEntry (d : Dialect) (key : String) (c : CondVal) (cb : ConditionBuilder) (s : Store) :
    Except String (Store × ConditionBuilder) :=
  match c with
  | .nullv => .ok (s, cb.push .and (key ++ " IS NULL"))
  | .scalar v =>
      let (s1, tok) := ctxAdd s cb.ctx v
      .ok (s1, cb.push .and (key ++ " = " ++ tok))
  | .cmp op x => handleOperator d key op x cb s

/-- `ConditionBuilder.handleOperator`: validate the operator against the
allow-list, then dispatch per operator. -/
def handleOperator (d : Dialect) (key op : String) (x : Operand) (cb : ConditionBuilder)
    (s : Store) : Except String (Store × ConditionBuilder) :=
  if allowedOperators.contains op = false then .error ("Invalid operator " ++ op)
  else if op = "IN" ∨ op = "NOT IN" then
    match x with
    | .val (.vArr vs) =>
        let (s1, toks) := ctxAddTokens s cb.ctx vs
        .ok (s1, cb.push .and (key ++ " " ++ op ++ " (" ++ joinSep ", " toks ++ ")"))
    | _ => .error (op ++ " expects array")
  else if op = "BETWEEN" then
    match x with
    | .val (.vArr [a, b]) =>
        let (s1, p1) := ctxAdd s cb.ctx a
        let (s2, p2) := ctxAdd s1 cb.ctx b
        .ok (s2, cb.push .and (key ++ " BETWEEN " ++ p1 ++ " AND " ++ p2))
    | _ => .error "BETWEEN expects [min,max]"
  else if op = "EXISTS" then
    match x with
    | .sub p => do
        let (s1, subQ) ← runPlan d p s
        let (s2, subSql, subParams) := QueryBuilder.build s1 subQ
        let s3 := ctxAddMany s2 cb.ctx subParams
        .ok (s3, cb.push .and ("EXISTS (" ++ subSql ++ ")"))
    | .val _ => .error "EXISTS expects QueryBuilder"
  else
    let v := match x with
      | .val v => v
      | .sub _ => Val.vObj
    let (s1, tok) := ctxAdd s cb.ctx v
    .ok (s1, cb.push .and (key ++ " " ++ op ++ " " ++ tok))

/-- Apply a group callback's calls left to right. -/
def runCondOps (d : Dialect) (ops : List CondOp) (cb : ConditionBuilder) (s : Store) :
    Except String (Store × ConditionBuilder) :=
  match ops with
  | [] => .ok (s, cb)
  | o :: rest => do
      let (s1, cb1) ← runCondOp d o cb s
      runCondOps d rest cb1 s1

/-- One `ConditionBuilder` call made inside a group callback. -/
def runCondOp (d : Dialect) (o : CondOp) (cb : ConditionBuilder) (s : Store) :
    Except String (Store × ConditionBuilder) :=
  match o with
  | .centry key c => condEntry d key c cb s
  | .craw e => .ok (s, cb.push .and e)
  | .cgroup conn ops => do
      let (s1, nested) ← runCondOps d ops ⟨cb.ctx, []⟩ s
      let built := nested.build "WHERE"
      if built = "" then .ok (s1, cb)
      else .ok (s1, cb.push conn ("(" ++ stripWhere built ++ ")"))
end

/-- `ConditionBuilder.andGroup` / `orGroup` as a standalone function: run
the callback on a fresh builder sharing the context; if it produced
nothing the group contributes nothing, otherwise append its parenthesized
body as one node with the given connector.  `runCondOp` and `runOp`
inline exactly this body. -/
def condGroup (d : Dialect) (conn : Conn) (ops : List CondOp) (cb : ConditionBuilder)
    (s : Store) : Except String (Store × ConditionBuilder) := do
  let (s1, nested) ← runCondOps d ops ⟨cb.ctx, []⟩ s
  let built := nested.build "WHERE"
  if built = "" then .ok (s1, cb)
  else .ok (s1, cb.push conn ("(" ++ stripWhere built ++ ")"))

/-- Run a program and return what `build()` hands to the executor: the
SQL text and the parameter array. -/
def runPlanD (d : Dialect) (p : Plan) : Except String (String × List Val) :=
  match runPlan d p [] with
  | .error e => .error e
  | .ok (s, q) =>
      let (_, sql, ps) := QueryBuilder.build s q
      .ok (sql, ps)

/-!
Dialect-independent skeletons.

The spec describes the result of `build()` as literal SQL text interleaved
with dialect-rendered placeholder tokens, each token standing for one bound
value.  `Chunk` makes that structure explicit; the `spec*` functions below
mirror the engine while keeping the skeleton symbolic, so that the
dialect-substitution and placeholder/parameter-alignment properties can be
stated as refinements of the string-building code.
-/

/-- One piece of assembled SQL: literal text, or the placeholder returned
by the `idx`-th `add` call on some context, carrying the bound value. -/
inductive Chunk where
  | lit (t : String)
  | hole (idx : Nat) (v : Val)
deriving DecidableEq

/-- A skeleton: SQL text with symbolic placeholders. -/
abbrev Chunks := List Chunk

/-- Render a skeleton under a dialect: literals verbatim, holes through
`dialect.placeholder`. -/
def renderChunks (d : Dialect) : Chunks → String
  | [] => ""
  | .lit t :: r => t ++ renderChunks d r
  | .hole i _ :: r => d.placeholder i ++ renderChunks d r

/-- The values bound by a skeleton's placeholders, in text order. -/
def textVals : Chunks → List Val
  | [] => []
  | .lit _ :: r => textVals r
  | .hole _ v :: r => v :: textVals r

/-- The number of placeholder tokens a skeleton renders. -/
def countHoles : Chunks → Nat
  | [] => 0
  | .lit _ :: r => countHoles r
  | .hole _ _ :: r => countHoles r + 1

/-- Dialect-independent image of the store: each context's params array. -/
abbrev SpecStore := List (List Val)

/-- Dereference a spec context. -/
def sGet (ss : SpecStore) (i : Nat) : List Val := ss.getD i []

/-- Spec image of `ParamContext.add`: push the value, return the symbolic
placeholder for the new length. -/
def sAdd (ss : SpecStore) (i : Nat) (v : Val) : SpecStore × Chunk :=
  (ss.set i (sGet ss i ++ [v]), .hole ((sGet ss i).length + 1) v)

/-- Spec image of `ctxAddMany`. -/
def sAddMany (ss : SpecStore) (i : Nat) : List Val → SpecStore
  | [] => ss
  | v :: vs => sAddMany (sAdd ss i v).1 i vs

/-- Spec image of `ctxAddTokens`. -/
def sAddChunks (ss : SpecStore) (i : Nat) : List Val → SpecStore × Chunks
  | [] => (ss, [])
  | v :: vs =>
      let (ss1, c) := sAdd ss i v
      let (ss2, cs) := sAddChunks ss1 i vs
      (ss2, c :: cs)

/-- Spec image of `newCtx`. -/
def sNew (ss : SpecStore) : SpecStore × Nat := (ss ++ [[]], ss.length)

/-- Spec condition node: connector plus a skeleton fragment. -/
structure SCondNode where
  type : Conn
  expr : Chunks
deriving DecidableEq

/-- Spec image of a `ConditionBuilder`. -/
structure SCond where
  ctx : Nat
  parts : List SCondNode
deriving DecidableEq

/-- Spec image of `ConditionBuilder.add`. -/
def SCond.push (cb : SCond) (type : Conn) (expr : Chunks) : SCond :=
  ⟨cb.ctx, cb.parts ++ [⟨type, expr⟩]⟩

/-- Spec image of the node join inside `ConditionBuilder.build`. -/
def sJoinParts : List SCondNode → Chunks
  | [] => []
  | p :: ps => p.expr ++ sJoinPartsTail ps
where sJoinPartsTail : List SCondNode → Chunks
  | [] => []
  | p :: ps => .lit (" " ++ p.type.str ++ " ") :: (p.expr ++ sJoinPartsTail ps)

/-- Spec image of `ConditionBuilder.build` (keyword already stripped from
group bodies, so groups are assembled from `sJoinParts` directly). -/
def SCond.buildC (cb : SCond) (kw : String) : Chunks :=
  if cb.parts = [] then [] else .lit (kw ++ " ") :: sJoinParts cb.parts

/-- Spec image of `joinSep` on skeleton fragments. -/
def chunksJoinSep (sep : String) : List Chunks → Chunks
  | [] => []
  | [a] => a
  | a :: rest => a ++ [.lit sep] ++ chunksJoinSep sep rest

mutual
/-- Spec image of a `QueryBuilder` (no dialect: skeletons are symbolic). -/
inductive SQB where
  | mk (fields joins groupByFields orderByFields : List String)
       (limitCount offsetCount : Option Nat)
       (ctes : SCteList)
       (fromClause : Chunks)
       (ctx : Nat)
       (condition havingCondition : SCond)

/-- Spec image of the cte list. -/
inductive SCteList where
  | nil
  | cons (name : String) (recursive : Bool) (query : SQB) (rest : SCteList)
end

def SCteList.push : SCteList → String → Bool → SQB → SCteList
  | .nil, n, r, q => .cons n r q .nil
  | .cons n0 r0 q0 rest, n, r, q => .cons n0 r0 q0 (rest.push n r q)

def SCteList.anyRec : SCteList → Bool
  | .nil => false
  | .cons _ r _ rest => r || rest.anyRec

def SCteList.isNil : SCteList → Bool
  | .nil => true
  | .cons _ _ _ _ => false

def SQB.fields : SQB → List String
  | .mk f _ _ _ _ _ _ _ _ _ _ => f

def SQB.joins : SQB → List String
  | .mk _ j _ _ _ _ _ _ _ _ _ => j

def SQB.groupByFields : SQB → List String
  | .mk _ _ g _ _ _ _ _ _ _ _ => g

def SQB.orderByFields : SQB → List String
  | .mk _ _ _ o _ _ _ _ _ _ _ => o

def SQB.limitCount : SQB → Option Nat
  | .mk _ _ _ _ l _ _ _ _ _ _ => l

def SQB.offsetCount : SQB → Option Nat
  | .mk _ _ _ _ _ o _ _ _ _ _ => o

def SQB.ctes : SQB → SCteList
  | .mk _ _ _ _ _ _ c _ _ _ _ => c

def SQB.fromClause : SQB → Chunks
  | .mk _ _ _ _ _ _ _ f _ _ _ => f

def SQB.ctx : SQB → Nat
  | .mk _ _ _ _ _ _ _ _ c _ _ => c

def SQB.condition : SQB → SCond
  | .mk _ _ _ _ _ _ _ _ _ c _ => c

def SQB.havingCondition : SQB → SCond
  | .mk _ _ _ _ _ _ _ _ _ _ h => h

def SQB.setFields (q : SQB) (fs : List String) : SQB :=
  match q with
  | .mk _ j g o l off c f x cd h => .mk fs j g o l off c f x cd h

def SQB.pushJoin (q : SQB) (j : String) : SQB :=
  match q with
  | .mk fl js g o l off c f x cd h => .mk fl (js ++ [j]) g o l off c f x cd h

def SQB.pushGroupBy (q : SQB) (fs : List String) : SQB :=
  match q with
  | .mk fl j g o l off c f x cd h => .mk fl j (g ++ fs) o l off c f x cd h

def SQB.pushOrderBy (q : SQB) (ob : String) : SQB :=
  match q with
  | .mk fl j g o l off c f x cd h => .mk fl j g (o ++ [ob]) l off c f x cd h

def SQB.setLimit (q : SQB) (n : Option Nat) : SQB :=
  match q with
  | .mk fl j g o _ off c f x cd h => .mk fl j g o n off c f x cd h

def SQB.setOffset (q : SQB) (n : Option Nat) : SQB :=
  match q with
  | .mk fl j g o l _ c f x cd h => .mk fl j g o l n c f x cd h

def SQB.pushCte (q : SQB) (name : String) (r : Bool) (sub : SQB) : SQB :=
  match q with
  | .mk fl j g o l off c f x cd h => .mk fl j g o l off (c.push name r sub) f x cd h

def SQB.setFrom (q : SQB) (f : Chunks) : SQB :=
  match q with
  | .mk fl j g o l off c _ x cd h => .mk fl j g o l off c f x cd h

def SQB.setCondition (q : SQB) (cb : SCond) : SQB :=
  match q with
  | .mk fl j g o l off c f x _ h => .mk fl j g o l off c f x cb h

def SQB.setHaving (q : SQB) (cb : SCond) : SQB :=
  match q with
  | .mk fl j g o l off c f x cd _ => .mk fl j g o l off c f x cd cb

/-- Spec image of the `QueryBuilder` constructor. -/
def specNewQB (table : String) (ss : SpecStore) : SpecStore × SQB :=
  let (ss1, c) := sNew ss
  (ss1, .mk [] [] [] [] none none .nil [.lit table] c ⟨c, []⟩ ⟨c, []⟩)

mutual
/-- Spec image of `QueryBuilder.build`: the same assembly, producing a
skeleton instead of a string. -/
def specBuild (ss : SpecStore) (q : SQB) : SpecStore × Chunks × List Val :=
  match q with
  | .mk fields joins groupByFields orderByFields limitCount offsetCount ctes fromClause ctx
      condition havingCondition =>
    let (ss1, withPart) :=
      if ctes.isNil then (ss, ([] : Chunks))
      else
        let (ss1, parts) := specBuildCtes ss ctx ctes
        (ss1, .lit ("WITH " ++ (if ctes.anyRec then "RECURSIVE " else "")) ::
          (chunksJoinSep ", " parts ++ [.lit " "]))
    let select := if fields = [] then "*" else joinSep ", " fields
    let q0 := withPart ++ [Chunk.lit ("SELECT " ++ select ++ " FROM ")] ++ fromClause
    let q1 := if joins = [] then q0 else q0 ++ [.lit (" " ++ joinSep " " joins)]
    let whereS := condition.buildC "WHERE"
    let q2 := if whereS = [] then q1 else q1 ++ [.lit " "] ++ whereS
    let q3 := if groupByFields = [] then q2
      else q2 ++ [.lit (" GROUP BY " ++ joinSep ", " groupByFields)]
    let havingS := havingCondition.buildC "HAVING"
    let q4 := if havingS = [] then q3 else q3 ++ [.lit " "] ++ havingS
    let q5 := if orderByFields = [] then q4
      else q4 ++ [.lit (" ORDER BY " ++ joinSep ", " orderByFields)]
    let q6 := match limitCount with
      | some n => if n = 0 then q5 else q5 ++ [.lit (" LIMIT " ++ toString n)]
      | none => q5
    let q7 := match offsetCount with
      | some n => if n = 0 then q6 else q6 ++ [.lit (" OFFSET " ++ toString n)]
      | none => q6
    (ss1, q7, sGet ss1 ctx)

/-- Spec image of `buildCtes`. -/
def specBuildCtes (ss : SpecStore) (parentCtx : Nat) : SCteList → SpecStore × List Chunks
  | .nil => (ss, [])
  | .cons name _ sub rest =>
      let (ss1, subSql, subParams) := specBuild ss sub
      let ss2 := sAddMany ss1 parentCtx subParams
      let (ss3, texts) := specBuildCtes ss2 parentCtx rest
      (ss3, (Chunk.lit (name ++ " AS (") :: (subSql ++ [.lit ")"])) :: texts)
end

mutual
/-- Spec image of `runPlan`. -/
def specRunPlan (p : Plan) (ss : SpecStore) : Except String (SpecStore × SQB) :=
  match p with
  | .mk table ops =>
      let (ss1, q) := specNewQB table ss
      specRunOps ops q ss1

/-- Spec image of `runOps`. -/
def specRunOps (ops : List QOp) (q : SQB) (ss : SpecStore) : Except String (SpecStore × SQB) :=
  match ops with
  | [] => .ok (ss, q)
  | o :: rest => do
      let (ss1, q1) ← specRunOp o q ss
      specRunOps rest q1 ss1

/-- Spec image of `runOp`. -/
def specRunOp (o : QOp) (q : SQB) (ss : SpecStore) : Except String (SpecStore × SQB) :=
  match o with
  | .selectQ fs => .ok (ss, q.setFields fs)
  | .joinQ kind table localKey foreignKey =>
      .ok (ss, q.pushJoin (kind.str ++ " JOIN " ++ table ++ " ON " ++ localKey ++ " = " ++
        foreignKey))
  | .whereQ key c => do
      let (ss1, cb) ← specCondEntry key c q.condition ss
      .ok (ss1, q.setCondition cb)
  | .whereRawQ e => .ok (ss, q.setCondition (q.condition.push .and [.lit e]))
  | .groupQ conn ops => do
      let (ss1, nested) ← specRunCondOps ops ⟨q.condition.ctx, []⟩ ss
      if nested.parts = [] then .ok (ss1, q)
      else .ok (ss1, q.setCondition (q.condition.push conn
        ([.lit "("] ++ sJoinParts nested.parts ++ [.lit ")"])))
  | .groupByQ fs => .ok (ss, q.pushGroupBy fs)
  | .havingQ key c => do
      let (ss1, cb) ← specCondEntry key c q.havingCondition ss
      .ok (ss1, q.setHaving cb)
  | .havingRawQ e => .ok (ss, q.setHaving (q.havingCondition.push .and [.lit e]))
  | .orderByQ column dir => .ok (ss, q.pushOrderBy (column ++ " " ++ dir.str))
  | .limitQ n => .ok (ss, q.setLimit (some n))
  | .offsetQ n => .ok (ss, q.setOffset (some n))
  | .withCteQ name sub r => do
      let (ss1, subQ) ← specRunPlan sub ss
      .ok (ss1, q.pushCte name r subQ)
  | .fromSubqueryQ sub al => do
      let (ss1, subQ) ← specRunPlan sub ss
      let (ss2, subSql, subParams) := specBuild ss1 subQ
      let ss3 := sAddMany ss2 q.ctx subParams
      .ok (ss3, q.setFrom (.lit "(" :: (subSql ++ [.lit (") AS " ++ al)])))

/-- Spec image of `condEntry`. -/
def specCondEntry (key : String) (c : CondVal) (cb : SCond) (ss : SpecStore) :
    Except String (SpecStore × SCond) :=
  match c with
  | .nullv => .ok (ss, cb.push .and [.lit (key ++ " IS NULL")])
  | .scalar v =>
      let (ss1, tok) := sAdd ss cb.ctx v
      .ok (ss1, cb.push .and [.lit (key ++ " = "), tok])
  | .cmp op x => specHandleOperator key op x cb ss

/-- Spec image of `handleOperator`. -/
def specHandleOperator (key op : String) (x : Operand) (cb : SCond) (ss : SpecStore) :
    Except String (SpecStore × SCond) :=
  if allowedOperators.contains op = false then .error ("Invalid operator " ++ op)
  else if op = "IN" ∨ op = "NOT IN" then
    match x with
    | .val (.vArr vs) =>
        let (ss1, toks) := sAddChunks ss cb.ctx vs
        .ok (ss1, cb.push .and (.lit (key ++ " " ++ op ++ " (") ::
          (chunksJoinSep ", " (toks.map (fun t => [t])) ++ [.lit ")"])))
    | _ => .error (op ++ " expects array")
  else if op = "BETWEEN" then
    match x with
    | .val (.vArr [a, b]) =>
        let (ss1, p1) := sAdd ss cb.ctx a
        let (ss2, p2) := sAdd ss1 cb.ctx b
        .ok (ss2, cb.push .and [.lit (key ++ " BETWEEN "), p1, .lit " AND ", p2])
    | _ => .error "BETWEEN expects [min,max]"
  else if op = "EXISTS" then
    match x with
    | .sub p => do
        let (ss1, subQ) ← specRunPlan p ss
        let (ss2, subSql, subParams) := specBuild ss1 subQ
        let ss3 := sAddMany ss2 cb.ctx subParams
        .ok (ss3, cb.push .and (.lit "EXISTS (" :: (subSql ++ [.lit ")"])))
    | .val _ => .error "EXISTS expects QueryBuilder"
  else
    let v := match x with
      | .val v => v
      | .sub _ => Val.vObj
    let (ss1, tok) := sAdd ss cb.ctx v
    .ok (ss1, cb.push .and [.lit (key ++ " " ++ op ++ " "), tok])

/-- Spec image of `runCondOps`. -/
def specRunCondOps (ops : List CondOp) (cb : SCond) (ss : SpecStore) :
    Except String (SpecStore × SCond) :=
  match ops with
  | [] => .ok (ss, cb)
  | o :: rest => do
      let (ss1, cb1) ← specRunCondOp o cb ss
      specRunCondOps rest cb1 ss1

/-- Spec image of `runCondOp`. -/
def specRunCondOp (o : CondOp) (cb : SCond) (ss : SpecStore) :
    Except String (SpecStore × SCond) :=
  match o with
  | .centry key c => specCondEntry key c cb ss
  | .craw e => .ok (ss, cb.push .and [.lit e])
  | .cgroup conn ops => do
      let (ss1, nested) ← specRunCondOps ops ⟨cb.ctx, []⟩ ss
      if nested.parts = [] then .ok (ss1, cb)
      else .ok (ss1, cb.push conn ([.lit "("] ++ sJoinParts nested.parts ++ [.lit ")"]))
end

/-- Spec image of `runPlanD`: the skeleton and the parameter array. -/
def specPlanD (p : Plan) : Except String (Chunks × List Val) :=
  match specRunPlan p [] with
  | .error e => .error e
  | .ok (ss, q) =>
      let (_, sql, ps) := specBuild ss q
      .ok (sql, ps)

/-- Relate two fallible results componentwise; thrown errors must agree. -/
def exceptRel {α β : Type} (R : α → β → Prop) : Except String α → Except String β → Prop
  | .ok a, .ok b => R a b
  | .error e, .error f => e = f
  | _, _ => False

/-- A store and its spec image: same contexts with the same params, every
context carrying the dialect `d`. -/
def storeRel (d : Dialect) (s : Store) (ss : SpecStore) : Prop :=
  ss = s.map (fun c => c.params) ∧ ∀ c ∈ s, c.dialect = d

/-- A condition builder and its spec image: same context reference, nodes
pointwise rendered under `d`. -/
def condRel (d : Dialect) (cb : ConditionBuilder) (scb : SCond) : Prop :=
  cb.ctx = scb.ctx ∧
  cb.parts = scb.parts.map (fun n => ⟨n.type, renderChunks d n.expr⟩)

mutual
/-- A builder and its spec image: equal dialect-free fields, rendered
fragments, related condition builders and cte lists. -/
def qbRel (d : Dialect) : QueryBuilder → SQB → Prop
  | .mk f j g o l off ctes fc dd cx cond hav, .mk f' j' g' o' l' off' sctes fc' cx' cond' hav' =>
    f = f' ∧ j = j' ∧ g = g' ∧ o = o' ∧ l = l' ∧ off = off' ∧ cteRel d ctes sctes ∧
    fc = renderChunks d fc' ∧ dd = d ∧ cx = cx' ∧ condRel d cond cond' ∧ condRel d hav hav'

/-- Pointwise `qbRel` on cte lists. -/
def cteRel (d : Dialect) : CteList → SCteList → Prop
  | .nil, .nil => True
  | .cons n r q rest, .cons n' r' q' rest' => n = n' ∧ r = r' ∧ qbRel d q q' ∧ cteRel d rest rest'
  | .nil, .cons _ _ _ _ => False
  | .cons _ _ _ _, .nil => False
end

mutual
/-- A program is ordered when it registers parameters in the order their
placeholders appear in the emitted text: no CTEs, at most one
`fromSubquery` and only as the first parameter-registering call, every
`where`-family call before every `having`-family call, and every embedded
sub-program ordered as well.  `c` is the least clause class still
allowed (0 from, 1 where, 2 having). -/
def orderedPlanB : Plan → Bool
  | .mk _ ops => orderedOpsB 0 ops

/-- Ordered check for a list of chained calls. -/
def orderedOpsB (c : Nat) : List QOp → Bool
  | [] => true
  | o :: rest =>
      match o with
      | .fromSubqueryQ sub _ => (c == 0) && orderedPlanB sub && orderedOpsB 1 rest
      | .whereQ _ cv => (c ≤ 1 : Bool) && orderedCondValB cv && orderedOpsB 1 rest
      | .whereRawQ _ => (c ≤ 1 : Bool) && orderedOpsB 1 rest
      | .groupQ _ cops => (c ≤ 1 : Bool) && orderedCondOpsB cops && orderedOpsB 1 rest
      | .havingQ _ cv => orderedCondValB cv && orderedOpsB 2 rest
      | .havingRawQ _ => orderedOpsB 2 rest
      | .withCteQ _ _ _ => false
      | _ => orderedOpsB c rest

/-- Ordered check for a group callback. -/
def orderedCondOpsB : List CondOp → Bool
  | [] => true
  | o :: rest => orderedCondOpB o && orderedCondOpsB rest

/-- Ordered check for one condition call. -/
def orderedCondOpB : CondOp → Bool
  | .centry _ cv => orderedCondValB cv
  | .craw _ => true
  | .cgroup _ ops => orderedCondOpsB ops

/-- Ordered check for one condition value. -/
def orderedCondValB : CondVal → Bool
  | .nullv => true
  | .scalar _ => true
  | .cmp _ x => orderedOperandB x

/-- Ordered check for an operand. -/
def orderedOperandB : Operand → Bool
  | .val _ => true
  | .sub p => orderedPlanB p
end

/-- Values registered by the nodes of a spec condition builder, in node
order and, within a node, in fragment text order. -/
def partsVals : List SCondNode → List Val
  | [] => []
  | n :: r => textVals n.expr ++ partsVals r

/-- Values whose placeholders sit in the FROM clause. -/
def SQB.fVals (q : SQB) : List Val := textVals q.fromClause

/-- Values whose placeholders sit in the WHERE clause. -/
def SQB.wVals (q : SQB) : List Val := partsVals q.condition.parts

/-- Values whose placeholders sit in the HAVING clause. -/
def SQB.hVals (q : SQB) : List Val := partsVals q.havingCondition.parts

/-!
Clause pieces of an assembled statement, following the build order the
spec gives for `build()`: WITH, SELECT/FROM, joins, WHERE, GROUP BY,
HAVING, ORDER BY, LIMIT, OFFSET, each dropped when empty.
-/

/-- The WITH clause, `RECURSIVE` applied once iff any cte is recursive. -/
def specWithPiece (s : Store) (q : QueryBuilder) : String :=
  if q.ctes.isNil then ""
  else "WITH " ++ (if q.ctes.anyRec then "RECURSIVE " else "") ++
    joinSep ", " (buildCtes s q.ctx q.ctes).2

/-- The SELECT list (wildcard when empty) and FROM source. -/
def specSelectPiece (q : QueryBuilder) : String :=
  "SELECT " ++ (if q.fields = [] then "*" else joinSep ", " q.fields) ++ " FROM " ++ q.fromClause

/-- The join clauses in declaration order. -/
def specJoinsPiece (q : QueryBuilder) : String :=
  if q.joins = [] then "" else joinSep " " q.joins

/-- The WHERE clause. -/
def specWherePiece (q : QueryBuilder) : String := q.condition.build "WHERE"

/-- The GROUP BY clause. -/
def specGroupByPiece (q : QueryBuilder) : String :=
  if q.groupByFields = [] then "" else "GROUP BY " ++ joinSep ", " q.groupByFields

/-- The HAVING clause. -/
def specHavingPiece (q : QueryBuilder) : String := q.havingCondition.build "HAVING"

/-- The ORDER BY clause. -/
def specOrderPiece (q : QueryBuilder) : String :=
  if q.orderByFields = [] then "" else "ORDER BY " ++ joinSep ", " q.orderByFields

/-- The LIMIT clause; a zero bound is dropped by the falsy check. -/
def specLimitPiece (q : QueryBuilder) : String :=
  match q.limitCount with
  | some n => if n = 0 then "" else "LIMIT " ++ toString n
  | none => ""

/-- The OFFSET clause; a zero bound is dropped by the falsy check. -/
def specOffsetPiece (q : QueryBuilder) : String :=
  match q.offsetCount with
  | some n => if n = 0 then "" else "OFFSET " ++ toString n
  | none => ""

/-- All clause pieces in assembly order. -/
def buildPieces (s : Store) (q : QueryBuilder) : List String :=
  [specWithPiece s q, specSelectPiece q, specJoinsPiece q, specWherePiece q,
   specGroupByPiece q, specHavingPiece q, specOrderPiece q, specLimitPiece q, specOffsetPiece q]

/-- The assembled statement per the spec: the non-empty clause pieces in
order, separated by single spaces. -/
def specAssembled (s : Store) (q : QueryBuilder) : String :=
  joinSep " " ((buildPieces s q).filter (fun p => p != ""))

/-- `kw` occurs as a contiguous substring of `s`. -/
def containsKw (s kw : String) : Prop := ∃ a b, s.data = a ++ kw.data ++ b

/-- The strings a caller supplied to a builder state (fields, joins,
grouping, ordering, FROM clause). -/
def QueryBuilder.inputStrings (q : QueryBuilder) : List String :=
  q.fields ++ q.joins ++ q.groupByFields ++ q.orderByFields ++ [q.fromClause]

/-!
Concrete programs used as failing inputs and witnesses.
-/

/-- A sub-statement requiring parameters `[10, 20]`. -/
def childPlan : Plan := .mk "t" [.whereQ "a" (.scalar (.vInt 10)), .whereQ "b" (.scalar (.vInt 20))]

/-- A parent that binds `[30]` itself and embeds `childPlan` as a cte. -/
def parentPlan : Plan :=
  .mk "c" [.whereQ "x" (.scalar (.vInt 30)), .withCteQ "cte1" childPlan false]

/-- Build the same unmodified builder twice and return both results. -/
def doubleBuild (d : Dialect) (p : Plan) : Except String ((String × List Val) × (String × List Val)) :=
  match runPlan d p [] with
  | .error e => .error e
  | .ok (s, q) =>
      let (s1, sql1, ps1) := QueryBuilder.build s q
      let (_, sql2, ps2) := QueryBuilder.build s1 q
      .ok ((sql1, ps1), (sql2, ps2))

/-- The spec's grouping example:
`where({a:1}).andGroup(g => g.where({b:2}).orGroup(h => h.where({c:3})))`. -/
def groupingPlan : Plan :=
  .mk "t" [.whereQ "a" (.scalar (.vInt 1)),
    .groupQ .and [.centry "b" (.scalar (.vInt 2)),
      .cgroup .or [.centry "c" (.scalar (.vInt 3))]]]

/-- A `having` call made before a `where` call: parameters register in
call order while the text renders WHERE before HAVING. -/
def havingFirstPlan : Plan :=
  .mk "t" [.havingQ "h" (.scalar (.vInt 1)), .whereQ "w" (.scalar (.vInt 2))]

/-- An ordered program exercising FROM-subquery, IN, BETWEEN, EXISTS,
grouping and HAVING. -/
def orderedDemoPlan : Plan :=
  .mk "t" [.fromSubqueryQ (.mk "u" [.whereQ "k" (.scalar (.vInt 7))]) "sq",
    .whereQ "x" (.cmp "IN" (.val (.vArr [.vInt 1, .vInt 2]))),
    .groupQ .or [.centry "y" (.cmp "BETWEEN" (.val (.vArr [.vInt 3, .vInt 4]))),
      .centry "z" (.cmp "EXISTS" (.sub (.mk "v" [.whereQ "m" (.scalar (.vInt 5))])))],
    .groupByQ ["g"],
    .havingQ "n" (.scalar (.vInt 6)),
    .orderByQ "x" .asc, .limitQ 3, .offsetQ 4]

/-- `Array.isArray(value)` on an operand. -/
def Operand.isArray : Operand → Bool
  | .val (.vArr _) => true
  | _ => false

/-- The operand is a two-element array (the `BETWEEN` shape). -/
def Operand.isPair : Operand → Bool
  | .val (.vArr [_, _]) => true
  | _ => false

/-- `value instanceof QueryBuilder` on an operand. -/
def Operand.isSub : Operand → Bool
  | .sub _ => true
  | _ => false

/-!
Basic lemmas about the context store.
-/

theorem length_ctxAdd (s : Store) (i : Nat) (v : Val) : ((ctxAdd s i v).1).length = s.length := by
  simp [ctxAdd]

theorem getParams_ctxAdd_self (s : Store) (i : Nat) (v : Val) (h : i < s.length) :
    getParams (ctxAdd s i v).1 i = getParams s i ++ [v] := by
  simp [ctxAdd, getParams, ctxGet, List.getD, List.getElem?_set, h]

theorem getParams_ctxAdd_ne (s : Store) (i j : Nat) (v : Val) (h : j ≠ i) :
    getParams (ctxAdd s i v).1 j = getParams s j := by
  simp [ctxAdd, getParams, ctxGet, List.getD, List.getElem?_set, Ne.symm h]

theorem dialect_ctxAdd (s : Store) (i j : Nat) (v : Val) :
    (ctxGet (ctxAdd s i v).1 j).dialect = (ctxGet s j).dialect := by
  by_cases hij : j = i
  · subst hij
    by_cases hj : j < s.length
    · simp [ctxAdd, ctxGet, List.getD, List.getElem?_set, hj]
    · simp [ctxAdd, ctxGet, List.getD, List.getElem?_set, hj,
        List.getElem?_eq_none (Nat.le_of_not_lt hj)]
  · simp [ctxAdd, ctxGet, List.getD, List.getElem?_set, Ne.symm hij]

theorem length_ctxAddMany (s : Store) (i : Nat) (vs : List Val) :
    (ctxAddMany s i vs).length = s.length := by
  induction vs generalizing s with
  | nil => rfl
  | cons v vs ih => simp [ctxAddMany, ih, length_ctxAdd]

theorem getParams_ctxAddMany_self (s : Store) (i : Nat) (vs : List Val) (h : i < s.length) :
    getParams (ctxAddMany s i vs) i = getParams s i ++ vs := by
  induction vs generalizing s with
  | nil => simp [ctxAddMany]
  | cons v vs ih =>
      rw [ctxAddMany, ih _ (by rw [length_ctxAdd]; exact h),
        getParams_ctxAdd_self _ _ _ h]
      simp

theorem getParams_ctxAddMany_ne (s : Store) (i j : Nat) (vs : List Val) (h : j ≠ i) :
    getParams (ctxAddMany s i vs) j = getParams s j := by
  induction vs generalizing s with
  | nil => rfl
  | cons v vs ih => rw [ctxAddMany, ih, getParams_ctxAdd_ne _ _ _ _ h]

theorem getParams_append_left (s t : Store) (j : Nat) (h : j < s.length) :
    getParams (s ++ t) j = getParams s j := by
  simp [getParams, ctxGet, List.getD, List.getElem?_append_left h]

theorem ctxGet_append_left (s t : Store) (j : Nat) (h : j < s.length) :
    ctxGet (s ++ t) j = ctxGet s j := by
  simp [ctxGet, List.getD, List.getElem?_append_left h]

/-!
Claim theorems: null handling and scalar equality (`where`).
-/

/-- C7: `where({x: null})` appends `x IS NULL` and leaves the store (and
so the parameter array) untouched; `where({x: v})` for a value `v`
registers `v` through the shared context — the array gains exactly `v` —
and appends `x = tok` where `tok` is the dialect placeholder for the new
length. -/
theorem where_null_and_equals (d : Dialect) (key : String) (v : Val) (cb : ConditionBuilder)
    (s : Store) :
    condEntry d key .nullv cb s = .ok (s, cb.push .and (key ++ " IS NULL")) ∧
    condEntry d key (.scalar v) cb s =
      .ok ((ctxAdd s cb.ctx v).1,
        cb.push .and (key ++ " = " ++
          (ctxGet s cb.ctx).dialect.placeholder ((getParams s cb.ctx).length + 1))) ∧
    (cb.ctx < s.length →
      getParams (ctxAdd s cb.ctx v).1 cb.ctx = getParams s cb.ctx ++ [v]) := by
  refine ⟨rfl, rfl, fun h => getParams_ctxAdd_self _ _ _ h⟩

/-- Closed instance of `where_null_and_equals` at a concrete builder. -/
theorem where_null_and_equals_witness :
    condEntry PostgresDialect "x" .nullv ⟨0, []⟩ [⟨PostgresDialect, []⟩] =
      .ok ([⟨PostgresDialect, []⟩], ⟨0, [⟨.and, "x IS NULL"⟩]⟩) ∧
    getParams (ctxAdd [⟨PostgresDialect, []⟩] 0 (.vInt 5)).1 0 = [.vInt 5] := by
  have h := where_null_and_equals PostgresDialect "x" (.vInt 5) ⟨0, []⟩ [⟨PostgresDialect, []⟩]
  exact ⟨h.1, by simpa using h.2.2 (by decide)⟩

/-!
Claim theorems: zero limit and offset are dropped.
-/

/-- C9: a builder whose `limitCount` (resp. `offsetCount`) is exactly `0`
builds the same result as one where the bound was never set: the falsy
check drops the clause, so `limit(0)`/`offset(0)` are indistinguishable
from absence. -/
theorem limit_offset_zero_dropped (s : Store) (q : QueryBuilder) :
    QueryBuilder.build s (q.setLimit (some 0)) = QueryBuilder.build s (q.setLimit none) ∧
    QueryBuilder.build s (q.setOffset (some 0)) = QueryBuilder.build s (q.setOffset none) := by
  cases q with
  | mk fields joins g o l off ctes fc d cx cond hav =>
      constructor
      · simp [QueryBuilder.setLimit, QueryBuilder.build]
      · simp [QueryBuilder.setOffset, QueryBuilder.build]

/-!
Claim theorems: operator and operand validation.
-/

/-- C5: `handleOperator` rejects an operator outside the allow-list with
the invalid-operator error; `IN`/`NOT IN` with a non-array operand, a
`BETWEEN` operand that is not a two-element array, and an `EXISTS` operand
that is not a statement each fail with the matching invalid-operand error.
Every failing call returns only the error, so no condition node is
appended and no parameter is registered. -/
theorem handle_operator_validation (d : Dialect) (key op : String) (x : Operand)
    (cb : ConditionBuilder) (s : Store) :
    (allowedOperators.contains op = false →
      handleOperator d key op x cb s = .error ("Invalid operator " ++ op)) ∧
    (x.isArray = false →
      handleOperator d key "IN" x cb s = .error "IN expects array") ∧
    (x.isArray = false →
      handleOperator d key "NOT IN" x cb s = .error "NOT IN expects array") ∧
    (x.isPair = false →
      handleOperator d key "BETWEEN" x cb s = .error "BETWEEN expects [min,max]") ∧
    (x.isSub = false →
      handleOperator d key "EXISTS" x cb s = .error "EXISTS expects QueryBuilder") := by
  refine ⟨fun h => ?_, fun h => ?_, fun h => ?_, fun h => ?_, fun h => ?_⟩
  · unfold handleOperator
    rw [if_pos h]
  · cases x with
    | val v => cases v <;> simp_all [handleOperator, Operand.isArray, allowedOperators]
    | sub p => simp [handleOperator, allowedOperators]
  · cases x with
    | val v => cases v <;> simp_all [handleOperator, Operand.isArray, allowedOperators]
    | sub p => simp [handleOperator, allowedOperators]
  · cases x with
    | val v =>
        cases v with
        | vArr vs =>
            match vs with
            | [] => simp [handleOperator, allowedOperators]
            | [a] => simp [handleOperator, allowedOperators]
            | [a, b] => simp [Operand.isPair] at h
            | a :: b :: c :: r => simp [handleOperator, allowedOperators]
        | vInt n => simp [handleOperator, allowedOperators]
        | vStr t => simp [handleOperator, allowedOperators]
        | vBool b => simp [handleOperator, allowedOperators]
        | vNull => simp [handleOperator, allowedOperators]
        | vObj => simp [handleOperator, allowedOperators]
    | sub p => simp [handleOperator, allowedOperators]
  · cases x with
    | val v => simp [handleOperator, allowedOperators]
    | sub p => exact Bool.noConfusion h

/-- Closed instances of `handle_operator_validation`: `DROP` is rejected
as an invalid operator, `IN 5` and a scalar `BETWEEN`/`EXISTS` operand as
invalid operands. -/
theorem handle_operator_validation_witness :
    handleOperator PostgresDialect "x" "DROP" (.val (.vInt 1)) ⟨0, []⟩ [] =
      .error "Invalid operator DROP" ∧
    handleOperator PostgresDialect "x" "IN" (.val (.vInt 5)) ⟨0, []⟩ [] =
      .error "IN expects array" ∧
    handleOperator PostgresDialect "x" "BETWEEN" (.val (.vInt 5)) ⟨0, []⟩ [] =
      .error "BETWEEN expects [min,max]" ∧
    handleOperator PostgresDialect "x" "EXISTS" (.val (.vInt 5)) ⟨0, []⟩ [] =
      .error "EXISTS expects QueryBuilder" := by
  have h1 := handle_operator_validation PostgresDialect "x" "DROP" (.val (.vInt 1)) ⟨0, []⟩ []
  have h2 := handle_operator_validation PostgresDialect "x" "IN" (.val (.vInt 5)) ⟨0, []⟩ []
  have h3 := handle_operator_validation PostgresDialect "x" "BETWEEN" (.val (.vInt 5)) ⟨0, []⟩ []
  have h4 := handle_operator_validation PostgresDialect "x" "EXISTS" (.val (.vInt 5)) ⟨0, []⟩ []
  exact ⟨h1.1 (by decide), h2.2.1 (by decide), h3.2.2.2.1 (by decide), h4.2.2.2.2 (by decide)⟩

/-!
Claim theorems: group rendering.
-/

theorem string_mk_data (s : String) : String.mk s.data = s := by cases s; rfl

theorem stripWhere_prepend (x : String) : stripWhere ("WHERE " ++ x) = x := by
  unfold stripWhere
  rw [if_pos]
  · rw [show ("WHERE " ++ x).data = "WHERE ".data ++ x.data from String.data_append .. ,
      show (6 : Nat) = "WHERE ".data.length from rfl, List.drop_left, string_mk_data]
  · rw [show ("WHERE " ++ x).data = "WHERE ".data ++ x.data from String.data_append .. ,
      show (6 : Nat) = "WHERE ".data.length from rfl, List.take_left]

theorem where_prepend_ne_empty (x : String) : "WHERE " ++ x ≠ "" := by
  intro h
  have : ("WHERE " ++ x).data = ("" : String).data := by rw [h]
  rw [String.data_append] at this
  simp at this

/-- The built clause of a non-empty builder, with its keyword stripped,
is exactly the joined node list. -/
theorem stripWhere_build (cb : ConditionBuilder) (h : cb.parts ≠ []) :
    stripWhere (cb.build "WHERE") = joinParts cb.parts ∧ cb.build "WHERE" ≠ "" := by
  rw [ConditionBuilder.build, if_neg h,
    show "WHERE" ++ " " ++ joinParts cb.parts = "WHERE " ++ joinParts cb.parts from rfl]
  exact ⟨stripWhere_prepend _, where_prepend_ne_empty _⟩

/-- C6: the chain
`where({a:1}).andGroup(g => g.where({b:2}).orGroup(h => h.where({c:3})))`
renders as `WHERE a = $1 AND (b = $2 OR (c = $3))` with parameters
`[1, 2, 3]`; in general a group whose callback produced nodes is appended
as a single parenthesized node carrying the group's connector, and a
group whose callback produced nothing leaves the node list unchanged. -/
theorem nested_group_rendering :
    runPlanD PostgresDialect groupingPlan =
      .ok ("SELECT * FROM t WHERE a = $1 AND (b = $2 OR (c = $3))",
        [.vInt 1, .vInt 2, .vInt 3]) ∧
    (∀ (d : Dialect) (conn : Conn) (ops : List CondOp) (cb : ConditionBuilder) (s s₁ : Store)
      (n : ConditionBuilder),
      runCondOps d ops ⟨cb.ctx, []⟩ s = .ok (s₁, n) →
      (n.parts = [] → runCondOp d (.cgroup conn ops) cb s = .ok (s₁, cb)) ∧
      (n.parts ≠ [] → runCondOp d (.cgroup conn ops) cb s =
        .ok (s₁, cb.push conn ("(" ++ joinParts n.parts ++ ")")))) := by
  constructor
  · decide
  · intro d conn ops cb s s₁ n h
    constructor
    · intro hn
      have hb : ConditionBuilder.build n "WHERE" = "" := by
        rw [ConditionBuilder.build, if_pos hn]
      rw [runCondOp, h]
      change (if ConditionBuilder.build n "WHERE" = "" then Except.ok (s₁, cb)
        else Except.ok (s₁,
          cb.push conn ("(" ++ stripWhere (ConditionBuilder.build n "WHERE") ++ ")"))) =
        Except.ok (s₁, cb)
      rw [if_pos hb]
    · intro hn
      have hs := stripWhere_build n hn
      rw [runCondOp, h]
      change (if ConditionBuilder.build n "WHERE" = "" then Except.ok (s₁, cb)
        else Except.ok (s₁,
          cb.push conn ("(" ++ stripWhere (ConditionBuilder.build n "WHERE") ++ ")"))) = _
      rw [if_neg hs.2, hs.1]

/-- Closed instances of `nested_group_rendering`: a group with one node is
appended as one parenthesized node, an empty group contributes nothing. -/
theorem nested_group_rendering_witness :
    runCondOp PostgresDialect (.cgroup .or [.centry "b" (.scalar (.vInt 2))]) ⟨0, []⟩
      [⟨PostgresDialect, []⟩] =
      .ok ([⟨PostgresDialect, [.vInt 2]⟩], ⟨0, [⟨.or, "(b = $1)"⟩]⟩) ∧
    runCondOp PostgresDialect (.cgroup .and []) ⟨0, []⟩ [⟨PostgresDialect, []⟩] =
      .ok ([⟨PostgresDialect, []⟩], ⟨0, []⟩) := by
  have h := (nested_group_rendering).2 PostgresDialect .or [.centry "b" (.scalar (.vInt 2))]
    ⟨0, []⟩ [⟨PostgresDialect, []⟩] [⟨PostgresDialect, [.vInt 2]⟩] ⟨0, [⟨.and, "b = $1"⟩]⟩
    (by rfl)
  have h2 := (nested_group_rendering).2 PostgresDialect .and [] ⟨0, []⟩ [⟨PostgresDialect, []⟩]
    [⟨PostgresDialect, []⟩] ⟨0, []⟩ (by rfl)
  exact ⟨by rw [h.2 (by decide)]; rfl, by rw [h2.1 rfl]⟩

/-!
Claim theorems: clone shares the original context with its cloned
condition builders but builds from its own copied context.
-/

/-- Building a statement without CTEs leaves the store untouched and
returns the builder's own context params. -/
theorem build_noCtes (s : Store) (q : QueryBuilder) (h : q.ctes = .nil) :
    (QueryBuilder.build s q).1 = s ∧ (QueryBuilder.build s q).2.2 = getParams s q.ctx := by
  cases q with
  | mk fields joins g o l off ctes fc d cx cond hav =>
      cases ctes with
      | nil => constructor <;> rfl
      | cons n r sub rest => exact absurd h (by simp [QueryBuilder.ctes])

theorem getParams_append_two (s : Store) (a b : ParamContext) :
    getParams (s ++ [a, b]) (s.length + 1) = b.params := by
  simp [getParams, ctxGet, List.getD, List.getElem?_append_right, List.getElem_append_right,
    show s.length ≤ s.length + 1 by omega]

/-- C4: after `clone()` (the variant copying `condition`,
`havingCondition` and `ctx`), a `where({key: v})` on the clone appends `v`
to the original's context — the cloned condition builder still references
it — while the clone's own copied context is untouched; the clone's
subsequent `build()` therefore returns a params array without `v`, and the
placeholder rendered into the clone's SQL text is computed from the
original context's count. -/
theorem clone_context_aliasing (d' : Dialect) (s : Store) (q : QueryBuilder) (key : String)
    (v : Val) (hcc : q.condition.ctx = q.ctx) (hlt : q.ctx < s.length) (hctes : q.ctes = .nil)
    (hv : v ∉ getParams s q.ctx) :
    ∀ s₁ qc, QueryBuilder.clone s q = (s₁, qc) →
    ∀ s₂ qc', runOp d' (.whereQ key (.scalar v)) qc s₁ = .ok (s₂, qc') →
      getParams s₂ q.ctx = getParams s q.ctx ++ [v] ∧
      qc.ctx ≠ q.ctx ∧
      getParams s₂ qc.ctx = getParams s q.ctx ∧
      (QueryBuilder.build s₂ qc').2.2 = getParams s q.ctx ∧
      v ∉ (QueryBuilder.build s₂ qc').2.2 ∧
      qc'.condition.parts = q.condition.parts ++
        [⟨.and, key ++ " = " ++
          (ctxGet s q.ctx).dialect.placeholder ((getParams s q.ctx).length + 1)⟩] := by
  cases q with
  | mk fields joins g o l off ctes fc d cx cond hav =>
      intro s₁ qc hcl s₂ qc' h
      simp only [QueryBuilder.ctx, QueryBuilder.condition, QueryBuilder.ctes] at hcc hlt hctes hv ⊢
      subst hctes
      have hclone : QueryBuilder.clone s (.mk fields joins g o l off .nil fc d cx cond hav) =
          (s ++ [(⟨d, []⟩ : ParamContext)] ++ [ctxGet s cx],
           .mk fields joins g o l off .nil fc d (s.length + 1) cond hav) := by
        simp [QueryBuilder.clone, newCtx, cloneCtx,
          ctxGet_append_left s [⟨d, []⟩] cx hlt]
      rw [hclone, Prod.mk.injEq] at hcl
      obtain ⟨hs₁, hqc⟩ := hcl
      subst hs₁
      subst hqc
      rw [show runOp d' (.whereQ key (.scalar v)) (.mk fields joins g o l off .nil fc d (s.length + 1) cond hav) (s ++ [(⟨d, []⟩ : ParamContext)] ++ [ctxGet s cx]) = .ok ((ctxAdd (s ++ [(⟨d, []⟩ : ParamContext)] ++ [ctxGet s cx]) cond.ctx v).1, .mk fields joins g o l off .nil fc d (s.length + 1) (cond.push .and (key ++ " = " ++ (ctxGet (s ++ [(⟨d, []⟩ : ParamContext)] ++ [ctxGet s cx]) cond.ctx).dialect.placeholder ((getParams (s ++ [(⟨d, []⟩ : ParamContext)] ++ [ctxGet s cx]) cond.ctx).length + 1))) hav) from rfl, Except.ok.injEq, Prod.mk.injEq] at h
      obtain ⟨hs₂, hqc'⟩ := h
      subst hs₂
      subst hqc'
      have hlen2 : cx < (s ++ [(⟨d, []⟩ : ParamContext)] ++ [ctxGet s cx]).length := by
        simp
        omega
      have hget : getParams (s ++ [(⟨d, []⟩ : ParamContext)] ++ [ctxGet s cx]) cx =
          getParams s cx := by
        rw [List.append_assoc, getParams_append_left _ _ _ hlt]
      have hgetc : ctxGet (s ++ [(⟨d, []⟩ : ParamContext)] ++ [ctxGet s cx]) cx = ctxGet s cx := by
        rw [List.append_assoc, ctxGet_append_left _ _ _ hlt]
      have hne : s.length + 1 ≠ cx := by omega
      have hcloneparams :
          getParams (s ++ [(⟨d, []⟩ : ParamContext)] ++ [ctxGet s cx]) (s.length + 1) =
          getParams s cx := by
        rw [List.append_assoc]
        exact getParams_append_two s _ _
      have hbuild := build_noCtes
        ((ctxAdd (s ++ [(⟨d, []⟩ : ParamContext)] ++ [ctxGet s cx]) cond.ctx v).1)
        (.mk fields joins g o l off .nil fc d (s.length + 1)
          (cond.push .and (key ++ " = " ++ (ctxGet (s ++ [(⟨d, []⟩ : ParamContext)] ++ [ctxGet s cx]) cond.ctx).dialect.placeholder ((getParams (s ++ [(⟨d, []⟩ : ParamContext)] ++ [ctxGet s cx]) cond.ctx).length + 1))) hav)
        rfl
      refine ⟨?_, ?_, ?_, ?_, ?_, ?_⟩
      · rw [hcc, getParams_ctxAdd_self _ _ _ hlen2, hget]
      · simpa [QueryBuilder.ctx] using hne
      · simp only [QueryBuilder.ctx]
        rw [hcc, getParams_ctxAdd_ne _ _ _ _ hne, hcloneparams]
      · rw [hbuild.2]
        simp only [QueryBuilder.ctx]
        rw [hcc, getParams_ctxAdd_ne _ _ _ _ hne, hcloneparams]
      · rw [hbuild.2]
        simp only [QueryBuilder.ctx]
        rw [hcc, getParams_ctxAdd_ne _ _ _ _ hne, hcloneparams]
        exact hv
      · simp only [QueryBuilder.condition, ConditionBuilder.push]
        rw [hcc, hgetc, hget]

/-- Closed instance of `clone_context_aliasing` at a one-parameter
builder: the clone's `where` call lands `9` in the original's context and
renders `$2` from the original's count. -/
theorem clone_context_aliasing_witness :
    QueryBuilder.clone [⟨PostgresDialect, [.vInt 1]⟩]
        (.mk [] [] [] [] none none .nil "t" PostgresDialect 0 ⟨0, []⟩ ⟨0, []⟩) =
      ([⟨PostgresDialect, [.vInt 1]⟩, ⟨PostgresDialect, []⟩, ⟨PostgresDialect, [.vInt 1]⟩],
       .mk [] [] [] [] none none .nil "t" PostgresDialect 2 ⟨0, []⟩ ⟨0, []⟩) ∧
    runOp PostgresDialect (.whereQ "k" (.scalar (.vInt 9)))
        (.mk [] [] [] [] none none .nil "t" PostgresDialect 2 ⟨0, []⟩ ⟨0, []⟩)
        [⟨PostgresDialect, [.vInt 1]⟩, ⟨PostgresDialect, []⟩, ⟨PostgresDialect, [.vInt 1]⟩] =
      .ok ([⟨PostgresDialect, [.vInt 1, .vInt 9]⟩, ⟨PostgresDialect, []⟩,
              ⟨PostgresDialect, [.vInt 1]⟩],
           .mk [] [] [] [] none none .nil "t" PostgresDialect 2
             ⟨0, [⟨.and, "k = $2"⟩]⟩ ⟨0, []⟩) ∧
    getParams [⟨PostgresDialect, [.vInt 1, .vInt 9]⟩, ⟨PostgresDialect, []⟩,
      ⟨PostgresDialect, [.vInt 1]⟩] 0 = [.vInt 1, .vInt 9] ∧
    ConditionBuilder.parts ⟨0, [⟨.and, "k = $2"⟩]⟩ = [⟨.and, "k = $2"⟩] := by
  have h := clone_context_aliasing PostgresDialect [⟨PostgresDialect, [.vInt 1]⟩]
    (.mk [] [] [] [] none none .nil "t" PostgresDialect 0 ⟨0, []⟩ ⟨0, []⟩) "k" (.vInt 9)
    rfl (by decide) rfl (by decide)
    [⟨PostgresDialect, [.vInt 1]⟩, ⟨PostgresDialect, []⟩, ⟨PostgresDialect, [.vInt 1]⟩]
    (.mk [] [] [] [] none none .nil "t" PostgresDialect 2 ⟨0, []⟩ ⟨0, []⟩) rfl
    [⟨PostgresDialect, [.vInt 1, .vInt 9]⟩, ⟨PostgresDialect, []⟩, ⟨PostgresDialect, [.vInt 1]⟩]
    (.mk [] [] [] [] none none .nil "t" PostgresDialect 2 ⟨0, [⟨.and, "k = $2"⟩]⟩ ⟨0, []⟩) rfl
  simp only [QueryBuilder.ctx, QueryBuilder.condition] at h
  refine ⟨rfl, rfl, ?_, ?_⟩
  · rw [h.1]
    decide
  · rw [h.2.2.2.2.2]

/-!
Claim theorems: CTE parameter flattening order and build idempotence.
-/

/-- C1 (failing on the code): a parent that binds `30` through `where`
before `build()` and embeds a sub-statement binding `[10, 20]` via
`withCte` returns `params = [30, 10, 20]`, not the `[10, 20, 30]` of the
emitted placeholder order: `with()` defers building the cte to `build()`,
so the child's parameters are appended after every parent-side `add`, while
the child's already-rendered `$1`/`$2` sit before the parent's `$1` in the
text.  The third placeholder `$3` never occurs although three parameters
are returned. -/
theorem cte_flattening_param_order :
    runPlanD PostgresDialect parentPlan =
      .ok ("WITH cte1 AS (SELECT * FROM t WHERE a = $1 AND b = $2) SELECT * FROM c WHERE x = $1",
        [.vInt 30, .vInt 10, .vInt 20]) ∧
    (runPlanD PostgresDialect parentPlan).map (fun r => r.2) ≠
      .ok [.vInt 10, .vInt 20, .vInt 30] := by
  constructor
  · decide
  · decide

/-- C3 (failing on the code): building the same unmodified statement with
one cte twice returns the same sql both times but re-appends the child's
parameters to the parent context, so the second `params` is
`[30, 10, 20, 10, 20]` instead of the first build's `[30, 10, 20]`. -/
theorem build_twice_with_cte :
    doubleBuild PostgresDialect parentPlan =
      .ok (("WITH cte1 AS (SELECT * FROM t WHERE a = $1 AND b = $2) SELECT * FROM c WHERE x = $1",
            [.vInt 30, .vInt 10, .vInt 20]),
           ("WITH cte1 AS (SELECT * FROM t WHERE a = $1 AND b = $2) SELECT * FROM c WHERE x = $1",
            [.vInt 30, .vInt 10, .vInt 20, .vInt 10, .vInt 20])) ∧
    ([Val.vInt 30, .vInt 10, .vInt 20] : List Val) ≠
      [.vInt 30, .vInt 10, .vInt 20, .vInt 10, .vInt 20] := by
  constructor
  · decide
  · decide

/-- One assembly step of `build()`: skip an empty clause, otherwise append
it after a single space. -/
def appendPiece (acc p : String) : String := if p = "" then acc else acc ++ " " ++ p

/-!
Claim theorems: assembly order of `build()`.
-/

theorem append_ne_empty_left (s t : String) (h : s ≠ "") : s ++ t ≠ "" := by
  intro he
  apply h
  have : (s ++ t).data = ("" : String).data := by rw [he]
  rw [String.data_append] at this
  simp at this
  cases s
  simp_all

theorem joinSep_ne_empty (js : List String) (hj : "" ∉ js) (hne : js ≠ []) :
    joinSep " " js ≠ "" := by
  match js with
  | [] => exact absurd rfl hne
  | [a] =>
      show a ≠ ""
      intro h
      exact hj (by simp [h])
  | a :: b :: rest =>
      show a ++ " " ++ joinSep " " (b :: rest) ≠ ""
      exact append_ne_empty_left _ _
        (append_ne_empty_left _ _ (fun h => hj (by simp [h])))

theorem joinSep_absorb (a b : String) (l : List String) :
    joinSep " " ((a ++ " " ++ b) :: l) = joinSep " " (a :: b :: l) := by
  cases l with
  | nil => rfl
  | cons c l' => simp [joinSep, String.append_assoc]

theorem foldl_appendPiece (ps : List String) (acc : String) (h : acc ≠ "") :
    ps.foldl appendPiece acc = joinSep " " ((acc :: ps).filter (fun p => p != "")) := by
  induction ps generalizing acc with
  | nil => simp [joinSep, h]
  | cons p rest ih =>
      by_cases hp : p = ""
      · subst hp
        rw [List.foldl_cons, show appendPiece acc "" = acc from rfl, ih acc h]
        congr 1
      · have hap : acc ++ " " ++ p ≠ "" :=
          append_ne_empty_left _ _ (append_ne_empty_left _ _ h)
        rw [List.foldl_cons, show appendPiece acc p = acc ++ " " ++ p from if_neg hp,
          ih _ hap]
        rw [show ((acc ++ " " ++ p) :: rest).filter (fun x => x != "") =
            (acc ++ " " ++ p) :: rest.filter (fun x => x != "") by
          rw [List.filter_cons]
          simp [hap]]
        rw [show (acc :: p :: rest).filter (fun x => x != "") =
            acc :: p :: rest.filter (fun x => x != "") by
          rw [List.filter_cons, List.filter_cons]
          simp [h, hp]]
        rw [joinSep_absorb]

theorem empty_append_str (x : String) : "" ++ x = x := rfl

theorem strEqOfData (a b : String) (h : a.data = b.data) : a = b := String.ext h

theorem stepJoins (X : String) (js : List String) (hj : "" ∉ js) :
    (if js = [] then X else X ++ " " ++ joinSep " " js) =
    appendPiece X (if js = [] then "" else joinSep " " js) := by
  by_cases h : js = []
  · simp [h, appendPiece]
  · rw [if_neg h, if_neg h, appendPiece, if_neg (joinSep_ne_empty js hj h)]

theorem stepClause (X w : String) : (if w = "" then X else X ++ " " ++ w) = appendPiece X w :=
  rfl

theorem stepGroup (X : String) (xs : List String) :
    (if xs = [] then X else X ++ " GROUP BY " ++ joinSep ", " xs) =
    appendPiece X (if xs = [] then "" else "GROUP BY " ++ joinSep ", " xs) := by
  by_cases h : xs = []
  · simp [h, appendPiece]
  · rw [if_neg h, if_neg h, appendPiece,
      if_neg (append_ne_empty_left "GROUP BY " _ (by decide)),
      show X ++ " " ++ ("GROUP BY " ++ joinSep ", " xs) =
        X ++ " GROUP BY " ++ joinSep ", " xs by
          apply strEqOfData
          simp [String.data_append,
            show (" ".data ++ "GROUP BY ".data : List Char) = " GROUP BY ".data from by decide]]

theorem stepOrder (X : String) (xs : List String) :
    (if xs = [] then X else X ++ " ORDER BY " ++ joinSep ", " xs) =
    appendPiece X (if xs = [] then "" else "ORDER BY " ++ joinSep ", " xs) := by
  by_cases h : xs = []
  · simp [h, appendPiece]
  · rw [if_neg h, if_neg h, appendPiece,
      if_neg (append_ne_empty_left "ORDER BY " _ (by decide)),
      show X ++ " " ++ ("ORDER BY " ++ joinSep ", " xs) =
        X ++ " ORDER BY " ++ joinSep ", " xs by
          apply strEqOfData
          simp [String.data_append,
            show (" ".data ++ "ORDER BY ".data : List Char) = " ORDER BY ".data from by decide]]

theorem stepLimit (X : String) (l : Option Nat) :
    (match l with
      | some n => if n = 0 then X else X ++ " LIMIT " ++ toString n
      | none => X) =
    appendPiece X (match l with
      | some n => if n = 0 then "" else "LIMIT " ++ toString n
      | none => "") := by
  match l with
  | none => rfl
  | some n =>
      by_cases h : n = 0
      · simp [h, appendPiece]
      · simp only [if_neg h]
        rw [appendPiece, if_neg (append_ne_empty_left "LIMIT " _ (by decide)),
          show X ++ " " ++ ("LIMIT " ++ toString n) = X ++ " LIMIT " ++ toString n by
            apply strEqOfData
            simp [String.data_append,
              show (" ".data ++ "LIMIT ".data : List Char) = " LIMIT ".data from by decide]]

theorem stepOffset (X : String) (l : Option Nat) :
    (match l with
      | some n => if n = 0 then X else X ++ " OFFSET " ++ toString n
      | none => X) =
    appendPiece X (match l with
      | some n => if n = 0 then "" else "OFFSET " ++ toString n
      | none => "") := by
  match l with
  | none => rfl
  | some n =>
      by_cases h : n = 0
      · simp [h, appendPiece]
      · simp only [if_neg h]
        rw [appendPiece, if_neg (append_ne_empty_left "OFFSET " _ (by decide)),
          show X ++ " " ++ ("OFFSET " ++ toString n) = X ++ " OFFSET " ++ toString n by
            apply strEqOfData
            simp [String.data_append,
              show (" ".data ++ "OFFSET ".data : List Char) = " OFFSET ".data from by decide]]

theorem appendPiece_chain (base p1 p2 p3 p4 p5 p6 p7 : String) (h : base ≠ "") :
    appendPiece (appendPiece (appendPiece (appendPiece (appendPiece (appendPiece
      (appendPiece base p1) p2) p3) p4) p5) p6) p7 =
    joinSep " " ((base :: [p1, p2, p3, p4, p5, p6, p7]).filter (fun p => p != "")) := by
  have := foldl_appendPiece [p1, p2, p3, p4, p5, p6, p7] base h
  simpa [List.foldl] using this

theorem mem_joinSep_data (sep : String) (l : List String) (c : Char) :
    c ∈ (joinSep sep l).data → c ∈ sep.data ∨ ∃ t ∈ l, c ∈ t.data := by
  match l with
  | [] => intro h; simp [joinSep] at h
  | [a] =>
      intro h
      exact Or.inr ⟨a, by simp, h⟩
  | a :: b :: rest =>
      intro h
      rw [show joinSep sep (a :: b :: rest) = a ++ sep ++ joinSep sep (b :: rest) from rfl,
        String.data_append, String.data_append] at h
      rcases List.mem_append.1 h with h1 | h2
      · rcases List.mem_append.1 h1 with h3 | h4
        · exact Or.inr ⟨a, by simp, h3⟩
        · exact Or.inl h4
      · rcases mem_joinSep_data sep (b :: rest) c h2 with h5 | ⟨t, ht, hc⟩
        · exact Or.inl h5
        · exact Or.inr ⟨t, by simp at ht ⊢; tauto, hc⟩

theorem digitChar_mem (m : Nat) (h : m < 10) : Nat.digitChar m ∈ "0123456789".data := by
  have hall : ∀ m, m < 10 → Nat.digitChar m ∈ "0123456789".data := by decide
  exact hall m h

theorem toDigitsCore_mem : ∀ (f n : Nat) (ds : List Char),
    (∀ c ∈ ds, c ∈ "0123456789".data) →
    ∀ c ∈ Nat.toDigitsCore 10 f n ds, c ∈ "0123456789".data := by
  intro f
  induction f with
  | zero =>
      intro n ds h c hc
      rw [Nat.toDigitsCore] at hc
      exact h c hc
  | succ f ih =>
      intro n ds h c hc
      rw [Nat.toDigitsCore] at hc
      by_cases hz : n / 10 = 0
      · rw [if_pos hz] at hc
        rcases List.mem_cons.1 hc with rfl | hin
        · exact digitChar_mem _ (Nat.mod_lt _ (by norm_num))
        · exact h c hin
      · rw [if_neg hz] at hc
        refine ih (n / 10) _ ?_ c hc
        intro c' hc'
        rcases List.mem_cons.1 hc' with rfl | hin
        · exact digitChar_mem _ (Nat.mod_lt _ (by norm_num))
        · exact h c' hin

theorem toString_nat_mem (n : Nat) : ∀ c ∈ (toString n).data, c ∈ "0123456789".data := by
  intro c hc
  exact toDigitsCore_mem (n + 1) n [] (by simp) c hc

theorem containsKw_char (s kw : String) (c : Char) (hc : c ∈ kw.data) (hs : c ∉ s.data) :
    ¬ containsKw s kw := by
  rintro ⟨a, b, hab⟩
  exact hs (by rw [hab]; simp [hc])

theorem specAssembled_char_absent (s : Store) (fields joins g o : List String)
    (l off : Option Nat) (fc : String) (d : Dialect) (cx : Nat) (cond hav : ConditionBuilder)
    (hcond : cond.parts = []) (hhav : hav.parts = []) (c : Char)
    (hc1 : c ∉ "SELECT ".data) (hc2 : c ∉ " FROM ".data) (hc3 : c ∉ "GROUP BY ".data)
    (hc4 : c ∉ "ORDER BY ".data) (hc5 : c ∉ "LIMIT ".data) (hc6 : c ∉ "OFFSET ".data)
    (hc7 : c ∉ " ".data) (hc8 : c ∉ ", ".data) (hc9 : c ∉ "*".data)
    (hc10 : c ∉ "0123456789".data)
    (hin : ∀ t ∈ fields ++ joins ++ g ++ o ++ [fc], c ∉ t.data) :
    c ∉ (specAssembled s (.mk fields joins g o l off .nil fc d cx cond hav)).data := by
  have hjs : ∀ (sep : String) (ts : List String), c ∉ sep.data → (∀ t ∈ ts, c ∉ t.data) →
      c ∉ (joinSep sep ts).data := by
    intro sep ts hsep hts hmem
    rcases mem_joinSep_data sep ts c hmem with h | ⟨t, ht, hct⟩
    · exact hsep h
    · exact hts t ht hct
  have hfields : ∀ t ∈ fields, c ∉ t.data := fun t h => hin t (by simp [h])
  have hjoins : ∀ t ∈ joins, c ∉ t.data := fun t h => hin t (by simp [h])
  have hg : ∀ t ∈ g, c ∉ t.data := fun t h => hin t (by simp [h])
  have ho : ∀ t ∈ o, c ∉ t.data := fun t h => hin t (by simp [h])
  have hfc : c ∉ fc.data := hin fc (by simp)
  intro hmem
  simp only [specAssembled, buildPieces, specWithPiece, specSelectPiece, specJoinsPiece,
    specWherePiece, specGroupByPiece, specHavingPiece, specOrderPiece, specLimitPiece,
    specOffsetPiece, QueryBuilder.ctes, QueryBuilder.ctx, QueryBuilder.fields, QueryBuilder.joins,
    QueryBuilder.groupByFields, QueryBuilder.orderByFields, QueryBuilder.limitCount,
    QueryBuilder.offsetCount, QueryBuilder.fromClause, QueryBuilder.condition,
    QueryBuilder.havingCondition, CteList.isNil, if_true,
    ConditionBuilder.build, hcond, hhav] at hmem
  rcases mem_joinSep_data _ _ c hmem with h | ⟨t, ht, hct⟩
  · exact hc7 h
  · have ht' := List.mem_of_mem_filter ht
    simp only [List.mem_cons, List.not_mem_nil, or_false] at ht'
    rcases ht' with rfl | rfl | rfl | rfl | rfl | rfl | rfl | rfl | rfl
    · simp at hct
    · rw [String.data_append, String.data_append, String.data_append] at hct
      rcases List.mem_append.1 hct with h1 | h2
      · rcases List.mem_append.1 h1 with h3 | h4
        · rcases List.mem_append.1 h3 with h5 | h6
          · exact hc1 h5
          · by_cases hf : fields = []
            · rw [if_pos hf] at h6
              exact hc9 h6
            · rw [if_neg hf] at h6
              exact hjs ", " fields hc8 hfields h6
        · exact hc2 h4
      · exact hfc h2
    · by_cases hjn : joins = []
      · rw [if_pos hjn] at hct
        simp at hct
      · rw [if_neg hjn] at hct
        exact hjs " " joins hc7 hjoins hct
    · simp at hct
    · by_cases hgn : g = []
      · rw [if_pos hgn] at hct
        simp at hct
      · rw [if_neg hgn, String.data_append] at hct
        rcases List.mem_append.1 hct with h1 | h2
        · exact hc3 h1
        · exact hjs ", " g hc8 hg h2
    · simp at hct
    · by_cases hon : o = []
      · rw [if_pos hon] at hct
        simp at hct
      · rw [if_neg hon, String.data_append] at hct
        rcases List.mem_append.1 hct with h1 | h2
        · exact hc4 h1
        · exact hjs ", " o hc8 ho h2
    · cases l with
      | none => simp at hct
      | some n =>
          dsimp only at hct
          by_cases hz : n = 0
          · rw [if_pos hz] at hct
            simp at hct
          · rw [if_neg hz, String.data_append] at hct
            rcases List.mem_append.1 hct with h1 | h2
            · exact hc5 h1
            · exact hc10 (toString_nat_mem n c h2)
    · cases off with
      | none => simp at hct
      | some n =>
          dsimp only at hct
          by_cases hz : n = 0
          · rw [if_pos hz] at hct
            simp at hct
          · rw [if_neg hz, String.data_append] at hct
            rcases List.mem_append.1 hct with h1 | h2
            · exact hc6 h1
            · exact hc10 (toString_nat_mem n c h2)

/-- C8: `build()` assembles, in this order: the optional WITH clause with
RECURSIVE applied once iff any cte is recursive, SELECT (wildcard for an
empty list) FROM, joins in declaration order, then WHERE, GROUP BY,
HAVING, ORDER BY, LIMIT, OFFSET, each clause dropped exactly when empty
(`specAssembled` spells out that clause order); and a statement with no
`where`/`having` conditions and no cte emits no WHERE or HAVING keyword
(given inputs that do not smuggle the keywords' letters in). -/
theorem build_assembly_order (s : Store) (q : QueryBuilder) (hj : "" ∉ q.joins) :
    QueryBuilder.build s q = ((buildCtes s q.ctx q.ctes).1, specAssembled s q,
      getParams (buildCtes s q.ctx q.ctes).1 q.ctx) ∧
    (q.condition.parts = [] → q.havingCondition.parts = [] → q.ctes = .nil →
      (∀ t ∈ q.inputStrings, ∀ c ∈ t.data, c ≠ 'W' ∧ c ≠ 'V') →
      ¬ containsKw (QueryBuilder.build s q).2.1 "WHERE" ∧
      ¬ containsKw (QueryBuilder.build s q).2.1 "HAVING") := by
  cases q with
  | mk fields joins g o l off ctes fc d cx cond hav =>
      simp only [QueryBuilder.joins] at hj
      have hsql : (QueryBuilder.build s (.mk fields joins g o l off ctes fc d cx cond hav)).2.1 =
          specAssembled s (.mk fields joins g o l off ctes fc d cx cond hav) := by
        cases ctes with
        | nil =>
            simp only [QueryBuilder.build, CteList.isNil, if_true]
            rw [stepOffset, stepLimit, stepOrder,
              stepClause _ (ConditionBuilder.build hav "HAVING"), stepGroup,
              stepClause _ (ConditionBuilder.build cond "WHERE"), stepJoins _ _ hj]
            rw [appendPiece_chain _ _ _ _ _ _ _ _
              (append_ne_empty_left _ _ (append_ne_empty_left _ _
                (append_ne_empty_left _ _ (by decide))))]
            rfl
        | cons nm r sub rest =>
            simp only [QueryBuilder.build, CteList.isNil, Bool.false_eq_true, if_false]
            rw [stepOffset, stepLimit, stepOrder,
              stepClause _ (ConditionBuilder.build hav "HAVING"), stepGroup,
              stepClause _ (ConditionBuilder.build cond "WHERE"), stepJoins _ _ hj]
            have h7 : ("WITH " ++
                (if (CteList.cons nm r sub rest).anyRec = true then "RECURSIVE " else "")) ++
                joinSep ", " (buildCtes s cx (CteList.cons nm r sub rest)).2 ≠ "" :=
              append_ne_empty_left _ _ (append_ne_empty_left _ _ (by decide))
            have h5 : (("WITH " ++
                (if (CteList.cons nm r sub rest).anyRec = true then "RECURSIVE " else "")) ++
                joinSep ", " (buildCtes s cx (CteList.cons nm r sub rest)).2) ++ " " ≠ "" :=
              append_ne_empty_left _ _ h7
            rw [appendPiece_chain _ _ _ _ _ _ _ _
              (append_ne_empty_left _ _ (append_ne_empty_left _ _
                (append_ne_empty_left _ _ (append_ne_empty_left _ _ h5))))]
            have hbase : ((("WITH " ++ (if (CteList.cons nm r sub rest).anyRec = true then "RECURSIVE " else "")) ++ joinSep ", " (buildCtes s cx (CteList.cons nm r sub rest)).2 ++ " " ++ "SELECT " ++ (if fields = [] then "*" else joinSep ", " fields)) ++ " FROM " ++ fc) = (("WITH " ++ (if (CteList.cons nm r sub rest).anyRec = true then "RECURSIVE " else "")) ++ joinSep ", " (buildCtes s cx (CteList.cons nm r sub rest)).2) ++ " " ++ ("SELECT " ++ (if fields = [] then "*" else joinSep ", " fields) ++ " FROM " ++ fc) := by
              apply strEqOfData
              simp [String.data_append]
            rw [hbase]
            rw [List.filter_cons_of_pos (by
              simp only [bne_iff_ne, ne_eq]
              exact append_ne_empty_left _ _ h5)]
            rw [joinSep_absorb]
            congr 1
      refine ⟨?_, ?_⟩
      · rw [← hsql]
        cases ctes <;> rfl
      · intro hcond hhav hctes hin
        subst hctes
        simp only [QueryBuilder.condition, QueryBuilder.havingCondition] at hcond hhav
        simp only [QueryBuilder.inputStrings, QueryBuilder.fields, QueryBuilder.joins,
          QueryBuilder.groupByFields, QueryBuilder.orderByFields, QueryBuilder.fromClause] at hin
        rw [hsql]
        have habs : ∀ c : Char, c ∉ "SELECT ".data → c ∉ " FROM ".data → c ∉ "GROUP BY ".data →
            c ∉ "ORDER BY ".data → c ∉ "LIMIT ".data → c ∉ "OFFSET ".data → c ∉ " ".data →
            c ∉ ", ".data → c ∉ "*".data → c ∉ "0123456789".data →
            (∀ t ∈ fields ++ joins ++ g ++ o ++ [fc], c ∉ t.data) →
            c ∉ (specAssembled s
              (.mk fields joins g o l off .nil fc d cx cond hav)).data := by
          intro c a1 a2 a3 a4 a5 a6 a7 a8 a9 a10 a11
          exact specAssembled_char_absent s fields joins g o l off fc d cx cond hav
            hcond hhav c a1 a2 a3 a4 a5 a6 a7 a8 a9 a10 a11
        constructor
        · exact containsKw_char _ _ 'W' (by decide)
            (habs 'W' (by decide) (by decide) (by decide) (by decide) (by decide) (by decide)
              (by decide) (by decide) (by decide) (by decide)
              (fun t ht hW => (hin t ht 'W' hW).1 rfl))
        · exact containsKw_char _ _ 'V' (by decide)
            (habs 'V' (by decide) (by decide) (by decide) (by decide) (by decide) (by decide)
              (by decide) (by decide) (by decide) (by decide)
              (fun t ht hV => (hin t ht 'V' hV).2 rfl))

/-- Closed instance of `build_assembly_order` at a small statement. -/
theorem build_assembly_order_witness :
    (QueryBuilder.build [⟨PostgresDialect, []⟩]
      (.mk ["a"] [] ["b"] [] (some 2) none .nil "t" PostgresDialect 0 ⟨0, []⟩ ⟨0, []⟩)).2.1 =
      "SELECT a FROM t GROUP BY b LIMIT 2" ∧
    ¬ containsKw (QueryBuilder.build [⟨PostgresDialect, []⟩]
      (.mk ["a"] [] ["b"] [] (some 2) none .nil "t" PostgresDialect 0 ⟨0, []⟩ ⟨0, []⟩)).2.1
        "WHERE" := by
  have h := build_assembly_order [⟨PostgresDialect, []⟩]
    (.mk ["a"] [] ["b"] [] (some 2) none .nil "t" PostgresDialect 0 ⟨0, []⟩ ⟨0, []⟩)
    (by decide)
  constructor
  · rw [h.1]
    rfl
  · exact (h.2 rfl rfl rfl (by decide)).1

/-!
Relating the string semantics to the skeleton semantics.
-/

theorem renderChunks_append (d : Dialect) (a b : Chunks) :
    renderChunks d (a ++ b) = renderChunks d a ++ renderChunks d b := by
  induction a with
  | nil => exact (empty_append_str _).symm
  | cons c r ih =>
      cases c with
      | lit t => simp [renderChunks, ih, String.append_assoc]
      | hole i v => simp [renderChunks, ih, String.append_assoc]

theorem textVals_append (a b : Chunks) : textVals (a ++ b) = textVals a ++ textVals b := by
  induction a with
  | nil => rfl
  | cons c r ih =>
      cases c with
      | lit t => simp [textVals, ih]
      | hole i v => simp [textVals, ih]

theorem countHoles_eq_length_textVals (a : Chunks) : countHoles a = (textVals a).length := by
  induction a with
  | nil => rfl
  | cons c r ih =>
      cases c with
      | lit t => simp [countHoles, textVals, ih]
      | hole i v => simp [countHoles, textVals, ih]

theorem renderChunks_joinSep (d : Dialect) (sep : String) (l : List Chunks) :
    renderChunks d (chunksJoinSep sep l) = joinSep sep (l.map (renderChunks d)) := by
  match l with
  | [] => rfl
  | [a] => simp [chunksJoinSep, joinSep]
  | a :: b :: rest =>
      rw [show chunksJoinSep sep (a :: b :: rest) =
          a ++ [Chunk.lit sep] ++ chunksJoinSep sep (b :: rest) from rfl,
        renderChunks_append, renderChunks_append,
        renderChunks_joinSep d sep (b :: rest)]
      show _ = renderChunks d a ++ sep ++ joinSep sep _
      rw [show renderChunks d [Chunk.lit sep] = sep ++ "" from rfl]
      apply strEqOfData
      simp [String.data_append]

theorem sGet_rel (d : Dialect) (s : Store) (ss : SpecStore) (h : storeRel d s ss) (i : Nat) :
    sGet ss i = getParams s i := by
  obtain ⟨hmap, _⟩ := h
  subst hmap
  by_cases hi : i < s.length
  · simp [sGet, getParams, ctxGet, List.getD, List.getElem?_map, hi]
  · simp [sGet, getParams, ctxGet, List.getD,
      List.getElem?_eq_none (le_of_not_lt (by simpa using hi)),
      List.getElem?_eq_none (le_of_not_lt (by simpa [List.length_map] using hi))]
    rfl

theorem length_rel (d : Dialect) (s : Store) (ss : SpecStore) (h : storeRel d s ss) :
    ss.length = s.length := by
  obtain ⟨hmap, _⟩ := h
  subst hmap
  simp

theorem dialect_rel (d : Dialect) (s : Store) (ss : SpecStore) (h : storeRel d s ss) (i : Nat)
    (hi : i < s.length) : (ctxGet s i).dialect = d := by
  obtain ⟨_, hd⟩ := h
  exact hd _ (by simp [ctxGet, List.getD, List.getElem?_eq_getElem hi, List.getElem_mem])

theorem sim_ctxAdd (d : Dialect) (s : Store) (ss : SpecStore) (i : Nat) (v : Val)
    (h : storeRel d s ss) :
    storeRel d (ctxAdd s i v).1 (sAdd ss i v).1 ∧
    ((ctxAdd s i v).1).length = s.length ∧
    (i < s.length → (ctxAdd s i v).2 = d.placeholder ((sGet ss i).length + 1)) := by
  obtain ⟨hmap, hd⟩ := h
  refine ⟨⟨?_, ?_⟩, by simp [ctxAdd], ?_⟩
  · subst hmap
    simp [ctxAdd, sAdd, sGet, getParams, List.map_set]
    congr 1
    cases hsi : s[i]? <;> simp [ctxGet, List.getD, hsi, junkCtx]
  · intro c hc
    simp only [ctxAdd] at hc
    by_cases hi : i < s.length
    · rcases List.mem_or_eq_of_mem_set hc with h1 | h2
      · exact hd c h1
      · subst h2
        exact dialect_rel d s ss ⟨hmap, hd⟩ i hi
    · rw [List.set_eq_of_length_le (le_of_not_lt hi)] at hc
      exact hd c hc
  · intro hi
    rw [show (ctxAdd s i v).2 =
        (ctxGet s i).dialect.placeholder ((ctxGet s i).params.length + 1) from rfl,
      dialect_rel d s ss ⟨hmap, hd⟩ i hi, sGet_rel d s ss ⟨hmap, hd⟩ i]
    rfl

theorem sim_ctxAddMany (d : Dialect) (s : Store) (ss : SpecStore) (i : Nat) (vs : List Val)
    (h : storeRel d s ss) :
    storeRel d (ctxAddMany s i vs) (sAddMany ss i vs) ∧
    (ctxAddMany s i vs).length = s.length := by
  induction vs generalizing s ss with
  | nil => exact ⟨h, rfl⟩
  | cons v vs ih =>
      have h1 := sim_ctxAdd d s ss i v h
      have h2 := ih _ _ h1.1
      exact ⟨h2.1, by rw [ctxAddMany, h2.2, h1.2.1]⟩

theorem sim_ctxAddTokens (d : Dialect) (s : Store) (ss : SpecStore) (i : Nat) (vs : List Val)
    (h : storeRel d s ss) (hi : i < s.length) :
    storeRel d (ctxAddTokens s i vs).1 (sAddChunks ss i vs).1 ∧
    ((ctxAddTokens s i vs).1).length = s.length ∧
    (ctxAddTokens s i vs).2 = ((sAddChunks ss i vs).2).map (fun c => renderChunks d [c]) := by
  induction vs generalizing s ss with
  | nil => exact ⟨h, rfl, rfl⟩
  | cons v vs ih =>
      have h1 := sim_ctxAdd d s ss i v h
      have h2 := ih _ _ h1.1 (by rw [h1.2.1]; exact hi)
      refine ⟨h2.1, by rw [ctxAddTokens]; simp only []; rw [h2.2.1, h1.2.1], ?_⟩
      rw [ctxAddTokens, sAddChunks]
      simp only [List.map_cons, List.map]
      rw [h2.2.2, h1.2.2 hi]
      simp [renderChunks, sAdd]

theorem sim_newCtx (d : Dialect) (s : Store) (ss : SpecStore) (h : storeRel d s ss) :
    storeRel d (newCtx s d).1 (sNew ss).1 ∧ (newCtx s d).2 = s.length ∧
    (sNew ss).2 = s.length ∧ ((newCtx s d).1).length = s.length + 1 := by
  obtain ⟨hmap, hd⟩ := h
  subst hmap
  refine ⟨⟨by simp [newCtx, sNew], ?_⟩, rfl, by simp [sNew], by simp [newCtx]⟩
  intro c hc
  rcases List.mem_append.1 hc with h1 | h2
  · exact hd c h1
  · simp at h2
    subst h2
    rfl

/-- Concrete condition nodes of a spec condition builder under a dialect. -/
def nodeOf (d : Dialect) (n : SCondNode) : CondNode := ⟨n.type, renderChunks d n.expr⟩

theorem sim_joinParts (d : Dialect) (sparts : List SCondNode) :
    joinParts (sparts.map (nodeOf d)) = renderChunks d (sJoinParts sparts) := by
  cases sparts with
  | nil => rfl
  | cons p ps =>
      rw [List.map_cons, joinParts, sJoinParts, renderChunks_append]
      show _ = renderChunks d p.expr ++ _
      rw [show (nodeOf d p).expression = renderChunks d p.expr from rfl]
      congr 1
      induction ps with
      | nil => rfl
      | cons q qs ih =>
          rw [List.map_cons, joinParts.joinPartsTail, sJoinParts.sJoinPartsTail]
          rw [show renderChunks d (Chunk.lit (" " ++ q.type.str ++ " ") ::
            (q.expr ++ sJoinParts.sJoinPartsTail qs)) =
            (" " ++ q.type.str ++ " ") ++ renderChunks d (q.expr ++ sJoinParts.sJoinPartsTail qs)
            from rfl, renderChunks_append, ih]
          show (" " ++ (nodeOf d q).type.str ++ " ") ++ (nodeOf d q).expression ++ _ = _
          rw [show (nodeOf d q).expression = renderChunks d q.expr from rfl,
            show (nodeOf d q).type = q.type from rfl]
          apply strEqOfData
          simp [String.data_append]

theorem sim_condBuild (d : Dialect) (kw : String) (cb : ConditionBuilder) (scb : SCond)
    (h : condRel d cb scb) :
    cb.build kw = renderChunks d (scb.buildC kw) := by
  obtain ⟨hctx, hparts⟩ := h
  rw [ConditionBuilder.build, SCond.buildC]
  by_cases he : scb.parts = []
  · rw [if_pos he, if_pos (by rw [hparts, he]; rfl)]
    rfl
  · rw [if_neg he, if_neg (by rw [hparts]; simpa using he)]
    rw [show renderChunks d (Chunk.lit (kw ++ " ") :: sJoinParts scb.parts) =
      (kw ++ " ") ++ renderChunks d (sJoinParts scb.parts) from rfl]
    rw [hparts, show (scb.parts.map fun n => (⟨n.type, renderChunks d n.expr⟩ : CondNode)) =
      scb.parts.map (nodeOf d) from rfl, sim_joinParts]

theorem renderChunks_nil (d : Dialect) : renderChunks d [] = "" := rfl

theorem renderChunks_lit (d : Dialect) (t : String) (r : Chunks) :
    renderChunks d (.lit t :: r) = t ++ renderChunks d r := rfl

theorem renderChunks_hole (d : Dialect) (i : Nat) (v : Val) (r : Chunks) :
    renderChunks d (.hole i v :: r) = d.placeholder i ++ renderChunks d r := rfl

theorem append_eq_empty_iff (s t : String) : s ++ t = "" ↔ s = "" ∧ t = "" := by
  constructor
  · intro h
    have hd : (s ++ t).data = [] := by rw [h]
    rw [String.data_append, List.append_eq_nil] at hd
    exact ⟨strEqOfData s "" (by rw [hd.1]), strEqOfData t "" (by rw [hd.2])⟩
  · rintro ⟨rfl, rfl⟩
    rfl

theorem build_empty_iff (cb : ConditionBuilder) (kw : String) :
    cb.build kw = "" ↔ cb.parts = [] := by
  rw [ConditionBuilder.build]
  by_cases h : cb.parts = []
  · simp [h]
  · simp only [if_neg h]
    constructor
    · intro he
      rw [show kw ++ " " ++ joinParts cb.parts = kw ++ (" " ++ joinParts cb.parts) by
        apply strEqOfData; simp [String.data_append], append_eq_empty_iff,
        append_eq_empty_iff] at he
      exact absurd he.2.1 (by decide)
    · intro hp
      exact absurd hp h

/-- Push an if through both semantics when the conditions agree and the
branches are related. -/
theorem rElim (d : Dialect) (c c' : Prop) [Decidable c] [Decidable c'] (hcc : c ↔ c')
    (X Y : String) (XC YC : Chunks) (hX : X = renderChunks d XC) (hY : Y = renderChunks d YC) :
    (if c then X else Y) = renderChunks d (if c' then XC else YC) := by
  by_cases h : c
  · rw [if_pos h, if_pos (hcc.1 h)]
    exact hX
  · rw [if_neg h, if_neg (fun h' => h (hcc.2 h'))]
    exact hY

theorem rElimOpt (d : Dialect) (l : Option Nat) (X : String) (XC : Chunks)
    (f : Nat → String) (fC : Nat → Chunks) (hX : X = renderChunks d XC)
    (hf : ∀ n, f n = renderChunks d (fC n)) :
    (match l with | some n => f n | none => X) =
    renderChunks d (match l with | some n => fC n | none => XC) := by
  cases l with
  | none => exact hX
  | some n => exact hf n

theorem cteRel_anyRec (d : Dialect) : ∀ (cl : CteList) (scl : SCteList),
    cteRel d cl scl → cl.anyRec = scl.anyRec := by
  intro cl scl h
  match cl, scl with
  | .nil, .nil => rfl
  | .cons n r q rest, .cons n' r' q' rest' =>
      rw [cteRel] at h
      rw [CteList.anyRec, SCteList.anyRec, h.2.1, cteRel_anyRec d rest rest' h.2.2.2]
  | .nil, .cons _ _ _ _ => exact absurd h (by rw [cteRel]; simp)
  | .cons _ _ _ _, .nil => exact absurd h (by rw [cteRel]; simp)

theorem cteRel_isNil (d : Dialect) : ∀ (cl : CteList) (scl : SCteList),
    cteRel d cl scl → (cl.isNil = scl.isNil ∧ (cl = .nil ↔ scl = .nil)) := by
  intro cl scl h
  match cl, scl with
  | .nil, .nil => exact ⟨rfl, by simp⟩
  | .cons n r q rest, .cons n' r' q' rest' => exact ⟨rfl, by constructor <;> intro h' <;> cases h'⟩
  | .nil, .cons _ _ _ _ => exact absurd h (by rw [cteRel]; simp)
  | .cons _ _ _ _, .nil => exact absurd h (by rw [cteRel]; simp)

theorem buildC_empty_iff (scb : SCond) (kw : String) : scb.buildC kw = [] ↔ scb.parts = [] := by
  rw [SCond.buildC]
  by_cases h : scb.parts = []
  · simp [h]
  · simp [h]

theorem simJoins (d : Dialect) (X : String) (XC : Chunks) (js : List String)
    (h : X = renderChunks d XC) :
    (if js = [] then X else X ++ " " ++ joinSep " " js) =
    renderChunks d (if js = [] then XC else XC ++ [.lit (" " ++ joinSep " " js)]) := by
  refine rElim d _ _ Iff.rfl _ _ _ _ h ?_
  rw [renderChunks_append, ← h, renderChunks_lit, renderChunks_nil]
  apply strEqOfData
  simp [String.data_append]

theorem simCondClause (d : Dialect) (X : String) (XC : Chunks) (cb : ConditionBuilder)
    (scb : SCond) (kw : String) (hrel : condRel d cb scb) (h : X = renderChunks d XC) :
    (if cb.build kw = "" then X else X ++ " " ++ cb.build kw) =
    renderChunks d (if scb.buildC kw = [] then XC else XC ++ [.lit " "] ++ scb.buildC kw) := by
  refine rElim d _ _ ?_ _ _ _ _ h ?_
  · rw [build_empty_iff, buildC_empty_iff, hrel.2]
    simp
  · rw [renderChunks_append, renderChunks_append, ← h, renderChunks_lit, renderChunks_nil,
      sim_condBuild d kw cb scb hrel]
    apply strEqOfData
    simp [String.data_append]

theorem simGroupBy (d : Dialect) (X : String) (XC : Chunks) (xs : List String)
    (h : X = renderChunks d XC) :
    (if xs = [] then X else X ++ " GROUP BY " ++ joinSep ", " xs) =
    renderChunks d (if xs = [] then XC else XC ++ [.lit (" GROUP BY " ++ joinSep ", " xs)]) := by
  refine rElim d _ _ Iff.rfl _ _ _ _ h ?_
  rw [renderChunks_append, ← h, renderChunks_lit, renderChunks_nil]
  apply strEqOfData
  simp [String.data_append]

theorem simOrderBy (d : Dialect) (X : String) (XC : Chunks) (xs : List String)
    (h : X = renderChunks d XC) :
    (if xs = [] then X else X ++ " ORDER BY " ++ joinSep ", " xs) =
    renderChunks d (if xs = [] then XC else XC ++ [.lit (" ORDER BY " ++ joinSep ", " xs)]) := by
  refine rElim d _ _ Iff.rfl _ _ _ _ h ?_
  rw [renderChunks_append, ← h, renderChunks_lit, renderChunks_nil]
  apply strEqOfData
  simp [String.data_append]

theorem simLimit (d : Dialect) (X : String) (XC : Chunks) (l : Option Nat)
    (h : X = renderChunks d XC) :
    (match l with
      | some n => if n = 0 then X else X ++ " LIMIT " ++ toString n
      | none => X) =
    renderChunks d (match l with
      | some n => if n = 0 then XC else XC ++ [.lit (" LIMIT " ++ toString n)]
      | none => XC) := by
  cases l with
  | none => exact h
  | some n =>
      refine rElim d _ _ Iff.rfl _ _ _ _ h ?_
      rw [renderChunks_append, ← h, renderChunks_lit, renderChunks_nil]
      apply strEqOfData
      simp [String.data_append]

theorem simOffsetCl (d : Dialect) (X : String) (XC : Chunks) (l : Option Nat)
    (h : X = renderChunks d XC) :
    (match l with
      | some n => if n = 0 then X else X ++ " OFFSET " ++ toString n
      | none => X) =
    renderChunks d (match l with
      | some n => if n = 0 then XC else XC ++ [.lit (" OFFSET " ++ toString n)]
      | none => XC) := by
  cases l with
  | none => exact h
  | some n =>
      refine rElim d _ _ Iff.rfl _ _ _ _ h ?_
      rw [renderChunks_append, ← h, renderChunks_lit, renderChunks_nil]
      apply strEqOfData
      simp [String.data_append]

/-- Unfolding equation for `buildCtes` on a cons cell, with the pair
destructuring eta-expanded into projections. -/
theorem buildCtes_cons (s : Store) (pc : Nat) (nm : String) (r : Bool) (sub : QueryBuilder)
    (rest : CteList) :
    buildCtes s pc (.cons nm r sub rest) =
      ((buildCtes (ctxAddMany (QueryBuilder.build s sub).1 pc (QueryBuilder.build s sub).2.2)
          pc rest).1,
        (nm ++ " AS (" ++ (QueryBuilder.build s sub).2.1 ++ ")") ::
          (buildCtes (ctxAddMany (QueryBuilder.build s sub).1 pc (QueryBuilder.build s sub).2.2)
            pc rest).2) := rfl

/-- Unfolding equation for `specBuildCtes` on a cons cell. -/
theorem specBuildCtes_cons (ss : SpecStore) (pc : Nat) (nm : String) (r : Bool) (sub : SQB)
    (rest : SCteList) :
    specBuildCtes ss pc (.cons nm r sub rest) =
      ((specBuildCtes (sAddMany (specBuild ss sub).1 pc (specBuild ss sub).2.2) pc rest).1,
        (Chunk.lit (nm ++ " AS (") :: ((specBuild ss sub).2.1 ++ [.lit ")"])) ::
          (specBuildCtes (sAddMany (specBuild ss sub).1 pc (specBuild ss sub).2.2) pc rest).2) :=
  rfl

mutual
theorem simBuild : ∀ (d : Dialect) (q : QueryBuilder) (sq : SQB) (s : Store) (ss : SpecStore),
    storeRel d s ss → qbRel d q sq →
    storeRel d (QueryBuilder.build s q).1 (specBuild ss sq).1 ∧
    ((QueryBuilder.build s q).1).length = s.length ∧
    (QueryBuilder.build s q).2.1 = renderChunks d ((specBuild ss sq).2.1) ∧
    (QueryBuilder.build s q).2.2 = (specBuild ss sq).2.2
  | d, .mk fields joins g o l off ctes fc dd cx cond hav,
    .mk fields' joins' g' o' l' off' sctes fc' cx' cond' hav', s, ss => by
      intro hs hq
      rw [qbRel] at hq
      obtain ⟨rfl, rfl, rfl, rfl, rfl, rfl, hcte, hfc, hdd, rfl, hcnd, hhv⟩ := hq
      have hdd2 := hdd.symm
      subst hdd2
      cases ctes with
      | nil =>
          cases sctes with
          | nil =>
              refine ⟨hs, rfl, ?_, ?_⟩
              · simp only [QueryBuilder.build, specBuild, CteList.isNil, SCteList.isNil, if_true]
                refine simOffsetCl d _ _ off ?_
                refine simLimit d _ _ l ?_
                refine simOrderBy d _ _ o ?_
                refine simCondClause d _ _ hav hav' "HAVING" hhv ?_
                refine simGroupBy d _ _ g ?_
                refine simCondClause d _ _ cond cond' "WHERE" hcnd ?_
                refine simJoins d _ _ joins ?_
                rw [renderChunks_append, renderChunks_append, renderChunks_nil,
                  renderChunks_lit, renderChunks_nil, ← hfc]
                apply strEqOfData
                simp [String.data_append]
              · simp only [QueryBuilder.build, specBuild, CteList.isNil, SCteList.isNil, if_true]
                exact (sGet_rel d s ss hs cx).symm
          | cons n' r' q' rest' => exact absurd hcte (by rw [cteRel]; simp)
      | cons nm r sub rest =>
          cases sctes with
          | nil => exact absurd hcte (by rw [cteRel]; simp)
          | cons nm' r' sub' rest' =>
              have hbc := simBuildCtes d (.cons nm r sub rest) (.cons nm' r' sub' rest') cx s ss
                hs hcte
              simp only [QueryBuilder.build, specBuild, CteList.isNil, SCteList.isNil,
                Bool.false_eq_true, if_false]
              refine ⟨hbc.1, hbc.2.1, ?_, (sGet_rel d _ _ hbc.1 cx).symm⟩
              refine simOffsetCl d _ _ off ?_
              refine simLimit d _ _ l ?_
              refine simOrderBy d _ _ o ?_
              refine simCondClause d _ _ hav hav' "HAVING" hhv ?_
              refine simGroupBy d _ _ g ?_
              refine simCondClause d _ _ cond cond' "WHERE" hcnd ?_
              refine simJoins d _ _ joins ?_
              rw [renderChunks_append, renderChunks_append, ← hfc]
              rw [show renderChunks d (Chunk.lit ("WITH " ++
                  (if (SCteList.cons nm' r' sub' rest').anyRec = true then "RECURSIVE " else "")) ::
                  (chunksJoinSep ", " (specBuildCtes ss cx (SCteList.cons nm' r' sub' rest')).2 ++
                    [.lit " "])) =
                ("WITH " ++
                  (if (SCteList.cons nm' r' sub' rest').anyRec = true then "RECURSIVE " else "")) ++
                  (renderChunks d (chunksJoinSep ", "
                    (specBuildCtes ss cx (SCteList.cons nm' r' sub' rest')).2) ++ (" " ++ ""))
                from by rw [renderChunks_lit, renderChunks_append, renderChunks_lit,
                  renderChunks_nil]]
              rw [renderChunks_joinSep, ← hbc.2.2,
                cteRel_anyRec d (.cons nm r sub rest) (.cons nm' r' sub' rest') hcte]
              rw [renderChunks_lit, renderChunks_nil]
              apply strEqOfData
              simp [String.data_append]

theorem simBuildCtes : ∀ (d : Dialect) (cl : CteList) (scl : SCteList) (pc : Nat)
    (s : Store) (ss : SpecStore), storeRel d s ss → cteRel d cl scl →
    storeRel d (buildCtes s pc cl).1 (specBuildCtes ss pc scl).1 ∧
    ((buildCtes s pc cl).1).length = s.length ∧
    (buildCtes s pc cl).2 = ((specBuildCtes ss pc scl).2).map (renderChunks d)
  | d, .nil, .nil, pc, s, ss => fun hs _ => ⟨hs, rfl, rfl⟩
  | d, .nil, .cons _ _ _ _, pc, s, ss => fun _ hc => absurd hc (by rw [cteRel]; simp)
  | d, .cons _ _ _ _, .nil, pc, s, ss => fun _ hc => absurd hc (by rw [cteRel]; simp)
  | d, .cons nm r sub rest, .cons nm' r' sub' rest', pc, s, ss => by
      intro hs hc
      rw [cteRel] at hc
      obtain ⟨rfl, rfl, hq, hrest⟩ := hc
      have h1 := simBuild d sub sub' s ss hs hq
      have h2 := sim_ctxAddMany d (QueryBuilder.build s sub).1 (specBuild ss sub').1 pc
        ((specBuild ss sub').2.2) h1.1
      have h3 := simBuildCtes d rest rest' pc _ _ h2.1 hrest
      rw [buildCtes_cons, specBuildCtes_cons, h1.2.2.2]
      refine ⟨h3.1, ?_, ?_⟩
      · rw [h3.2.1, h2.2, h1.2.1]
      · simp only [List.map_cons]
        rw [h3.2.2]
        congr 1
        rw [h1.2.2.1]
        rw [show renderChunks d (Chunk.lit (nm ++ " AS (") ::
            ((specBuild ss sub').2.1 ++ [Chunk.lit ")"])) =
          (nm ++ " AS (") ++ (renderChunks d ((specBuild ss sub').2.1) ++ (")" ++ ""))
          from by rw [renderChunks_lit, renderChunks_append, renderChunks_lit, renderChunks_nil]]
        apply strEqOfData
        simp [String.data_append]
end

/-- Every context index a builder works through stays inside the store:
its own context and those captured by its two condition builders.  The
engine only ever hands out indices of allocated contexts; the token
equation of `ParamContext.add` needs this bound because a dangling index
would read the junk context's dialect. -/
def qbBound (q : QueryBuilder) (n : Nat) : Prop :=
  q.ctx < n ∧ q.condition.ctx < n ∧ q.havingCondition.ctx < n

/-- Relation between a concrete and a spec step result at the builder
level: related stores, a store that only grew, related builders, and
builder indices inside the store. -/
def qPost (d : Dialect) (n : Nat) (r : Store × QueryBuilder) (sr : SpecStore × SQB) : Prop :=
  storeRel d r.1 sr.1 ∧ n ≤ r.1.length ∧ qbRel d r.2 sr.2 ∧ qbBound r.2 r.1.length

/-- Relation between a concrete and a spec step result at the condition
level: related stores, a store that only grew, related condition
builders, and an unchanged context reference. -/
def cPost (d : Dialect) (n cx : Nat) (r : Store × ConditionBuilder) (sr : SpecStore × SCond) :
    Prop :=
  storeRel d r.1 sr.1 ∧ n ≤ r.1.length ∧ condRel d r.2 sr.2 ∧ r.2.ctx = cx

theorem exceptRel_bind {α β α' β' : Type} {R : α → β → Prop} {S : α' → β' → Prop} :
    ∀ {x : Except String α} {y : Except String β} {f : α → Except String α'}
      {g : β → Except String β'}, exceptRel R x y →
      (∀ a b, R a b → exceptRel S (f a) (g b)) → exceptRel S (x >>= f) (y >>= g)
  | .ok a, .ok b, _, _, h, hfg => hfg a b h
  | .error _, .error _, _, _, h, _ => h
  | .ok _, .error _, _, _, h, _ => h.elim
  | .error _, .ok _, _, _, h, _ => h.elim

theorem exceptRel_mono {α β : Type} {R S : α → β → Prop} (hRS : ∀ a b, R a b → S a b) :
    ∀ {x : Except String α} {y : Except String β}, exceptRel R x y → exceptRel S x y
  | .ok a, .ok b, h => hRS a b h
  | .error _, .error _, h => h
  | .ok _, .error _, h => h.elim
  | .error _, .ok _, h => h.elim

theorem str_append_empty (s : String) : s ++ "" = s := String.append_empty s

theorem renderChunks_one_lit (d : Dialect) (t : String) : renderChunks d [.lit t] = t :=
  str_append_empty t

theorem condRel_push (d : Dialect) (cb : ConditionBuilder) (scb : SCond)
    (h : condRel d cb scb) (t : Conn) (e : String) (ec : Chunks)
    (he : e = renderChunks d ec) : condRel d (cb.push t e) (scb.push t ec) := by
  obtain ⟨h1, h2⟩ := h
  refine ⟨h1, ?_⟩
  simp only [ConditionBuilder.push, SCond.push]
  rw [List.map_append, ← h2, he]
  rfl

theorem condRel_parts_nil_iff (d : Dialect) (cb : ConditionBuilder) (scb : SCond)
    (h : condRel d cb scb) : cb.parts = [] ↔ scb.parts = [] := by
  rw [h.2]
  exact List.map_eq_nil_iff

theorem cteRel_push (d : Dialect) : ∀ (cl : CteList) (scl : SCteList), cteRel d cl scl →
    ∀ (n : String) (r : Bool) (q : QueryBuilder) (sq : SQB), qbRel d q sq →
    cteRel d (cl.push n r q) (scl.push n r sq)
  | .nil, .nil, _, n, r, q, sq, hq => by
      rw [CteList.push, SCteList.push, cteRel]
      exact ⟨rfl, rfl, hq, trivial⟩
  | .cons n0 r0 q0 rest, .cons n0' r0' q0' rest', h, n, r, q, sq, hq => by
      rw [cteRel] at h
      rw [CteList.push, SCteList.push, cteRel]
      exact ⟨h.1, h.2.1, h.2.2.1, cteRel_push d rest rest' h.2.2.2 n r q sq hq⟩
  | .nil, .cons _ _ _ _, h, _, _, _, _, _ => absurd h (by rw [cteRel]; simp)
  | .cons _ _ _ _, .nil, h, _, _, _, _, _ => absurd h (by rw [cteRel]; simp)

theorem qbRel_dest (d : Dialect) (q : QueryBuilder) (sq : SQB) (h : qbRel d q sq) :
    q.ctx = sq.ctx ∧ condRel d q.condition sq.condition ∧
    condRel d q.havingCondition sq.havingCondition := by
  cases q with | mk f j g o l off ctes fc dd cx cond hav =>
  cases sq with | mk f' j' g' o' l' off' sctes fc' cx' cond' hav' =>
  rw [qbRel] at h
  exact ⟨h.2.2.2.2.2.2.2.2.2.1, h.2.2.2.2.2.2.2.2.2.2.1, h.2.2.2.2.2.2.2.2.2.2.2⟩

theorem simRunOps_cons_aux (d : Dialect) (o : QOp) (rest : List QOp) (q : QueryBuilder)
    (sq : SQB) (s : Store) (ss : SpecStore)
    (hop : exceptRel (qPost d s.length) (runOp d o q s) (specRunOp o sq ss))
    (hrest : ∀ (q1 : QueryBuilder) (sq1 : SQB) (s1 : Store) (ss1 : SpecStore),
      storeRel d s1 ss1 → qbRel d q1 sq1 → qbBound q1 s1.length →
      exceptRel (qPost d s1.length) (runOps d rest q1 s1) (specRunOps rest sq1 ss1)) :
    exceptRel (qPost d s.length) (runOps d (o :: rest) q s) (specRunOps (o :: rest) sq ss) := by
  refine exceptRel_bind hop ?_
  intro a b hab
  refine exceptRel_mono ?_ (hrest a.2 b.2 a.1 b.1 hab.1 hab.2.2.1 hab.2.2.2)
  intro r sr hr
  exact ⟨hr.1, le_trans hab.2.1 hr.2.1, hr.2.2⟩

theorem simRunCondOps_cons_aux (d : Dialect) (o : CondOp) (rest : List CondOp)
    (cb : ConditionBuilder) (scb : SCond) (s : Store) (ss : SpecStore)
    (hop : exceptRel (cPost d s.length cb.ctx) (runCondOp d o cb s) (specRunCondOp o scb ss))
    (hrest : ∀ (cb1 : ConditionBuilder) (scb1 : SCond) (s1 : Store) (ss1 : SpecStore),
      storeRel d s1 ss1 → condRel d cb1 scb1 → cb1.ctx < s1.length →
      exceptRel (cPost d s1.length cb1.ctx) (runCondOps d rest cb1 s1)
        (specRunCondOps rest scb1 ss1))
    (hi : cb.ctx < s.length) :
    exceptRel (cPost d s.length cb.ctx) (runCondOps d (o :: rest) cb s)
      (specRunCondOps (o :: rest) scb ss) := by
  refine exceptRel_bind hop ?_
  intro a b hab
  refine exceptRel_mono ?_ (hrest a.2 b.2 a.1 b.1 hab.1 hab.2.2.1
    (by rw [hab.2.2.2]; exact lt_of_lt_of_le hi hab.2.1))
  intro r sr hr
  exact ⟨hr.1, le_trans hab.2.1 hr.2.1, hr.2.2.1, by rw [hr.2.2.2, hab.2.2.2]⟩

theorem simRunPlan_aux (d : Dialect) (table : String) (ops : List QOp) (s : Store)
    (ss : SpecStore) (hs : storeRel d s ss)
    (hops : ∀ (q : QueryBuilder) (sq : SQB) (s1 : Store) (ss1 : SpecStore),
      storeRel d s1 ss1 → qbRel d q sq → qbBound q s1.length →
      exceptRel (qPost d s1.length) (runOps d ops q s1) (specRunOps ops sq ss1)) :
    exceptRel (qPost d s.length) (runPlan d (.mk table ops) s)
      (specRunPlan (.mk table ops) ss) := by
  have hn := sim_newCtx d s ss hs
  have hlen := length_rel d s ss hs
  have h1 : exceptRel (qPost d ((newCtx s d).1).length)
      (runOps d ops (newQueryBuilder table d s).2 ((newCtx s d).1))
      (specRunOps ops (specNewQB table ss).2 ((sNew ss).1)) := by
    refine hops _ _ _ _ hn.1 ?_ ?_
    · show qbRel d (.mk [] [] [] [] none none .nil table d s.length
        ⟨s.length, []⟩ ⟨s.length, []⟩)
        (.mk [] [] [] [] none none .nil [.lit table] ss.length ⟨ss.length, []⟩ ⟨ss.length, []⟩)
      rw [qbRel]
      refine ⟨rfl, rfl, rfl, rfl, rfl, rfl, trivial, (renderChunks_one_lit d table).symm, rfl,
        hlen.symm, ⟨hlen.symm, rfl⟩, ⟨hlen.symm, rfl⟩⟩
    · show s.length < ((newCtx s d).1).length ∧ s.length < ((newCtx s d).1).length ∧
        s.length < ((newCtx s d).1).length
      rw [hn.2.2.2]
      exact ⟨Nat.lt_succ_self _, Nat.lt_succ_self _, Nat.lt_succ_self _⟩
  refine exceptRel_mono ?_ h1
  intro r sr hr
  exact ⟨hr.1, le_trans (by rw [hn.2.2.2]; omega) hr.2.1, hr.2.2⟩

theorem simCondEntry_nullv (d : Dialect) (key : String) (cb : ConditionBuilder) (scb : SCond)
    (s : Store) (ss : SpecStore) (hs : storeRel d s ss) (hcr : condRel d cb scb) :
    exceptRel (cPost d s.length cb.ctx) (condEntry d key .nullv cb s)
      (specCondEntry key .nullv scb ss) :=
  ⟨hs, le_refl _,
    condRel_push d cb scb hcr .and _ _ (renderChunks_one_lit d (key ++ " IS NULL")).symm, rfl⟩

theorem simCondEntry_scalar (d : Dialect) (key : String) (v : Val) (cb : ConditionBuilder)
    (scb : SCond) (s : Store) (ss : SpecStore) (hs : storeRel d s ss) (hcr : condRel d cb scb)
    (hi : cb.ctx < s.length) :
    exceptRel (cPost d s.length cb.ctx) (condEntry d key (.scalar v) cb s)
      (specCondEntry key (.scalar v) scb ss) := by
  have hctx := hcr.1
  have h1 := sim_ctxAdd d s ss cb.ctx v hs
  show exceptRel (cPost d s.length cb.ctx)
    (.ok ((ctxAdd s cb.ctx v).1, cb.push .and (key ++ " = " ++ (ctxAdd s cb.ctx v).2)))
    (.ok ((sAdd ss scb.ctx v).1, scb.push .and [.lit (key ++ " = "), (sAdd ss scb.ctx v).2]))
  rw [← hctx]
  refine ⟨h1.1, le_of_eq h1.2.1.symm, condRel_push d cb scb hcr .and _ _ ?_, rfl⟩
  rw [h1.2.2 hi]
  rw [show renderChunks d [Chunk.lit (key ++ " = "), (sAdd ss cb.ctx v).2] =
    (key ++ " = ") ++ (d.placeholder ((sGet ss cb.ctx).length + 1) ++ "") from rfl]
  apply strEqOfData
  simp [String.data_append]

theorem simHandleOperator_aux (d : Dialect) (key op : String) (x : Operand)
    (cb : ConditionBuilder) (scb : SCond) (s : Store) (ss : SpecStore)
    (hs : storeRel d s ss) (hcr : condRel d cb scb) (hi : cb.ctx < s.length)
    (hrec : ∀ p, x = .sub p →
      exceptRel (qPost d s.length) (runPlan d p s) (specRunPlan p ss)) :
    exceptRel (cPost d s.length cb.ctx) (handleOperator d key op x cb s)
      (specHandleOperator key op x scb ss) := by
  have hctx := hcr.1
  unfold handleOperator specHandleOperator
  by_cases h1 : allowedOperators.contains op = false
  · rw [if_pos h1, if_pos h1]
    exact rfl
  · rw [if_neg h1, if_neg h1]
    by_cases h2 : op = "IN" ∨ op = "NOT IN"
    · rw [if_pos h2, if_pos h2]
      cases x with
      | sub p => exact rfl
      | val v =>
        cases v with
        | vArr vs =>
            have h3 := sim_ctxAddTokens d s ss cb.ctx vs hs hi
            show exceptRel (cPost d s.length cb.ctx)
              (.ok ((ctxAddTokens s cb.ctx vs).1, cb.push .and (key ++ " " ++ op ++ " (" ++
                joinSep ", " (ctxAddTokens s cb.ctx vs).2 ++ ")")))
              (.ok ((sAddChunks ss scb.ctx vs).1, scb.push .and
                (.lit (key ++ " " ++ op ++ " (") ::
                  (chunksJoinSep ", " (((sAddChunks ss scb.ctx vs).2).map (fun t => [t])) ++
                    [.lit ")"]))))
            rw [← hctx]
            refine ⟨h3.1, le_of_eq h3.2.1.symm, condRel_push d cb scb hcr .and _ _ ?_, rfl⟩
            rw [h3.2.2]
            rw [show renderChunks d (Chunk.lit (key ++ " " ++ op ++ " (") ::
                (chunksJoinSep ", " (((sAddChunks ss cb.ctx vs).2).map (fun t => [t])) ++
                  [.lit ")"])) =
              (key ++ " " ++ op ++ " (") ++
                (renderChunks d (chunksJoinSep ", " (((sAddChunks ss cb.ctx vs).2).map
                  (fun t => [t]))) ++ (")" ++ "")) from by
                rw [renderChunks_lit, renderChunks_append, renderChunks_lit, renderChunks_nil]]
            rw [renderChunks_joinSep, List.map_map]
            simp only [Function.comp_def]
            apply strEqOfData
            simp [String.data_append]
        | vInt n => exact rfl
        | vStr t => exact rfl
        | vBool b => exact rfl
        | vNull => exact rfl
        | vObj => exact rfl
    · rw [if_neg h2, if_neg h2]
      by_cases h3 : op = "BETWEEN"
      · rw [if_pos h3, if_pos h3]
        cases x with
        | sub p => exact rfl
        | val v =>
          cases v with
          | vArr vs =>
              match vs with
              | [] => exact rfl
              | [a] => exact rfl
              | a :: b :: c :: t => exact rfl
              | [a, b] =>
                  have h4 := sim_ctxAdd d s ss cb.ctx a hs
                  have h5 := sim_ctxAdd d (ctxAdd s cb.ctx a).1 (sAdd ss cb.ctx a).1 cb.ctx b h4.1
                  show exceptRel (cPost d s.length cb.ctx)
                    (.ok ((ctxAdd (ctxAdd s cb.ctx a).1 cb.ctx b).1, cb.push .and
                      (key ++ " BETWEEN " ++ (ctxAdd s cb.ctx a).2 ++ " AND " ++
                        (ctxAdd (ctxAdd s cb.ctx a).1 cb.ctx b).2)))
                    (.ok ((sAdd (sAdd ss scb.ctx a).1 scb.ctx b).1, scb.push .and
                      [.lit (key ++ " BETWEEN "), (sAdd ss scb.ctx a).2, .lit " AND ",
                        (sAdd (sAdd ss scb.ctx a).1 scb.ctx b).2]))
                  rw [← hctx]
                  refine ⟨h5.1, le_of_eq (by rw [h5.2.1, h4.2.1]), ?_, rfl⟩
                  refine condRel_push d cb scb hcr .and _ _ ?_
                  rw [h4.2.2 hi, h5.2.2 (by rw [h4.2.1]; exact hi)]
                  rw [show renderChunks d [Chunk.lit (key ++ " BETWEEN "), (sAdd ss cb.ctx a).2,
                      Chunk.lit " AND ", (sAdd (sAdd ss cb.ctx a).1 cb.ctx b).2] =
                    (key ++ " BETWEEN ") ++ (d.placeholder ((sGet ss cb.ctx).length + 1) ++
                      (" AND " ++ (d.placeholder ((sGet (sAdd ss cb.ctx a).1 cb.ctx).length + 1)
                        ++ ""))) from rfl]
                  apply strEqOfData
                  simp [String.data_append]
          | vInt n => exact rfl
          | vStr t => exact rfl
          | vBool b => exact rfl
          | vNull => exact rfl
          | vObj => exact rfl
      · rw [if_neg h3, if_neg h3]
        by_cases h4 : op = "EXISTS"
        · rw [if_pos h4, if_pos h4]
          cases x with
          | val v => exact rfl
          | sub p =>
              refine exceptRel_bind (hrec p rfl) ?_
              intro a b hab
              have hb := simBuild d a.2 b.2 a.1 b.1 hab.1 hab.2.2.1
              have h5 := sim_ctxAddMany d (QueryBuilder.build a.1 a.2).1 (specBuild b.1 b.2).1
                cb.ctx ((specBuild b.1 b.2).2.2) hb.1
              show exceptRel (cPost d s.length cb.ctx)
                (.ok (ctxAddMany (QueryBuilder.build a.1 a.2).1 cb.ctx
                    (QueryBuilder.build a.1 a.2).2.2,
                  cb.push .and ("EXISTS (" ++ (QueryBuilder.build a.1 a.2).2.1 ++ ")")))
                (.ok (sAddMany (specBuild b.1 b.2).1 scb.ctx (specBuild b.1 b.2).2.2,
                  scb.push .and (.lit "EXISTS (" :: ((specBuild b.1 b.2).2.1 ++ [.lit ")"]))))
              rw [← hctx, hb.2.2.2]
              refine ⟨h5.1, ?_, ?_, rfl⟩
              · rw [h5.2, hb.2.1]
                exact hab.2.1
              · refine condRel_push d cb scb hcr .and _ _ ?_
                rw [hb.2.2.1]
                rw [show renderChunks d (Chunk.lit "EXISTS (" ::
                    ((specBuild b.1 b.2).2.1 ++ [Chunk.lit ")"])) =
                  "EXISTS (" ++ (renderChunks d ((specBuild b.1 b.2).2.1) ++ (")" ++ ""))
                  from by rw [renderChunks_lit, renderChunks_append, renderChunks_lit,
                    renderChunks_nil]]
                apply strEqOfData
                simp [String.data_append]
        · rw [if_neg h4, if_neg h4]
          cases x with
          | val v =>
              have h5 := sim_ctxAdd d s ss cb.ctx v hs
              show exceptRel (cPost d s.length cb.ctx)
                (.ok ((ctxAdd s cb.ctx v).1, cb.push .and (key ++ " " ++ op ++ " " ++
                  (ctxAdd s cb.ctx v).2)))
                (.ok ((sAdd ss scb.ctx v).1, scb.push .and
                  [.lit (key ++ " " ++ op ++ " "), (sAdd ss scb.ctx v).2]))
              rw [← hctx]
              refine ⟨h5.1, le_of_eq h5.2.1.symm, condRel_push d cb scb hcr .and _ _ ?_, rfl⟩
              rw [h5.2.2 hi]
              rw [show renderChunks d [Chunk.lit (key ++ " " ++ op ++ " "),
                  (sAdd ss cb.ctx v).2] =
                (key ++ " " ++ op ++ " ") ++
                  (d.placeholder ((sGet ss cb.ctx).length + 1) ++ "") from rfl]
              apply strEqOfData
              simp [String.data_append]
          | sub p =>
              have h5 := sim_ctxAdd d s ss cb.ctx .vObj hs
              show exceptRel (cPost d s.length cb.ctx)
                (.ok ((ctxAdd s cb.ctx .vObj).1, cb.push .and (key ++ " " ++ op ++ " " ++
                  (ctxAdd s cb.ctx .vObj).2)))
                (.ok ((sAdd ss scb.ctx .vObj).1, scb.push .and
                  [.lit (key ++ " " ++ op ++ " "), (sAdd ss scb.ctx .vObj).2]))
              rw [← hctx]
              refine ⟨h5.1, le_of_eq h5.2.1.symm, condRel_push d cb scb hcr .and _ _ ?_, rfl⟩
              rw [h5.2.2 hi]
              rw [show renderChunks d [Chunk.lit (key ++ " " ++ op ++ " "),
                  (sAdd ss cb.ctx .vObj).2] =
                (key ++ " " ++ op ++ " ") ++
                  (d.placeholder ((sGet ss cb.ctx).length + 1) ++ "") from rfl]
              apply strEqOfData
              simp [String.data_append]

theorem qbBound_mono (q : QueryBuilder) {n m : Nat} (h : n ≤ m) (hb : qbBound q n) :
    qbBound q m :=
  ⟨lt_of_lt_of_le hb.1 h, lt_of_lt_of_le hb.2.1 h, lt_of_lt_of_le hb.2.2 h⟩

theorem setCondition_ctx (q : QueryBuilder) (cb : ConditionBuilder) :
    (q.setCondition cb).ctx = q.ctx := by cases q; rfl

theorem setCondition_cond (q : QueryBuilder) (cb : ConditionBuilder) :
    (q.setCondition cb).condition = cb := by cases q; rfl

theorem setCondition_hav (q : QueryBuilder) (cb : ConditionBuilder) :
    (q.setCondition cb).havingCondition = q.havingCondition := by cases q; rfl

theorem setHaving_ctx (q : QueryBuilder) (cb : ConditionBuilder) :
    (q.setHaving cb).ctx = q.ctx := by cases q; rfl

theorem setHaving_cond (q : QueryBuilder) (cb : ConditionBuilder) :
    (q.setHaving cb).condition = q.condition := by cases q; rfl

theorem setHaving_hav (q : QueryBuilder) (cb : ConditionBuilder) :
    (q.setHaving cb).havingCondition = cb := by cases q; rfl

theorem qbRel_setCondition (d : Dialect) (q : QueryBuilder) (sq : SQB)
    (cb : ConditionBuilder) (scb : SCond) (h : qbRel d q sq) (hc : condRel d cb scb) :
    qbRel d (q.setCondition cb) (sq.setCondition scb) := by
  cases q with | mk f j g o l off ctes fc dd cx cond hav =>
  cases sq with | mk f' j' g' o' l' off' sctes fc' cx' cond' hav' =>
  rw [qbRel] at h
  obtain ⟨h1, h2, h3, h4, h5, h6, h7, h8, h9, h10, h11, h12⟩ := h
  simp only [QueryBuilder.setCondition, SQB.setCondition]
  rw [qbRel]
  exact ⟨h1, h2, h3, h4, h5, h6, h7, h8, h9, h10, hc, h12⟩

theorem qbRel_setHaving (d : Dialect) (q : QueryBuilder) (sq : SQB)
    (cb : ConditionBuilder) (scb : SCond) (h : qbRel d q sq) (hc : condRel d cb scb) :
    qbRel d (q.setHaving cb) (sq.setHaving scb) := by
  cases q with | mk f j g o l off ctes fc dd cx cond hav =>
  cases sq with | mk f' j' g' o' l' off' sctes fc' cx' cond' hav' =>
  rw [qbRel] at h
  obtain ⟨h1, h2, h3, h4, h5, h6, h7, h8, h9, h10, h11, h12⟩ := h
  simp only [QueryBuilder.setHaving, SQB.setHaving]
  rw [qbRel]
  exact ⟨h1, h2, h3, h4, h5, h6, h7, h8, h9, h10, h11, hc⟩

theorem simRunOp_whereQ_aux (d : Dialect) (key : String) (c : CondVal) (q : QueryBuilder)
    (sq : SQB) (s : Store) (ss : SpecStore) (hq : qbRel d q sq) (hb : qbBound q s.length)
    (hce : exceptRel (cPost d s.length q.condition.ctx) (condEntry d key c q.condition s)
      (specCondEntry key c sq.condition ss)) :
    exceptRel (qPost d s.length) (runOp d (.whereQ key c) q s)
      (specRunOp (.whereQ key c) sq ss) := by
  refine exceptRel_bind hce ?_
  intro a b hab
  refine ⟨hab.1, hab.2.1, qbRel_setCondition d q sq a.2 b.2 hq hab.2.2.1, ?_⟩
  rw [qbBound, setCondition_ctx, setCondition_cond, setCondition_hav]
  refine ⟨lt_of_lt_of_le hb.1 hab.2.1, ?_, lt_of_lt_of_le hb.2.2 hab.2.1⟩
  rw [hab.2.2.2]
  exact lt_of_lt_of_le hb.2.1 hab.2.1

theorem simRunOp_havingQ_aux (d : Dialect) (key : String) (c : CondVal) (q : QueryBuilder)
    (sq : SQB) (s : Store) (ss : SpecStore) (hq : qbRel d q sq) (hb : qbBound q s.length)
    (hce : exceptRel (cPost d s.length q.havingCondition.ctx)
      (condEntry d key c q.havingCondition s) (specCondEntry key c sq.havingCondition ss)) :
    exceptRel (qPost d s.length) (runOp d (.havingQ key c) q s)
      (specRunOp (.havingQ key c) sq ss) := by
  refine exceptRel_bind hce ?_
  intro a b hab
  refine ⟨hab.1, hab.2.1, qbRel_setHaving d q sq a.2 b.2 hq hab.2.2.1, ?_⟩
  rw [qbBound, setHaving_ctx, setHaving_cond, setHaving_hav]
  refine ⟨lt_of_lt_of_le hb.1 hab.2.1, lt_of_lt_of_le hb.2.1 hab.2.1, ?_⟩
  rw [hab.2.2.2]
  exact lt_of_lt_of_le hb.2.2 hab.2.1

theorem qbPres_setFields (d : Dialect) (q : QueryBuilder) (sq : SQB) (fs : List String)
    (h : qbRel d q sq) (n : Nat) (hb : qbBound q n) :
    qbRel d (q.setFields fs) (sq.setFields fs) ∧ qbBound (q.setFields fs) n := by
  cases q with | mk f j g o l off ctes fc dd cx cond hav =>
  cases sq with | mk f' j' g' o' l' off' sctes fc' cx' cond' hav' =>
  rw [qbRel] at h
  obtain ⟨h1, h2, h3, h4, h5, h6, h7, h8, h9, h10, h11, h12⟩ := h
  refine ⟨?_, hb⟩
  simp only [QueryBuilder.setFields, SQB.setFields]
  rw [qbRel]
  exact ⟨rfl, h2, h3, h4, h5, h6, h7, h8, h9, h10, h11, h12⟩

theorem qbPres_pushJoin (d : Dialect) (q : QueryBuilder) (sq : SQB) (js : String)
    (h : qbRel d q sq) (n : Nat) (hb : qbBound q n) :
    qbRel d (q.pushJoin js) (sq.pushJoin js) ∧ qbBound (q.pushJoin js) n := by
  cases q with | mk f j g o l off ctes fc dd cx cond hav =>
  cases sq with | mk f' j' g' o' l' off' sctes fc' cx' cond' hav' =>
  rw [qbRel] at h
  obtain ⟨h1, h2, h3, h4, h5, h6, h7, h8, h9, h10, h11, h12⟩ := h
  refine ⟨?_, hb⟩
  simp only [QueryBuilder.pushJoin, SQB.pushJoin]
  rw [qbRel]
  exact ⟨h1, by rw [h2], h3, h4, h5, h6, h7, h8, h9, h10, h11, h12⟩

theorem qbPres_pushGroupBy (d : Dialect) (q : QueryBuilder) (sq : SQB) (fs : List String)
    (h : qbRel d q sq) (n : Nat) (hb : qbBound q n) :
    qbRel d (q.pushGroupBy fs) (sq.pushGroupBy fs) ∧ qbBound (q.pushGroupBy fs) n := by
  cases q with | mk f j g o l off ctes fc dd cx cond hav =>
  cases sq with | mk f' j' g' o' l' off' sctes fc' cx' cond' hav' =>
  rw [qbRel] at h
  obtain ⟨h1, h2, h3, h4, h5, h6, h7, h8, h9, h10, h11, h12⟩ := h
  refine ⟨?_, hb⟩
  simp only [QueryBuilder.pushGroupBy, SQB.pushGroupBy]
  rw [qbRel]
  exact ⟨h1, h2, by rw [h3], h4, h5, h6, h7, h8, h9, h10, h11, h12⟩

theorem qbPres_pushOrderBy (d : Dialect) (q : QueryBuilder) (sq : SQB) (ob : String)
    (h : qbRel d q sq) (n : Nat) (hb : qbBound q n) :
    qbRel d (q.pushOrderBy ob) (sq.pushOrderBy ob) ∧ qbBound (q.pushOrderBy ob) n := by
  cases q with | mk f j g o l off ctes fc dd cx cond hav =>
  cases sq with | mk f' j' g' o' l' off' sctes fc' cx' cond' hav' =>
  rw [qbRel] at h
  obtain ⟨h1, h2, h3, h4, h5, h6, h7, h8, h9, h10, h11, h12⟩ := h
  refine ⟨?_, hb⟩
  simp only [QueryBuilder.pushOrderBy, SQB.pushOrderBy]
  rw [qbRel]
  exact ⟨h1, h2, h3, by rw [h4], h5, h6, h7, h8, h9, h10, h11, h12⟩

theorem qbPres_setLimit (d : Dialect) (q : QueryBuilder) (sq : SQB) (m : Option Nat)
    (h : qbRel d q sq) (n : Nat) (hb : qbBound q n) :
    qbRel d (q.setLimit m) (sq.setLimit m) ∧ qbBound (q.setLimit m) n := by
  cases q with | mk f j g o l off ctes fc dd cx cond hav =>
  cases sq with | mk f' j' g' o' l' off' sctes fc' cx' cond' hav' =>
  rw [qbRel] at h
  obtain ⟨h1, h2, h3, h4, h5, h6, h7, h8, h9, h10, h11, h12⟩ := h
  refine ⟨?_, hb⟩
  simp only [QueryBuilder.setLimit, SQB.setLimit]
  rw [qbRel]
  exact ⟨h1, h2, h3, h4, rfl, h6, h7, h8, h9, h10, h11, h12⟩

theorem qbPres_setOffset (d : Dialect) (q : QueryBuilder) (sq : SQB) (m : Option Nat)
    (h : qbRel d q sq) (n : Nat) (hb : qbBound q n) :
    qbRel d (q.setOffset m) (sq.setOffset m) ∧ qbBound (q.setOffset m) n := by
  cases q with | mk f j g o l off ctes fc dd cx cond hav =>
  cases sq with | mk f' j' g' o' l' off' sctes fc' cx' cond' hav' =>
  rw [qbRel] at h
  obtain ⟨h1, h2, h3, h4, h5, h6, h7, h8, h9, h10, h11, h12⟩ := h
  refine ⟨?_, hb⟩
  simp only [QueryBuilder.setOffset, SQB.setOffset]
  rw [qbRel]
  exact ⟨h1, h2, h3, h4, h5, rfl, h7, h8, h9, h10, h11, h12⟩

theorem qbPres_pushCte (d : Dialect) (q : QueryBuilder) (sq : SQB) (nm : String) (r : Bool)
    (sub : QueryBuilder) (ssub : SQB) (h : qbRel d q sq) (hsub : qbRel d sub ssub) (n : Nat)
    (hb : qbBound q n) :
    qbRel d (q.pushCte nm r sub) (sq.pushCte nm r ssub) ∧ qbBound (q.pushCte nm r sub) n := by
  cases q with | mk f j g o l off ctes fc dd cx cond hav =>
  cases sq with | mk f' j' g' o' l' off' sctes fc' cx' cond' hav' =>
  rw [qbRel] at h
  obtain ⟨h1, h2, h3, h4, h5, h6, h7, h8, h9, h10, h11, h12⟩ := h
  refine ⟨?_, hb⟩
  simp only [QueryBuilder.pushCte, SQB.pushCte]
  rw [qbRel]
  exact ⟨h1, h2, h3, h4, h5, h6, cteRel_push d ctes sctes h7 nm r sub ssub hsub, h8, h9, h10,
    h11, h12⟩

theorem qbPres_setFrom (d : Dialect) (q : QueryBuilder) (sq : SQB) (f0 : String) (fc0 : Chunks)
    (hf : f0 = renderChunks d fc0) (h : qbRel d q sq) (n : Nat) (hb : qbBound q n) :
    qbRel d (q.setFrom f0) (sq.setFrom fc0) ∧ qbBound (q.setFrom f0) n := by
  cases q with | mk f j g o l off ctes fc dd cx cond hav =>
  cases sq with | mk f' j' g' o' l' off' sctes fc' cx' cond' hav' =>
  rw [qbRel] at h
  obtain ⟨h1, h2, h3, h4, h5, h6, h7, h8, h9, h10, h11, h12⟩ := h
  refine ⟨?_, hb⟩
  simp only [QueryBuilder.setFrom, SQB.setFrom]
  rw [qbRel]
  exact ⟨h1, h2, h3, h4, h5, h6, h7, hf, h9, h10, h11, h12⟩

theorem simGroupBody (d : Dialect) (a : Store × ConditionBuilder) (b : SpecStore × SCond)
    (hcr2 : condRel d a.2 b.2) (hne : b.2.parts ≠ []) :
    "(" ++ stripWhere (a.2.build "WHERE") ++ ")" =
      renderChunks d ([.lit "("] ++ sJoinParts b.2.parts ++ [.lit ")"]) := by
  have hW := stripWhere_build a.2
    (fun h => hne ((condRel_parts_nil_iff d a.2 b.2 hcr2).1 h))
  rw [hW.1, hcr2.2, show (b.2.parts.map fun n => (⟨n.type, renderChunks d n.expr⟩ : CondNode)) =
    b.2.parts.map (nodeOf d) from rfl, sim_joinParts]
  rw [renderChunks_append, renderChunks_append]
  rw [show renderChunks d [Chunk.lit "("] = "(" ++ "" from rfl,
    show renderChunks d [Chunk.lit ")"] = ")" ++ "" from rfl]
  apply strEqOfData
  simp [String.data_append]

theorem simRunCondOp_cgroup_aux (d : Dialect) (conn : Conn) (ops : List CondOp)
    (cb : ConditionBuilder) (scb : SCond) (s : Store) (ss : SpecStore)
    (hcr : condRel d cb scb)
    (hops : exceptRel (cPost d s.length cb.ctx) (runCondOps d ops ⟨cb.ctx, []⟩ s)
      (specRunCondOps ops ⟨scb.ctx, []⟩ ss)) :
    exceptRel (cPost d s.length cb.ctx) (runCondOp d (.cgroup conn ops) cb s)
      (specRunCondOp (.cgroup conn ops) scb ss) := by
  refine exceptRel_bind hops ?_
  intro a b hab
  have hnil : a.2.build "WHERE" = "" ↔ b.2.parts = [] :=
    (build_empty_iff a.2 "WHERE").trans (condRel_parts_nil_iff d a.2 b.2 hab.2.2.1)
  by_cases hp : b.2.parts = []
  · show exceptRel (cPost d s.length cb.ctx)
      (if a.2.build "WHERE" = "" then .ok (a.1, cb)
        else .ok (a.1, cb.push conn ("(" ++ stripWhere (a.2.build "WHERE") ++ ")")))
      (if b.2.parts = [] then .ok (b.1, scb)
        else .ok (b.1, scb.push conn ([.lit "("] ++ sJoinParts b.2.parts ++ [.lit ")"])))
    rw [if_pos (hnil.2 hp), if_pos hp]
    exact ⟨hab.1, hab.2.1, hcr, rfl⟩
  · show exceptRel (cPost d s.length cb.ctx)
      (if a.2.build "WHERE" = "" then .ok (a.1, cb)
        else .ok (a.1, cb.push conn ("(" ++ stripWhere (a.2.build "WHERE") ++ ")")))
      (if b.2.parts = [] then .ok (b.1, scb)
        else .ok (b.1, scb.push conn ([.lit "("] ++ sJoinParts b.2.parts ++ [.lit ")"])))
    rw [if_neg (fun h => hp (hnil.1 h)), if_neg hp]
    exact ⟨hab.1, hab.2.1,
      condRel_push d cb scb hcr conn _ _ (simGroupBody d a b hab.2.2.1 hp), rfl⟩

theorem simRunOp_groupQ_aux (d : Dialect) (conn : Conn) (ops : List CondOp)
    (q : QueryBuilder) (sq : SQB) (s : Store) (ss : SpecStore)
    (hq : qbRel d q sq) (hb : qbBound q s.length)
    (hops : exceptRel (cPost d s.length q.condition.ctx)
      (runCondOps d ops ⟨q.condition.ctx, []⟩ s)
      (specRunCondOps ops ⟨sq.condition.ctx, []⟩ ss)) :
    exceptRel (qPost d s.length) (runOp d (.groupQ conn ops) q s)
      (specRunOp (.groupQ conn ops) sq ss) := by
  have hcr := (qbRel_dest d q sq hq).2.1
  refine exceptRel_bind hops ?_
  intro a b hab
  have hnil : a.2.build "WHERE" = "" ↔ b.2.parts = [] :=
    (build_empty_iff a.2 "WHERE").trans (condRel_parts_nil_iff d a.2 b.2 hab.2.2.1)
  by_cases hp : b.2.parts = []
  · show exceptRel (qPost d s.length)
      (if a.2.build "WHERE" = "" then .ok (a.1, q)
        else .ok (a.1, q.setCondition (q.condition.push conn
          ("(" ++ stripWhere (a.2.build "WHERE") ++ ")"))))
      (if b.2.parts = [] then .ok (b.1, sq)
        else .ok (b.1, sq.setCondition (sq.condition.push conn
          ([.lit "("] ++ sJoinParts b.2.parts ++ [.lit ")"]))))
    rw [if_pos (hnil.2 hp), if_pos hp]
    exact ⟨hab.1, hab.2.1, hq, qbBound_mono q hab.2.1 hb⟩
  · show exceptRel (qPost d s.length)
      (if a.2.build "WHERE" = "" then .ok (a.1, q)
        else .ok (a.1, q.setCondition (q.condition.push conn
          ("(" ++ stripWhere (a.2.build "WHERE") ++ ")"))))
      (if b.2.parts = [] then .ok (b.1, sq)
        else .ok (b.1, sq.setCondition (sq.condition.push conn
          ([.lit "("] ++ sJoinParts b.2.parts ++ [.lit ")"]))))
    rw [if_neg (fun h => hp (hnil.1 h)), if_neg hp]
    refine ⟨hab.1, hab.2.1, qbRel_setCondition d q sq _ _ hq
      (condRel_push d q.condition sq.condition hcr conn _ _
        (simGroupBody d a b hab.2.2.1 hp)), ?_⟩
    rw [qbBound, setCondition_ctx, setCondition_cond, setCondition_hav]
    exact ⟨lt_of_lt_of_le hb.1 hab.2.1,
      lt_of_lt_of_le hb.2.1 hab.2.1, lt_of_lt_of_le hb.2.2 hab.2.1⟩

theorem simRunOp_withCteQ_aux (d : Dialect) (nm : String) (sub : Plan) (r : Bool)
    (q : QueryBuilder) (sq : SQB) (s : Store) (ss : SpecStore)
    (hq : qbRel d q sq) (hb : qbBound q s.length)
    (hp : exceptRel (qPost d s.length) (runPlan d sub s) (specRunPlan sub ss)) :
    exceptRel (qPost d s.length) (runOp d (.withCteQ nm sub r) q s)
      (specRunOp (.withCteQ nm sub r) sq ss) := by
  refine exceptRel_bind hp ?_
  intro a b hab
  exact ⟨hab.1, hab.2.1, (qbPres_pushCte d q sq nm r a.2 b.2 hq hab.2.2.1 a.1.length
    (qbBound_mono q hab.2.1 hb)).1,
    (qbPres_pushCte d q sq nm r a.2 b.2 hq hab.2.2.1 a.1.length
      (qbBound_mono q hab.2.1 hb)).2⟩

theorem simRunOp_fromSubqueryQ_aux (d : Dialect) (sub : Plan) (al : String)
    (q : QueryBuilder) (sq : SQB) (s : Store) (ss : SpecStore)
    (hq : qbRel d q sq) (hb : qbBound q s.length)
    (hp : exceptRel (qPost d s.length) (runPlan d sub s) (specRunPlan sub ss)) :
    exceptRel (qPost d s.length) (runOp d (.fromSubqueryQ sub al) q s)
      (specRunOp (.fromSubqueryQ sub al) sq ss) := by
  have hcx := (qbRel_dest d q sq hq).1
  refine exceptRel_bind hp ?_
  intro a b hab
  have hbd := simBuild d a.2 b.2 a.1 b.1 hab.1 hab.2.2.1
  have h5 := sim_ctxAddMany d (QueryBuilder.build a.1 a.2).1 (specBuild b.1 b.2).1
    q.ctx ((specBuild b.1 b.2).2.2) hbd.1
  show exceptRel (qPost d s.length)
    (.ok (ctxAddMany (QueryBuilder.build a.1 a.2).1 q.ctx (QueryBuilder.build a.1 a.2).2.2,
      q.setFrom ("(" ++ (QueryBuilder.build a.1 a.2).2.1 ++ ") AS " ++ al)))
    (.ok (sAddMany (specBuild b.1 b.2).1 sq.ctx (specBuild b.1 b.2).2.2,
      sq.setFrom (.lit "(" :: ((specBuild b.1 b.2).2.1 ++ [.lit (") AS " ++ al)]))))
  rw [← hcx, hbd.2.2.2]
  have hlen : s.length ≤ (ctxAddMany (QueryBuilder.build a.1 a.2).1 q.ctx
      ((specBuild b.1 b.2).2.2)).length := by
    rw [h5.2, hbd.2.1]
    exact hab.2.1
  have hfr : "(" ++ (QueryBuilder.build a.1 a.2).2.1 ++ ") AS " ++ al =
      renderChunks d (.lit "(" :: ((specBuild b.1 b.2).2.1 ++ [.lit (") AS " ++ al)])) := by
    rw [hbd.2.2.1]
    rw [show renderChunks d (Chunk.lit "(" ::
        ((specBuild b.1 b.2).2.1 ++ [Chunk.lit (") AS " ++ al)])) =
      "(" ++ (renderChunks d ((specBuild b.1 b.2).2.1) ++ ((") AS " ++ al) ++ ""))
      from by rw [renderChunks_lit, renderChunks_append, renderChunks_lit, renderChunks_nil]]
    apply strEqOfData
    simp [String.data_append]
  have hqp := qbPres_setFrom d q sq _ _ hfr hq _
    (qbBound_mono q hlen hb)
  exact ⟨h5.1, hlen, hqp.1, hqp.2⟩

mutual
theorem simRunPlan : ∀ (d : Dialect) (p : Plan) (s : Store) (ss : SpecStore),
    storeRel d s ss →
    exceptRel (qPost d s.length) (runPlan d p s) (specRunPlan p ss)
  | d, .mk table ops, s, ss => fun hs =>
      simRunPlan_aux d table ops s ss hs
        (fun q sq s1 ss1 h1 h2 h3 => simRunOps d ops q sq s1 ss1 h1 h2 h3)

theorem simRunOps : ∀ (d : Dialect) (ops : List QOp) (q : QueryBuilder) (sq : SQB)
    (s : Store) (ss : SpecStore), storeRel d s ss → qbRel d q sq → qbBound q s.length →
    exceptRel (qPost d s.length) (runOps d ops q s) (specRunOps ops sq ss)
  | d, [], q, sq, s, ss => fun hs hq hb => ⟨hs, le_refl _, hq, hb⟩
  | d, o :: rest, q, sq, s, ss => fun hs hq hb =>
      simRunOps_cons_aux d o rest q sq s ss
        (simRunOp d o q sq s ss hs hq hb)
        (fun q1 sq1 s1 ss1 h1 h2 h3 => simRunOps d rest q1 sq1 s1 ss1 h1 h2 h3)

theorem simRunOp : ∀ (d : Dialect) (o : QOp) (q : QueryBuilder) (sq : SQB)
    (s : Store) (ss : SpecStore), storeRel d s ss → qbRel d q sq → qbBound q s.length →
    exceptRel (qPost d s.length) (runOp d o q s) (specRunOp o sq ss)
  | d, .selectQ fs, q, sq, s, ss => fun hs hq hb =>
      ⟨hs, le_refl _, (qbPres_setFields d q sq fs hq s.length hb).1,
        (qbPres_setFields d q sq fs hq s.length hb).2⟩
  | d, .joinQ kind table lk fk, q, sq, s, ss => fun hs hq hb =>
      ⟨hs, le_refl _, (qbPres_pushJoin d q sq _ hq s.length hb).1,
        (qbPres_pushJoin d q sq _ hq s.length hb).2⟩
  | d, .whereQ key c, q, sq, s, ss => fun hs hq hb =>
      simRunOp_whereQ_aux d key c q sq s ss hq hb
        (simCondEntry d key c q.condition sq.condition s ss hs
          (qbRel_dest d q sq hq).2.1 hb.2.1)
  | d, .whereRawQ e, q, sq, s, ss => fun hs hq hb =>
      ⟨hs, le_refl _, qbRel_setCondition d q sq _ _ hq
        (condRel_push d q.condition sq.condition (qbRel_dest d q sq hq).2.1 .and e [.lit e]
          (renderChunks_one_lit d e).symm),
        by
          rw [qbBound, setCondition_ctx, setCondition_cond, setCondition_hav]
          exact ⟨hb.1, hb.2.1, hb.2.2⟩⟩
  | d, .groupQ conn ops, q, sq, s, ss => fun hs hq hb =>
      simRunOp_groupQ_aux d conn ops q sq s ss hq hb
        (simRunCondOps d ops ⟨q.condition.ctx, []⟩ ⟨sq.condition.ctx, []⟩ s ss hs
          ⟨(qbRel_dest d q sq hq).2.1.1, rfl⟩ hb.2.1)
  | d, .groupByQ fs, q, sq, s, ss => fun hs hq hb =>
      ⟨hs, le_refl _, (qbPres_pushGroupBy d q sq fs hq s.length hb).1,
        (qbPres_pushGroupBy d q sq fs hq s.length hb).2⟩
  | d, .havingQ key c, q, sq, s, ss => fun hs hq hb =>
      simRunOp_havingQ_aux d key c q sq s ss hq hb
        (simCondEntry d key c q.havingCondition sq.havingCondition s ss hs
          (qbRel_dest d q sq hq).2.2 hb.2.2)
  | d, .havingRawQ e, q, sq, s, ss => fun hs hq hb =>
      ⟨hs, le_refl _, qbRel_setHaving d q sq _ _ hq
        (condRel_push d q.havingCondition sq.havingCondition (qbRel_dest d q sq hq).2.2 .and e
          [.lit e] (renderChunks_one_lit d e).symm),
        by
          rw [qbBound, setHaving_ctx, setHaving_cond, setHaving_hav]
          exact ⟨hb.1, hb.2.1, hb.2.2⟩⟩
  | d, .orderByQ col dir, q, sq, s, ss => fun hs hq hb =>
      ⟨hs, le_refl _, (qbPres_pushOrderBy d q sq _ hq s.length hb).1,
        (qbPres_pushOrderBy d q sq _ hq s.length hb).2⟩
  | d, .limitQ n, q, sq, s, ss => fun hs hq hb =>
      ⟨hs, le_refl _, (qbPres_setLimit d q sq (some n) hq s.length hb).1,
        (qbPres_setLimit d q sq (some n) hq s.length hb).2⟩
  | d, .offsetQ n, q, sq, s, ss => fun hs hq hb =>
      ⟨hs, le_refl _, (qbPres_setOffset d q sq (some n) hq s.length hb).1,
        (qbPres_setOffset d q sq (some n) hq s.length hb).2⟩
  | d, .withCteQ nm sub r, q, sq, s, ss => fun hs hq hb =>
      simRunOp_withCteQ_aux d nm sub r q sq s ss hq hb (simRunPlan d sub s ss hs)
  | d, .fromSubqueryQ sub al, q, sq, s, ss => fun hs hq hb =>
      simRunOp_fromSubqueryQ_aux d sub al q sq s ss hq hb (simRunPlan d sub s ss hs)

theorem simCondEntry : ∀ (d : Dialect) (key : String) (c : CondVal) (cb : ConditionBuilder)
    (scb : SCond) (s : Store) (ss : SpecStore), storeRel d s ss → condRel d cb scb →
    cb.ctx < s.length →
    exceptRel (cPost d s.length cb.ctx) (condEntry d key c cb s) (specCondEntry key c scb ss)
  | d, key, .nullv, cb, scb, s, ss => fun hs hcr _ =>
      simCondEntry_nullv d key cb scb s ss hs hcr
  | d, key, .scalar v, cb, scb, s, ss => fun hs hcr hi =>
      simCondEntry_scalar d key v cb scb s ss hs hcr hi
  | d, key, .cmp op x, cb, scb, s, ss => fun hs hcr hi =>
      simHandleOperator d key op x cb scb s ss hs hcr hi

theorem simHandleOperator : ∀ (d : Dialect) (key op : String) (x : Operand)
    (cb : ConditionBuilder) (scb : SCond) (s : Store) (ss : SpecStore),
    storeRel d s ss → condRel d cb scb → cb.ctx < s.length →
    exceptRel (cPost d s.length cb.ctx) (handleOperator d key op x cb s)
      (specHandleOperator key op x scb ss)
  | d, key, op, .sub p, cb, scb, s, ss => fun hs hcr hi =>
      simHandleOperator_aux d key op (.sub p) cb scb s ss hs hcr hi
        (fun p' hp => by
          injection hp with h
          exact h ▸ simRunPlan d p s ss hs)
  | d, key, op, .val v, cb, scb, s, ss => fun hs hcr hi =>
      simHandleOperator_aux d key op (.val v) cb scb s ss hs hcr hi
        (fun p' hp => Operand.noConfusion hp)

theorem simRunCondOps : ∀ (d : Dialect) (ops : List CondOp) (cb : ConditionBuilder)
    (scb : SCond) (s : Store) (ss : SpecStore), storeRel d s ss → condRel d cb scb →
    cb.ctx < s.length →
    exceptRel (cPost d s.length cb.ctx) (runCondOps d ops cb s) (specRunCondOps ops scb ss)
  | d, [], cb, scb, s, ss => fun hs hcr _ => ⟨hs, le_refl _, hcr, rfl⟩
  | d, o :: rest, cb, scb, s, ss => fun hs hcr hi =>
      simRunCondOps_cons_aux d o rest cb scb s ss
        (simRunCondOp d o cb scb s ss hs hcr hi)
        (fun cb1 scb1 s1 ss1 h1 h2 h3 => simRunCondOps d rest cb1 scb1 s1 ss1 h1 h2 h3)
        hi

theorem simRunCondOp : ∀ (d : Dialect) (o : CondOp) (cb : ConditionBuilder)
    (scb : SCond) (s : Store) (ss : SpecStore), storeRel d s ss → condRel d cb scb →
    cb.ctx < s.length →
    exceptRel (cPost d s.length cb.ctx) (runCondOp d o cb s) (specRunCondOp o scb ss)
  | d, .centry key c, cb, scb, s, ss => fun hs hcr hi =>
      simCondEntry d key c cb scb s ss hs hcr hi
  | d, .craw e, cb, scb, s, ss => fun hs hcr _ =>
      ⟨hs, le_refl _,
        condRel_push d cb scb hcr .and e [.lit e] (renderChunks_one_lit d e).symm, rfl⟩
  | d, .cgroup conn ops, cb, scb, s, ss => fun hs hcr hi =>
      simRunCondOp_cgroup_aux d conn ops cb scb s ss hcr
        (simRunCondOps d ops ⟨cb.ctx, []⟩ ⟨scb.ctx, []⟩ s ss hs ⟨hcr.1, rfl⟩ hi)
end

theorem simPlanD (d : Dialect) (p : Plan) :
    exceptRel (fun r sr => r.1 = renderChunks d sr.1 ∧ r.2 = sr.2)
      (runPlanD d p) (specPlanD p) := by
  have h := simRunPlan d p [] [] ⟨rfl, fun c hc => absurd hc (List.not_mem_nil c)⟩
  rw [runPlanD, specPlanD]
  cases hr : runPlan d p [] with
  | error e =>
      cases hsr : specRunPlan p [] with
      | error f =>
          rw [hr, hsr] at h
          exact h
      | ok b =>
          rw [hr, hsr] at h
          exact h.elim
  | ok a =>
      cases hsr : specRunPlan p [] with
      | error f =>
          rw [hr, hsr] at h
          exact h.elim
      | ok b =>
          rw [hr, hsr] at h
          have hb := simBuild d a.2 b.2 a.1 b.1 h.1 h.2.2.1
          exact ⟨hb.2.2.1, hb.2.2.2⟩

/-- C10: the same builder program run under the indexed-placeholder
dialect and under the fixed-token dialect yields identical parameter
arrays, and SQL texts that are the same skeleton rendered under the two
dialects (identical literal text, placeholder tokens substituted per
dialect). -/
theorem dialect_substitution (p : Plan) (r₁ r₂ : String × List Val)
    (h₁ : runPlanD PostgresDialect p = .ok r₁) (h₂ : runPlanD MysqlDialect p = .ok r₂) :
    r₁.2 = r₂.2 ∧ ∃ sk, r₁.1 = renderChunks PostgresDialect sk ∧
      r₂.1 = renderChunks MysqlDialect sk := by
  have s₁ := simPlanD PostgresDialect p
  have s₂ := simPlanD MysqlDialect p
  rw [h₁] at s₁
  rw [h₂] at s₂
  cases hsp : specPlanD p with
  | error e =>
      rw [hsp] at s₁
      exact s₁.elim
  | ok sr =>
      rw [hsp] at s₁
      rw [hsp] at s₂
      exact ⟨by rw [s₁.2, s₂.2], sr.1, s₁.1, s₂.1⟩

theorem dialect_substitution_witness :
    runPlanD PostgresDialect childPlan =
      .ok ("SELECT * FROM t WHERE a = $1 AND b = $2", [.vInt 10, .vInt 20]) ∧
    runPlanD MysqlDialect childPlan =
      .ok ("SELECT * FROM t WHERE a = ? AND b = ?", [.vInt 10, .vInt 20]) ∧
    ([Val.vInt 10, Val.vInt 20] = [Val.vInt 10, Val.vInt 20] ∧
      ∃ sk, "SELECT * FROM t WHERE a = $1 AND b = $2" = renderChunks PostgresDialect sk ∧
        "SELECT * FROM t WHERE a = ? AND b = ?" = renderChunks MysqlDialect sk) :=
  ⟨by decide, by decide,
    dialect_substitution childPlan
      ("SELECT * FROM t WHERE a = $1 AND b = $2", [.vInt 10, .vInt 20])
      ("SELECT * FROM t WHERE a = ? AND b = ?", [.vInt 10, .vInt 20])
      (by decide) (by decide)⟩

theorem partsVals_append (a b : List SCondNode) :
    partsVals (a ++ b) = partsVals a ++ partsVals b := by
  induction a with
  | nil => rfl
  | cons n r ih => rw [List.cons_append, partsVals, partsVals, ih, List.append_assoc]

theorem textVals_sJoinPartsTail (l : List SCondNode) :
    textVals (sJoinParts.sJoinPartsTail l) = partsVals l := by
  induction l with
  | nil => rfl
  | cons n r ih =>
      rw [sJoinParts.sJoinPartsTail, partsVals, show textVals (Chunk.lit (" " ++ n.type.str ++
        " ") :: (n.expr ++ sJoinParts.sJoinPartsTail r)) =
        textVals (n.expr ++ sJoinParts.sJoinPartsTail r) from rfl, textVals_append, ih]

theorem textVals_sJoinParts (l : List SCondNode) : textVals (sJoinParts l) = partsVals l := by
  cases l with
  | nil => rfl
  | cons n r =>
      rw [sJoinParts, partsVals, textVals_append, textVals_sJoinPartsTail]

theorem length_sAdd (ss : SpecStore) (i : Nat) (v : Val) :
    ((sAdd ss i v).1).length = ss.length := by
  simp [sAdd]

theorem sGet_sAdd_self (ss : SpecStore) (i : Nat) (v : Val) (hi : i < ss.length) :
    sGet (sAdd ss i v).1 i = sGet ss i ++ [v] := by
  simp [sAdd, sGet, List.getD, List.getElem?_set_self hi]

theorem sGet_sAdd_ne (ss : SpecStore) (i j : Nat) (v : Val) (hj : j ≠ i) :
    sGet (sAdd ss i v).1 j = sGet ss j := by
  simp [sAdd, sGet, List.getD, List.getElem?_set_ne (Ne.symm hj)]

theorem length_sAddMany (ss : SpecStore) (i : Nat) (vs : List Val) :
    (sAddMany ss i vs).length = ss.length := by
  induction vs generalizing ss with
  | nil => rfl
  | cons v vs ih => rw [sAddMany, ih, length_sAdd]

theorem sGet_sAddMany_self (ss : SpecStore) (i : Nat) (vs : List Val) (hi : i < ss.length) :
    sGet (sAddMany ss i vs) i = sGet ss i ++ vs := by
  induction vs generalizing ss with
  | nil => exact (List.append_nil _).symm
  | cons v vs ih =>
      rw [sAddMany, ih _ (by rw [length_sAdd]; exact hi), sGet_sAdd_self ss i v hi,
        List.append_assoc]
      rfl

theorem sGet_sAddMany_ne (ss : SpecStore) (i j : Nat) (vs : List Val) (hj : j ≠ i) :
    sGet (sAddMany ss i vs) j = sGet ss j := by
  induction vs generalizing ss with
  | nil => rfl
  | cons v vs ih => rw [sAddMany, ih, sGet_sAdd_ne ss i j v hj]

theorem sAddChunks_fst (ss : SpecStore) (i : Nat) (vs : List Val) :
    (sAddChunks ss i vs).1 = sAddMany ss i vs := by
  induction vs generalizing ss with
  | nil => rfl
  | cons v vs ih => rw [sAddChunks, sAddMany]; exact ih _

theorem inChunks_textVals (vs : List Val) (ss : SpecStore) (i : Nat) :
    textVals (chunksJoinSep ", " (((sAddChunks ss i vs).2).map (fun t => [t]))) = vs := by
  induction vs generalizing ss with
  | nil => rfl
  | cons v vs ih =>
      cases vs with
      | nil => rfl
      | cons w ws =>
          rw [show chunksJoinSep ", " (((sAddChunks ss i (v :: w :: ws)).2).map (fun t => [t])) =
            [(sAdd ss i v).2] ++ [Chunk.lit ", "] ++
              chunksJoinSep ", " (((sAddChunks (sAdd ss i v).1 i (w :: ws)).2).map
                (fun t => [t])) from rfl]
          rw [textVals_append, textVals_append, ih]
          rfl

theorem sGet_append_lt (ss : SpecStore) (x : List Val) (i : Nat) (hi : i < ss.length) :
    sGet (ss ++ [x]) i = sGet ss i := by
  simp [sGet, List.getD, List.getElem?_append_left hi]

theorem sGet_append_self (ss : SpecStore) (x : List Val) : sGet (ss ++ [x]) ss.length = x := by
  simp [sGet, List.getD]

theorem specBuild_nilCtes (ss : SpecStore) (q : SQB) (h : q.ctes = SCteList.nil) :
    (specBuild ss q).1 = ss ∧ (specBuild ss q).2.2 = sGet ss q.ctx := by
  cases q with | mk f j g o l off ctes fc cx cond hav =>
  rw [show SQB.ctes (.mk f j g o l off ctes fc cx cond hav) = ctes from rfl] at h
  subst h
  exact ⟨rfl, rfl⟩

theorem textVals_pushLit (X : Chunks) (t : String) : textVals (X ++ [.lit t]) = textVals X := by
  rw [textVals_append]
  exact List.append_nil _

theorem textVals_layerLit (c : Prop) [Decidable c] (X : Chunks) (t : String) :
    textVals (if c then X else X ++ [.lit t]) = textVals X := by
  by_cases h : c
  · rw [if_pos h]
  · rw [if_neg h, textVals_pushLit]

theorem textVals_layerCond (Y X : Chunks) (t : String) :
    textVals (if Y = [] then X else X ++ [.lit t] ++ Y) = textVals X ++ textVals Y := by
  by_cases h : Y = []
  · rw [if_pos h, h]
    exact (List.append_nil _).symm
  · rw [if_neg h, textVals_append, textVals_append]
    rw [show textVals [Chunk.lit t] = [] from rfl, List.append_nil]

theorem textVals_buildC (cb : SCond) (kw : String) :
    textVals (cb.buildC kw) = partsVals cb.parts := by
  rw [SCond.buildC]
  by_cases h : cb.parts = []
  · rw [if_pos h, h]
    rfl
  · rw [if_neg h, show textVals (Chunk.lit (kw ++ " ") :: sJoinParts cb.parts) =
      textVals (sJoinParts cb.parts) from rfl, textVals_sJoinParts]

theorem specBuild_textVals (ss : SpecStore) (q : SQB) (h : q.ctes = SCteList.nil) :
    textVals ((specBuild ss q).2.1) = q.fVals ++ partsVals q.condition.parts ++
      partsVals q.havingCondition.parts := by
  cases q with | mk f j g o l off ctes fc cx cond hav =>
  rw [show SQB.ctes (.mk f j g o l off ctes fc cx cond hav) = ctes from rfl] at h
  subst h
  show textVals ((specBuild ss (.mk f j g o l off .nil fc cx cond hav)).2.1) = _
  rw [specBuild]
  dsimp only
  cases off <;> cases l <;>
    (dsimp only
     simp only [textVals_layerLit, textVals_layerCond]
     simp [textVals_append, textVals_buildC, SCteList.isNil, SQB.fVals, SQB.condition,
       SQB.havingCondition, SQB.fromClause,
       show ∀ (t : String) (r : Chunks), textVals (Chunk.lit t :: r) = textVals r
         from fun t r => rfl])

/-- What an ordered plan run guarantees: the store only grew, existing
slots are untouched, the produced builder owns the fresh context with
both condition builders sharing it and no CTEs, and the slot holds
exactly the values whose placeholders sit in its FROM, WHERE and HAVING
material, in that order. -/
def osPlanPost (ss : SpecStore) (r : SpecStore × SQB) : Prop :=
  ss.length ≤ r.1.length ∧ (∀ i, i < ss.length → sGet r.1 i = sGet ss i) ∧
  r.2.ctx = ss.length ∧ r.2.condition.ctx = ss.length ∧
  r.2.havingCondition.ctx = ss.length ∧ r.2.ctes = SCteList.nil ∧
  sGet r.1 r.2.ctx = r.2.fVals ++ r.2.wVals ++ r.2.hVals

/-- The same guarantee relative to a builder in mid-chain. -/
def osOpsPost (q : SQB) (ss : SpecStore) (r : SpecStore × SQB) : Prop :=
  ss.length ≤ r.1.length ∧
  (∀ i, i < ss.length → i ≠ q.ctx → sGet r.1 i = sGet ss i) ∧
  r.2.ctx = q.ctx ∧ r.2.condition.ctx = q.condition.ctx ∧
  r.2.havingCondition.ctx = q.havingCondition.ctx ∧ r.2.ctes = q.ctes ∧
  sGet r.1 r.2.ctx = r.2.fVals ++ r.2.wVals ++ r.2.hVals

/-- What one ordered condition step guarantees: appended nodes only, and
the context slot grew by exactly the values of those nodes, in order. -/
def osCondPost (cb : SCond) (ss : SpecStore) (r : SpecStore × SCond) : Prop :=
  ss.length ≤ r.1.length ∧
  (∀ i, i < ss.length → i ≠ cb.ctx → sGet r.1 i = sGet ss i) ∧
  r.2.ctx = cb.ctx ∧
  ∃ dps, r.2.parts = cb.parts ++ dps ∧
    sGet r.1 cb.ctx = sGet ss cb.ctx ++ partsVals dps

/-- The phase invariant of an ordered chain: shared context inside the
store, the slot equal to the FROM then WHERE then HAVING values, no
HAVING values yet while `where`-family calls are still allowed
(`c ≤ 1`), and nothing at all before the first registering call
(`c = 0`). -/
def osPhase (c : Nat) (q : SQB) (ss : SpecStore) : Prop :=
  q.condition.ctx = q.ctx ∧ q.havingCondition.ctx = q.ctx ∧ q.ctx < ss.length ∧
  sGet ss q.ctx = q.fVals ++ q.wVals ++ q.hVals ∧
  (c ≤ 1 → q.hVals = []) ∧ (c = 0 → q.fVals = [] ∧ q.wVals = [])

theorem osOpsPost_comp (q : SQB) (ss : SpecStore) (a : SpecStore × SQB) (r : SpecStore × SQB)
    (h1 : ss.length ≤ a.1.length)
    (h2 : ∀ i, i < ss.length → i ≠ q.ctx → sGet a.1 i = sGet ss i)
    (h3 : a.2.ctx = q.ctx) (h4 : a.2.condition.ctx = q.condition.ctx)
    (h5 : a.2.havingCondition.ctx = q.havingCondition.ctx) (h6 : a.2.ctes = q.ctes)
    (hr : osOpsPost a.2 a.1 r) : osOpsPost q ss r :=
  ⟨le_trans h1 hr.1,
   fun i hi hne => by
     rw [hr.2.1 i (lt_of_lt_of_le hi h1) (by rw [h3]; exact hne), h2 i hi hne],
   hr.2.2.1.trans h3, hr.2.2.2.1.trans h4, hr.2.2.2.2.1.trans h5, hr.2.2.2.2.2.1.trans h6,
   hr.2.2.2.2.2.2⟩

theorem osCondPost_comp (cb : SCond) (ss : SpecStore) (a : SpecStore × SCond)
    (r : SpecStore × SCond)
    (h1 : osCondPost cb ss a) (h2 : osCondPost a.2 a.1 r) : osCondPost cb ss r := by
  obtain ⟨hle1, hfr1, hctx1, dps1, hp1, hs1⟩ := h1
  obtain ⟨hle2, hfr2, hctx2, dps2, hp2, hs2⟩ := h2
  refine ⟨le_trans hle1 hle2, ?_, hctx2.trans hctx1, dps1 ++ dps2, ?_, ?_⟩
  · intro i hi hne
    rw [hfr2 i (lt_of_lt_of_le hi hle1) (by rw [hctx1]; exact hne), hfr1 i hi hne]
  · rw [hp2, hp1, List.append_assoc]
  · rw [hctx1] at hs2
    rw [hs2, hs1, partsVals_append, List.append_assoc]

theorem specRunOps_cons_error (o : QOp) (rest : List QOp) (q : SQB) (ss : SpecStore)
    (e : String) (h : specRunOp o q ss = .error e) :
    specRunOps (o :: rest) q ss = .error e := by
  show (specRunOp o q ss >>= fun p => specRunOps rest p.2 p.1) = .error e
  rw [h]
  rfl

theorem specRunOps_cons_ok (o : QOp) (rest : List QOp) (q : SQB) (ss : SpecStore)
    (a : SpecStore × SQB) (h : specRunOp o q ss = .ok a) :
    specRunOps (o :: rest) q ss = specRunOps rest a.2 a.1 := by
  show (specRunOp o q ss >>= fun p => specRunOps rest p.2 p.1) = _
  rw [h]
  rfl

theorem specRunCondOps_cons_error (o : CondOp) (rest : List CondOp) (cb : SCond)
    (ss : SpecStore) (e : String) (h : specRunCondOp o cb ss = .error e) :
    specRunCondOps (o :: rest) cb ss = .error e := by
  show (specRunCondOp o cb ss >>= fun p => specRunCondOps rest p.2 p.1) = .error e
  rw [h]
  rfl

theorem specRunCondOps_cons_ok (o : CondOp) (rest : List CondOp) (cb : SCond)
    (ss : SpecStore) (a : SpecStore × SCond) (h : specRunCondOp o cb ss = .ok a) :
    specRunCondOps (o :: rest) cb ss = specRunCondOps rest a.2 a.1 := by
  show (specRunCondOp o cb ss >>= fun p => specRunCondOps rest p.2 p.1) = _
  rw [h]
  rfl

theorem specRunOp_whereQ_error (key : String) (cv : CondVal) (q : SQB) (ss : SpecStore)
    (e : String) (h : specCondEntry key cv q.condition ss = .error e) :
    specRunOp (.whereQ key cv) q ss = .error e := by
  show (specCondEntry key cv q.condition ss >>= fun p => .ok (p.1, q.setCondition p.2)) =
    .error e
  rw [h]
  rfl

theorem specRunOp_whereQ_ok (key : String) (cv : CondVal) (q : SQB) (ss : SpecStore)
    (a : SpecStore × SCond) (h : specCondEntry key cv q.condition ss = .ok a) :
    specRunOp (.whereQ key cv) q ss = .ok (a.1, q.setCondition a.2) := by
  show (specCondEntry key cv q.condition ss >>= fun p => .ok (p.1, q.setCondition p.2)) = _
  rw [h]
  rfl

theorem specRunOp_havingQ_error (key : String) (cv : CondVal) (q : SQB) (ss : SpecStore)
    (e : String) (h : specCondEntry key cv q.havingCondition ss = .error e) :
    specRunOp (.havingQ key cv) q ss = .error e := by
  show (specCondEntry key cv q.havingCondition ss >>= fun p => .ok (p.1, q.setHaving p.2)) =
    .error e
  rw [h]
  rfl

theorem specRunOp_havingQ_ok (key : String) (cv : CondVal) (q : SQB) (ss : SpecStore)
    (a : SpecStore × SCond) (h : specCondEntry key cv q.havingCondition ss = .ok a) :
    specRunOp (.havingQ key cv) q ss = .ok (a.1, q.setHaving a.2) := by
  show (specCondEntry key cv q.havingCondition ss >>= fun p => .ok (p.1, q.setHaving p.2)) = _
  rw [h]
  rfl

theorem specRunOp_groupQ_error (conn : Conn) (ops : List CondOp) (q : SQB) (ss : SpecStore)
    (e : String) (h : specRunCondOps ops ⟨q.condition.ctx, []⟩ ss = .error e) :
    specRunOp (.groupQ conn ops) q ss = .error e := by
  show (specRunCondOps ops ⟨q.condition.ctx, []⟩ ss >>= fun p =>
    if p.2.parts = [] then .ok (p.1, q)
    else .ok (p.1, q.setCondition (q.condition.push conn
      ([.lit "("] ++ sJoinParts p.2.parts ++ [.lit ")"])))) = .error e
  rw [h]
  rfl

theorem specRunOp_groupQ_ok (conn : Conn) (ops : List CondOp) (q : SQB) (ss : SpecStore)
    (a : SpecStore × SCond) (h : specRunCondOps ops ⟨q.condition.ctx, []⟩ ss = .ok a) :
    specRunOp (.groupQ conn ops) q ss =
      if a.2.parts = [] then .ok (a.1, q)
      else .ok (a.1, q.setCondition (q.condition.push conn
        ([.lit "("] ++ sJoinParts a.2.parts ++ [.lit ")"]))) := by
  show (specRunCondOps ops ⟨q.condition.ctx, []⟩ ss >>= fun p =>
    if p.2.parts = [] then .ok (p.1, q)
    else .ok (p.1, q.setCondition (q.condition.push conn
      ([.lit "("] ++ sJoinParts p.2.parts ++ [.lit ")"])))) = _
  rw [h]
  rfl

theorem specRunOp_fromSubqueryQ_error (sub : Plan) (al : String) (q : SQB) (ss : SpecStore)
    (e : String) (h : specRunPlan sub ss = .error e) :
    specRunOp (.fromSubqueryQ sub al) q ss = .error e := by
  show (specRunPlan sub ss >>= fun p =>
    .ok (sAddMany (specBuild p.1 p.2).1 q.ctx (specBuild p.1 p.2).2.2,
      q.setFrom (.lit "(" :: ((specBuild p.1 p.2).2.1 ++ [.lit (") AS " ++ al)])))) = .error e
  rw [h]
  rfl

theorem specRunOp_fromSubqueryQ_ok (sub : Plan) (al : String) (q : SQB) (ss : SpecStore)
    (a : SpecStore × SQB) (h : specRunPlan sub ss = .ok a) :
    specRunOp (.fromSubqueryQ sub al) q ss =
      .ok (sAddMany (specBuild a.1 a.2).1 q.ctx (specBuild a.1 a.2).2.2,
        q.setFrom (.lit "(" :: ((specBuild a.1 a.2).2.1 ++ [.lit (") AS " ++ al)]))) := by
  show (specRunPlan sub ss >>= fun p =>
    .ok (sAddMany (specBuild p.1 p.2).1 q.ctx (specBuild p.1 p.2).2.2,
      q.setFrom (.lit "(" :: ((specBuild p.1 p.2).2.1 ++ [.lit (") AS " ++ al)])))) = _
  rw [h]
  rfl

theorem specRunCondOp_cgroup_error (conn : Conn) (ops : List CondOp) (cb : SCond)
    (ss : SpecStore) (e : String) (h : specRunCondOps ops ⟨cb.ctx, []⟩ ss = .error e) :
    specRunCondOp (.cgroup conn ops) cb ss = .error e := by
  show (specRunCondOps ops ⟨cb.ctx, []⟩ ss >>= fun p =>
    if p.2.parts = [] then .ok (p.1, cb)
    else .ok (p.1, cb.push conn ([.lit "("] ++ sJoinParts p.2.parts ++ [.lit ")"]))) = .error e
  rw [h]
  rfl

theorem specRunCondOp_cgroup_ok (conn : Conn) (ops : List CondOp) (cb : SCond)
    (ss : SpecStore) (a : SpecStore × SCond) (h : specRunCondOps ops ⟨cb.ctx, []⟩ ss = .ok a) :
    specRunCondOp (.cgroup conn ops) cb ss =
      if a.2.parts = [] then .ok (a.1, cb)
      else .ok (a.1, cb.push conn ([.lit "("] ++ sJoinParts a.2.parts ++ [.lit ")"])) := by
  show (specRunCondOps ops ⟨cb.ctx, []⟩ ss >>= fun p =>
    if p.2.parts = [] then .ok (p.1, cb)
    else .ok (p.1, cb.push conn ([.lit "("] ++ sJoinParts p.2.parts ++ [.lit ")"]))) = _
  rw [h]
  rfl

theorem specHandleOp_exists_error (key : String) (p : Plan) (cb : SCond) (ss : SpecStore)
    (e : String) (h : specRunPlan p ss = .error e) :
    specHandleOperator key "EXISTS" (.sub p) cb ss = .error e := by
  unfold specHandleOperator
  rw [if_neg (by decide), if_neg (by decide), if_neg (by decide), if_pos rfl]
  show (specRunPlan p ss >>= fun pq =>
    .ok (sAddMany (specBuild pq.1 pq.2).1 cb.ctx (specBuild pq.1 pq.2).2.2,
      cb.push .and (.lit "EXISTS (" :: ((specBuild pq.1 pq.2).2.1 ++ [.lit ")"])))) = .error e
  rw [h]
  rfl

theorem specHandleOp_exists_ok (key : String) (p : Plan) (cb : SCond) (ss : SpecStore)
    (a : SpecStore × SQB) (h : specRunPlan p ss = .ok a) :
    specHandleOperator key "EXISTS" (.sub p) cb ss =
      .ok (sAddMany (specBuild a.1 a.2).1 cb.ctx (specBuild a.1 a.2).2.2,
        cb.push .and (.lit "EXISTS (" :: ((specBuild a.1 a.2).2.1 ++ [.lit ")"]))) := by
  unfold specHandleOperator
  rw [if_neg (by decide), if_neg (by decide), if_neg (by decide), if_pos rfl]
  show (specRunPlan p ss >>= fun pq =>
    .ok (sAddMany (specBuild pq.1 pq.2).1 cb.ctx (specBuild pq.1 pq.2).2.2,
      cb.push .and (.lit "EXISTS (" :: ((specBuild pq.1 pq.2).2.1 ++ [.lit ")"])))) = _
  rw [h]
  rfl

theorem fVals_def (q : SQB) : q.fVals = textVals q.fromClause := rfl

theorem wVals_def (q : SQB) : q.wVals = partsVals q.condition.parts := rfl

theorem hVals_def (q : SQB) : q.hVals = partsVals q.havingCondition.parts := rfl

theorem sqb_setFields_acc (q : SQB) (fs : List String) :
    (q.setFields fs).ctx = q.ctx ∧ (q.setFields fs).condition = q.condition ∧
    (q.setFields fs).havingCondition = q.havingCondition ∧
    (q.setFields fs).ctes = q.ctes ∧ (q.setFields fs).fromClause = q.fromClause := by
  cases q
  exact ⟨rfl, rfl, rfl, rfl, rfl⟩

theorem sqb_pushJoin_acc (q : SQB) (s : String) :
    (q.pushJoin s).ctx = q.ctx ∧ (q.pushJoin s).condition = q.condition ∧
    (q.pushJoin s).havingCondition = q.havingCondition ∧
    (q.pushJoin s).ctes = q.ctes ∧ (q.pushJoin s).fromClause = q.fromClause := by
  cases q
  exact ⟨rfl, rfl, rfl, rfl, rfl⟩

theorem sqb_pushGroupBy_acc (q : SQB) (fs : List String) :
    (q.pushGroupBy fs).ctx = q.ctx ∧ (q.pushGroupBy fs).condition = q.condition ∧
    (q.pushGroupBy fs).havingCondition = q.havingCondition ∧
    (q.pushGroupBy fs).ctes = q.ctes ∧ (q.pushGroupBy fs).fromClause = q.fromClause := by
  cases q
  exact ⟨rfl, rfl, rfl, rfl, rfl⟩

theorem sqb_pushOrderBy_acc (q : SQB) (s : String) :
    (q.pushOrderBy s).ctx = q.ctx ∧ (q.pushOrderBy s).condition = q.condition ∧
    (q.pushOrderBy s).havingCondition = q.havingCondition ∧
    (q.pushOrderBy s).ctes = q.ctes ∧ (q.pushOrderBy s).fromClause = q.fromClause := by
  cases q
  exact ⟨rfl, rfl, rfl, rfl, rfl⟩

theorem sqb_setLimit_acc (q : SQB) (n : Option Nat) :
    (q.setLimit n).ctx = q.ctx ∧ (q.setLimit n).condition = q.condition ∧
    (q.setLimit n).havingCondition = q.havingCondition ∧
    (q.setLimit n).ctes = q.ctes ∧ (q.setLimit n).fromClause = q.fromClause := by
  cases q
  exact ⟨rfl, rfl, rfl, rfl, rfl⟩

theorem sqb_setOffset_acc (q : SQB) (n : Option Nat) :
    (q.setOffset n).ctx = q.ctx ∧ (q.setOffset n).condition = q.condition ∧
    (q.setOffset n).havingCondition = q.havingCondition ∧
    (q.setOffset n).ctes = q.ctes ∧ (q.setOffset n).fromClause = q.fromClause := by
  cases q
  exact ⟨rfl, rfl, rfl, rfl, rfl⟩

theorem sqb_setCondition_acc (q : SQB) (cb : SCond) :
    (q.setCondition cb).ctx = q.ctx ∧ (q.setCondition cb).condition = cb ∧
    (q.setCondition cb).havingCondition = q.havingCondition ∧
    (q.setCondition cb).ctes = q.ctes ∧ (q.setCondition cb).fromClause = q.fromClause := by
  cases q
  exact ⟨rfl, rfl, rfl, rfl, rfl⟩

theorem sqb_setHaving_acc (q : SQB) (cb : SCond) :
    (q.setHaving cb).ctx = q.ctx ∧ (q.setHaving cb).condition = q.condition ∧
    (q.setHaving cb).havingCondition = cb ∧
    (q.setHaving cb).ctes = q.ctes ∧ (q.setHaving cb).fromClause = q.fromClause := by
  cases q
  exact ⟨rfl, rfl, rfl, rfl, rfl⟩

theorem sqb_setFrom_acc (q : SQB) (fc : Chunks) :
    (q.setFrom fc).ctx = q.ctx ∧ (q.setFrom fc).condition = q.condition ∧
    (q.setFrom fc).havingCondition = q.havingCondition ∧
    (q.setFrom fc).ctes = q.ctes ∧ (q.setFrom fc).fromClause = fc := by
  cases q
  exact ⟨rfl, rfl, rfl, rfl, rfl⟩

theorem osPure (c : Nat) (q qn : SQB) (ss : SpecStore)
    (h1 : qn.ctx = q.ctx) (h2 : qn.condition = q.condition)
    (h3 : qn.havingCondition = q.havingCondition) (h4 : qn.ctes = q.ctes)
    (h5 : qn.fromClause = q.fromClause) (hph : osPhase c q ss) :
    osPhase c qn ss ∧ ∀ r, osOpsPost qn ss r → osOpsPost q ss r := by
  obtain ⟨hw1, hw2, hbnd, hsum, hh, hfw⟩ := hph
  constructor
  · refine ⟨?_, ?_, ?_, ?_, ?_, ?_⟩
    · rw [h2, h1]
      exact hw1
    · rw [h3, h1]
      exact hw2
    · rw [h1]
      exact hbnd
    · rw [h1, fVals_def, wVals_def, hVals_def, h2, h3, h5]
      exact hsum
    · intro hcle
      rw [hVals_def, h3]
      exact hh hcle
    · intro h0
      refine ⟨?_, ?_⟩
      · rw [fVals_def, h5]
        exact (hfw h0).1
      · rw [wVals_def, h2]
        exact (hfw h0).2
  · intro r hr
    exact osOpsPost_comp q ss (ss, qn) r (le_refl _) (fun i _ _ => rfl) h1
      (by rw [h2]) (by rw [h3]) h4 hr

theorem push_ctx (cb : SCond) (t : Conn) (e : Chunks) : (cb.push t e).ctx = cb.ctx := rfl

mutual
theorem osRunPlan : ∀ (p : Plan) (ss : SpecStore), orderedPlanB p = true →
    ∀ r, specRunPlan p ss = .ok r → osPlanPost ss r
  | .mk table ops, ss => by
      intro horder r hrun
      replace hrun : specRunOps ops
        (.mk [] [] [] [] none none .nil [.lit table] ss.length ⟨ss.length, []⟩ ⟨ss.length, []⟩)
        (ss ++ [[]]) = .ok r := hrun
      have hph : osPhase 0 (.mk [] [] [] [] none none .nil [.lit table] ss.length
          ⟨ss.length, []⟩ ⟨ss.length, []⟩) (ss ++ [[]]) := by
        refine ⟨rfl, rfl, by simp [SQB.ctx], ?_, fun _ => rfl, fun _ => ⟨rfl, rfl⟩⟩
        show sGet (ss ++ [[]]) ss.length = _
        rw [sGet_append_self]
        rfl
      have h := osRunOps 0 ops _ _ horder hph r hrun
      obtain ⟨hle, hfr, hctx, hcctx, hhctx, hctes, hsum⟩ := h
      refine ⟨le_trans (by simp) hle, ?_, hctx, hcctx, hhctx, hctes, hsum⟩
      intro i hi
      rw [hfr i (by simp; omega) (show i ≠ ss.length by omega), sGet_append_lt ss [] i hi]

theorem osRunOps : ∀ (c : Nat) (ops : List QOp) (q : SQB) (ss : SpecStore),
    orderedOpsB c ops = true → osPhase c q ss →
    ∀ r, specRunOps ops q ss = .ok r → osOpsPost q ss r
  | c, [], q, ss => by
      intro _ hph r hrun
      replace hrun : (Except.ok (ss, q) : Except String (SpecStore × SQB)) = .ok r := hrun
      injection hrun with h
      subst h
      exact ⟨le_refl _, fun i _ _ => rfl, rfl, rfl, rfl, rfl, hph.2.2.2.1⟩
  | c, (QOp.selectQ fs) :: rest, q, ss => by
      intro horder hph r hrun
      have hacc := sqb_setFields_acc q fs
      have hp := osPure c q (q.setFields fs) ss hacc.1 hacc.2.1 hacc.2.2.1 hacc.2.2.2.1
        hacc.2.2.2.2 hph
      rw [specRunOps_cons_ok _ _ _ _ (ss, q.setFields fs) (by rfl)] at hrun
      exact hp.2 r (osRunOps c rest (q.setFields fs) ss horder hp.1 r hrun)
  | c, (QOp.joinQ kind table lk fk) :: rest, q, ss => by
      intro horder hph r hrun
      have hacc := sqb_pushJoin_acc q (kind.str ++ " JOIN " ++ table ++ " ON " ++ lk ++ " = "
        ++ fk)
      have hp := osPure c q _ ss hacc.1 hacc.2.1 hacc.2.2.1 hacc.2.2.2.1 hacc.2.2.2.2 hph
      rw [specRunOps_cons_ok _ _ _ _ (ss, q.pushJoin (kind.str ++ " JOIN " ++ table ++ " ON "
        ++ lk ++ " = " ++ fk)) (by rfl)] at hrun
      exact hp.2 r (osRunOps c rest _ ss horder hp.1 r hrun)
  | c, (QOp.groupByQ fs) :: rest, q, ss => by
      intro horder hph r hrun
      have hacc := sqb_pushGroupBy_acc q fs
      have hp := osPure c q (q.pushGroupBy fs) ss hacc.1 hacc.2.1 hacc.2.2.1 hacc.2.2.2.1
        hacc.2.2.2.2 hph
      rw [specRunOps_cons_ok _ _ _ _ (ss, q.pushGroupBy fs) (by rfl)] at hrun
      exact hp.2 r (osRunOps c rest (q.pushGroupBy fs) ss horder hp.1 r hrun)
  | c, (QOp.orderByQ col dir) :: rest, q, ss => by
      intro horder hph r hrun
      have hacc := sqb_pushOrderBy_acc q (col ++ " " ++ dir.str)
      have hp := osPure c q _ ss hacc.1 hacc.2.1 hacc.2.2.1 hacc.2.2.2.1 hacc.2.2.2.2 hph
      rw [specRunOps_cons_ok _ _ _ _ (ss, q.pushOrderBy (col ++ " " ++ dir.str)) (by rfl)] at hrun
      exact hp.2 r (osRunOps c rest _ ss horder hp.1 r hrun)
  | c, (QOp.limitQ n) :: rest, q, ss => by
      intro horder hph r hrun
      have hacc := sqb_setLimit_acc q (some n)
      have hp := osPure c q (q.setLimit (some n)) ss hacc.1 hacc.2.1 hacc.2.2.1 hacc.2.2.2.1
        hacc.2.2.2.2 hph
      rw [specRunOps_cons_ok _ _ _ _ (ss, q.setLimit (some n)) (by rfl)] at hrun
      exact hp.2 r (osRunOps c rest (q.setLimit (some n)) ss horder hp.1 r hrun)
  | c, (QOp.offsetQ n) :: rest, q, ss => by
      intro horder hph r hrun
      have hacc := sqb_setOffset_acc q (some n)
      have hp := osPure c q (q.setOffset (some n)) ss hacc.1 hacc.2.1 hacc.2.2.1 hacc.2.2.2.1
        hacc.2.2.2.2 hph
      rw [specRunOps_cons_ok _ _ _ _ (ss, q.setOffset (some n)) (by rfl)] at hrun
      exact hp.2 r (osRunOps c rest (q.setOffset (some n)) ss horder hp.1 r hrun)
  | c, (QOp.withCteQ nm sub rc) :: rest, q, ss => by
      intro horder hph r hrun
      have h : false = true := horder
      exact Bool.noConfusion h
  | c, (QOp.whereRawQ e) :: rest, q, ss => by
      intro horder hph r hrun
      have h3 : (decide (c ≤ 1) && orderedOpsB 1 rest) = true := horder
      rw [Bool.and_eq_true] at h3
      obtain ⟨hc1, hrest⟩ := h3
      have hc1' : c ≤ 1 := of_decide_eq_true hc1
      obtain ⟨hw1, hw2, hbnd, hsum, hh, hfw⟩ := hph
      have hacc := sqb_setCondition_acc q (q.condition.push .and [.lit e])
      have hph2 : osPhase 1 (q.setCondition (q.condition.push .and [.lit e])) ss := by
        refine ⟨?_, ?_, ?_, ?_, ?_, ?_⟩
        · rw [hacc.2.1, hacc.1]
          exact hw1
        · rw [hacc.2.2.1, hacc.1]
          exact hw2
        · rw [hacc.1]
          exact hbnd
        · rw [hacc.1, fVals_def, wVals_def, hVals_def, hacc.2.1, hacc.2.2.1, hacc.2.2.2.2,
            SCond.push, show (⟨q.condition.ctx, q.condition.parts ++
              [⟨Conn.and, [Chunk.lit e]⟩]⟩ : SCond).parts = q.condition.parts ++
              [⟨Conn.and, [Chunk.lit e]⟩] from rfl, partsVals_append]
          rw [show partsVals [(⟨Conn.and, [Chunk.lit e]⟩ : SCondNode)] = [] from rfl,
            List.append_nil]
          exact hsum
        · intro _
          rw [hVals_def, hacc.2.2.1]
          exact hh hc1'
        · intro h0
          exact absurd h0 one_ne_zero
      rw [specRunOps_cons_ok _ _ _ _ (ss, q.setCondition (q.condition.push .and [.lit e]))
        (by rfl)] at hrun
      have h2 := osRunOps 1 rest _ ss hrest hph2 r hrun
      exact osOpsPost_comp q ss (ss, _) r (le_refl _) (fun i _ _ => rfl) hacc.1
        ((congrArg SCond.ctx hacc.2.1).trans (push_ctx q.condition .and [.lit e]))
        (congrArg SCond.ctx hacc.2.2.1) hacc.2.2.2.1 h2
  | c, (QOp.havingRawQ e) :: rest, q, ss => by
      intro horder hph r hrun
      have hrest : orderedOpsB 2 rest = true := horder
      obtain ⟨hw1, hw2, hbnd, hsum, hh, hfw⟩ := hph
      have hacc := sqb_setHaving_acc q (q.havingCondition.push .and [.lit e])
      have hph2 : osPhase 2 (q.setHaving (q.havingCondition.push .and [.lit e])) ss := by
        refine ⟨?_, ?_, ?_, ?_, ?_, ?_⟩
        · rw [hacc.2.1, hacc.1]
          exact hw1
        · rw [hacc.2.2.1, hacc.1]
          exact hw2
        · rw [hacc.1]
          exact hbnd
        · rw [hacc.1, fVals_def, wVals_def, hVals_def, hacc.2.1, hacc.2.2.1, hacc.2.2.2.2,
            SCond.push, show (⟨q.havingCondition.ctx, q.havingCondition.parts ++
              [⟨Conn.and, [Chunk.lit e]⟩]⟩ : SCond).parts = q.havingCondition.parts ++
              [⟨Conn.and, [Chunk.lit e]⟩] from rfl, partsVals_append]
          rw [show partsVals [(⟨Conn.and, [Chunk.lit e]⟩ : SCondNode)] = [] from rfl,
            List.append_nil]
          exact hsum
        · intro hc2
          exact absurd hc2 (by omega)
        · intro h0
          exact absurd h0 (by omega)
      rw [specRunOps_cons_ok _ _ _ _ (ss, q.setHaving (q.havingCondition.push .and [.lit e]))
        (by rfl)] at hrun
      have h2 := osRunOps 2 rest _ ss hrest hph2 r hrun
      exact osOpsPost_comp q ss (ss, _) r (le_refl _) (fun i _ _ => rfl) hacc.1
        (congrArg SCond.ctx hacc.2.1)
        ((congrArg SCond.ctx hacc.2.2.1).trans (push_ctx q.havingCondition .and [.lit e]))
        hacc.2.2.2.1 h2
  | c, (QOp.whereQ key cv) :: rest, q, ss => by
      intro horder hph r hrun
      have h3 : (decide (c ≤ 1) && orderedCondValB cv && orderedOpsB 1 rest) = true := horder
      rw [Bool.and_eq_true, Bool.and_eq_true] at h3
      obtain ⟨⟨hc1, hcv⟩, hrest⟩ := h3
      have hc1' : c ≤ 1 := of_decide_eq_true hc1
      obtain ⟨hw1, hw2, hbnd, hsum, hh, hfw⟩ := hph
      cases hce : specCondEntry key cv q.condition ss with
      | error e =>
          rw [specRunOps_cons_error _ _ _ _ e (specRunOp_whereQ_error key cv q ss e hce)]
            at hrun
          exact Except.noConfusion hrun
      | ok a =>
          rw [specRunOps_cons_ok _ _ _ _ _ (specRunOp_whereQ_ok key cv q ss a hce)] at hrun
          have h1 := osCondEntry key cv q.condition ss hcv (by rw [hw1]; exact hbnd) a hce
          obtain ⟨hle1, hfr1, hctx1, dps, hparts, hsum1⟩ := h1
          have hacc := sqb_setCondition_acc q a.2
          have hph2 : osPhase 1 (q.setCondition a.2) a.1 := by
            refine ⟨?_, ?_, ?_, ?_, ?_, ?_⟩
            · rw [hacc.2.1, hacc.1, hctx1]
              exact hw1
            · rw [hacc.2.2.1, hacc.1]
              exact hw2
            · rw [hacc.1]
              exact lt_of_lt_of_le hbnd hle1
            · rw [hacc.1, fVals_def, wVals_def, hVals_def, hacc.2.1, hacc.2.2.1,
                hacc.2.2.2.2, hparts, partsVals_append]
              rw [hw1] at hsum1
              rw [hsum1, hsum, fVals_def, wVals_def, hVals_def]
              have hh2 : partsVals q.havingCondition.parts = [] := hh hc1'
              rw [hh2]
              simp [List.append_assoc]
            · intro _
              rw [hVals_def, hacc.2.2.1]
              exact hh hc1'
            · intro h0
              exact absurd h0 one_ne_zero
          have h2 := osRunOps 1 rest (q.setCondition a.2) a.1 hrest hph2 r hrun
          refine osOpsPost_comp q ss (a.1, q.setCondition a.2) r hle1 ?_ hacc.1
            ((congrArg SCond.ctx hacc.2.1).trans hctx1) (congrArg SCond.ctx hacc.2.2.1)
            hacc.2.2.2.1 h2
          intro i hi hne
          exact hfr1 i hi (by rw [hw1]; exact hne)
  | c, (QOp.havingQ key cv) :: rest, q, ss => by
      intro horder hph r hrun
      have h3 : (orderedCondValB cv && orderedOpsB 2 rest) = true := horder
      rw [Bool.and_eq_true] at h3
      obtain ⟨hcv, hrest⟩ := h3
      obtain ⟨hw1, hw2, hbnd, hsum, hh, hfw⟩ := hph
      cases hce : specCondEntry key cv q.havingCondition ss with
      | error e =>
          rw [specRunOps_cons_error _ _ _ _ e (specRunOp_havingQ_error key cv q ss e hce)]
            at hrun
          exact Except.noConfusion hrun
      | ok a =>
          rw [specRunOps_cons_ok _ _ _ _ _ (specRunOp_havingQ_ok key cv q ss a hce)] at hrun
          have h1 := osCondEntry key cv q.havingCondition ss hcv (by rw [hw2]; exact hbnd)
            a hce
          obtain ⟨hle1, hfr1, hctx1, dps, hparts, hsum1⟩ := h1
          have hacc := sqb_setHaving_acc q a.2
          have hph2 : osPhase 2 (q.setHaving a.2) a.1 := by
            refine ⟨?_, ?_, ?_, ?_, ?_, ?_⟩
            · rw [hacc.2.1, hacc.1]
              exact hw1
            · rw [hacc.2.2.1, hacc.1, hctx1]
              exact hw2
            · rw [hacc.1]
              exact lt_of_lt_of_le hbnd hle1
            · rw [hacc.1, fVals_def, wVals_def, hVals_def, hacc.2.1, hacc.2.2.1,
                hacc.2.2.2.2, hparts, partsVals_append]
              rw [hw2] at hsum1
              rw [hsum1, hsum, fVals_def, wVals_def, hVals_def]
              simp [List.append_assoc]
            · intro hc2
              exact absurd hc2 (by omega)
            · intro h0
              exact absurd h0 (by omega)
          have h2 := osRunOps 2 rest (q.setHaving a.2) a.1 hrest hph2 r hrun
          refine osOpsPost_comp q ss (a.1, q.setHaving a.2) r hle1 ?_ hacc.1
            (congrArg SCond.ctx hacc.2.1) ((congrArg SCond.ctx hacc.2.2.1).trans hctx1)
            hacc.2.2.2.1 h2
          intro i hi hne
          exact hfr1 i hi (by rw [hw2]; exact hne)
  | c, (QOp.groupQ conn cops) :: rest, q, ss => by
      intro horder hph r hrun
      have h3 : (decide (c ≤ 1) && orderedCondOpsB cops && orderedOpsB 1 rest) = true := horder
      rw [Bool.and_eq_true, Bool.and_eq_true] at h3
      obtain ⟨⟨hc1, hcops⟩, hrest⟩ := h3
      have hc1' : c ≤ 1 := of_decide_eq_true hc1
      obtain ⟨hw1, hw2, hbnd, hsum, hh, hfw⟩ := hph
      cases hce : specRunCondOps cops ⟨q.condition.ctx, []⟩ ss with
      | error e =>
          rw [specRunOps_cons_error _ _ _ _ e (specRunOp_groupQ_error conn cops q ss e hce)]
            at hrun
          exact Except.noConfusion hrun
      | ok a =>
          have h1 := osRunCondOps cops ⟨q.condition.ctx, []⟩ ss hcops
            (show q.condition.ctx < ss.length by rw [hw1]; exact hbnd) a hce
          obtain ⟨hle1, hfr1, hctx1, dps, hparts, hsum1⟩ := h1
          rw [show (⟨q.condition.ctx, []⟩ : SCond).parts = [] from rfl,
            List.nil_append] at hparts
          rw [show (⟨q.condition.ctx, []⟩ : SCond).ctx = q.condition.ctx from rfl] at hctx1
          rw [show (⟨q.condition.ctx, []⟩ : SCond).ctx = q.condition.ctx from rfl, hw1]
            at hsum1
          by_cases hnil : a.2.parts = []
          · rw [specRunOps_cons_ok _ _ _ _ (a.1, q) (by
              rw [specRunOp_groupQ_ok conn cops q ss a hce, if_pos hnil])] at hrun
            have hph2 : osPhase 1 q a.1 := by
              refine ⟨hw1, hw2, lt_of_lt_of_le hbnd hle1, ?_, fun _ => hh hc1',
                fun h0 => absurd h0 one_ne_zero⟩
              rw [hsum1, hsum]
              rw [show dps = [] from by rw [← hparts, hnil], show partsVals [] = [] from rfl,
                List.append_nil]
            have h2 := osRunOps 1 rest q a.1 hrest hph2 r hrun
            exact osOpsPost_comp q ss (a.1, q) r hle1
              (fun i hi2 hne => hfr1 i hi2 (by rw [hw1]; exact hne)) rfl rfl rfl rfl h2
          · rw [specRunOps_cons_ok _ _ _ _ (a.1, q.setCondition (q.condition.push conn
              ([.lit "("] ++ sJoinParts a.2.parts ++ [.lit ")"]))) (by
              rw [specRunOp_groupQ_ok conn cops q ss a hce, if_neg hnil])] at hrun
            have hacc := sqb_setCondition_acc q (q.condition.push conn
              ([.lit "("] ++ sJoinParts a.2.parts ++ [.lit ")"]))
            have hpv : partsVals (q.condition.push conn
                ([.lit "("] ++ sJoinParts a.2.parts ++ [.lit ")"])).parts =
                partsVals q.condition.parts ++ partsVals dps := by
              rw [SCond.push, show (⟨q.condition.ctx, q.condition.parts ++
                [⟨conn, [Chunk.lit "("] ++ sJoinParts a.2.parts ++ [Chunk.lit ")"]⟩]⟩ :
                SCond).parts = q.condition.parts ++
                [⟨conn, [Chunk.lit "("] ++ sJoinParts a.2.parts ++ [Chunk.lit ")"]⟩]
                from rfl, partsVals_append]
              congr 1
              rw [show partsVals [(⟨conn, [Chunk.lit "("] ++ sJoinParts a.2.parts ++
                [Chunk.lit ")"]⟩ : SCondNode)] = textVals ([Chunk.lit "("] ++
                sJoinParts a.2.parts ++ [Chunk.lit ")"]) from by
                  rw [partsVals, partsVals, List.append_nil], textVals_pushLit,
                textVals_append, textVals_sJoinParts, hparts]
              rfl
            have hph2 : osPhase 1 (q.setCondition (q.condition.push conn
                ([.lit "("] ++ sJoinParts a.2.parts ++ [.lit ")"]))) a.1 := by
              refine ⟨?_, ?_, ?_, ?_, ?_, ?_⟩
              · rw [hacc.2.1, hacc.1]
                exact hw1
              · rw [hacc.2.2.1, hacc.1]
                exact hw2
              · rw [hacc.1]
                exact lt_of_lt_of_le hbnd hle1
              · rw [hacc.1, fVals_def, wVals_def, hVals_def, hacc.2.1, hacc.2.2.1,
                  hacc.2.2.2.2, hpv]
                rw [hsum1, hsum, fVals_def, wVals_def, hVals_def]
                have hh2 : partsVals q.havingCondition.parts = [] := hh hc1'
                rw [hh2]
                simp [List.append_assoc]
              · intro _
                rw [hVals_def, hacc.2.2.1]
                exact hh hc1'
              · intro h0
                exact absurd h0 one_ne_zero
            have h2 := osRunOps 1 rest _ a.1 hrest hph2 r hrun
            refine osOpsPost_comp q ss (a.1, q.setCondition (q.condition.push conn
              ([.lit "("] ++ sJoinParts a.2.parts ++ [.lit ")"]))) r hle1 ?_ hacc.1
              ((congrArg SCond.ctx hacc.2.1).trans (push_ctx q.condition conn
                ([.lit "("] ++ sJoinParts a.2.parts ++ [.lit ")"])))
              (congrArg SCond.ctx hacc.2.2.1)
              hacc.2.2.2.1 h2
            intro i hi2 hne
            exact hfr1 i hi2 (by rw [hw1]; exact hne)
  | c, (QOp.fromSubqueryQ sub al) :: rest, q, ss => by
      intro horder hph r hrun
      have h3 : ((c == 0) && orderedPlanB sub && orderedOpsB 1 rest) = true := horder
      rw [Bool.and_eq_true, Bool.and_eq_true] at h3
      obtain ⟨⟨hc0, hsub⟩, hrest⟩ := h3
      have hc0' : c = 0 := eq_of_beq hc0
      obtain ⟨hw1, hw2, hbnd, hsum, hh, hfw⟩ := hph
      cases hsp : specRunPlan sub ss with
      | error e =>
          rw [specRunOps_cons_error _ _ _ _ e
            (specRunOp_fromSubqueryQ_error sub al q ss e hsp)] at hrun
          exact Except.noConfusion hrun
      | ok a =>
          rw [specRunOps_cons_ok _ _ _ _ _ (specRunOp_fromSubqueryQ_ok sub al q ss a hsp)]
            at hrun
          have h1 := osRunPlan sub ss hsub a hsp
          obtain ⟨hle1, hfr1, hctx1, hcctx1, hhctx1, hctes1, hsum1⟩ := h1
          have hbn := specBuild_nilCtes a.1 a.2 hctes1
          have hacc := sqb_setFrom_acc q
            (.lit "(" :: ((specBuild a.1 a.2).2.1 ++ [.lit (") AS " ++ al)]))
          have hph2 : osPhase 1 (q.setFrom
              (.lit "(" :: ((specBuild a.1 a.2).2.1 ++ [.lit (") AS " ++ al)])))
              (sAddMany (specBuild a.1 a.2).1 q.ctx (specBuild a.1 a.2).2.2) := by
            refine ⟨?_, ?_, ?_, ?_, ?_, ?_⟩
            · rw [hacc.2.1, hacc.1]
              exact hw1
            · rw [hacc.2.2.1, hacc.1]
              exact hw2
            · rw [hacc.1, hbn.1, length_sAddMany]
              exact lt_of_lt_of_le hbnd hle1
            · rw [hacc.1, fVals_def, wVals_def, hVals_def, hacc.2.1, hacc.2.2.1,
                hacc.2.2.2.2]
              have hwv : partsVals q.condition.parts = [] := (hfw hc0').2
              have hhv : partsVals q.havingCondition.parts = [] := hh (by omega)
              rw [hwv, hhv, List.append_nil, List.append_nil]
              rw [show textVals (Chunk.lit "(" ::
                  ((specBuild a.1 a.2).2.1 ++ [Chunk.lit (") AS " ++ al)])) =
                textVals ((specBuild a.1 a.2).2.1 ++ [Chunk.lit (") AS " ++ al)]) from rfl,
                textVals_pushLit]
              rw [specBuild_textVals a.1 a.2 hctes1, ← wVals_def, ← hVals_def, ← hsum1]
              rw [hbn.1, hbn.2, sGet_sAddMany_self a.1 q.ctx _ (lt_of_lt_of_le hbnd hle1)]
              rw [hfr1 q.ctx hbnd, hsum, (hfw hc0').1, (hfw hc0').2, hh (by omega)]
              rfl
            · intro _
              rw [hVals_def, hacc.2.2.1]
              exact hh (by omega)
            · intro h0
              exact absurd h0 one_ne_zero
          have h2 := osRunOps 1 rest _ _ hrest hph2 r hrun
          refine osOpsPost_comp q ss
            (sAddMany (specBuild a.1 a.2).1 q.ctx (specBuild a.1 a.2).2.2,
              q.setFrom (.lit "(" :: ((specBuild a.1 a.2).2.1 ++ [.lit (") AS " ++ al)])))
            r ?_ ?_ hacc.1 (congrArg SCond.ctx hacc.2.1) (congrArg SCond.ctx hacc.2.2.1)
            hacc.2.2.2.1 h2
          · rw [hbn.1, length_sAddMany]
            exact hle1
          · intro i hi2 hne
            rw [hbn.1, sGet_sAddMany_ne a.1 q.ctx i _ hne, hfr1 i hi2]

theorem osCondEntry : ∀ (key : String) (cv : CondVal) (cb : SCond) (ss : SpecStore),
    orderedCondValB cv = true → cb.ctx < ss.length →
    ∀ r, specCondEntry key cv cb ss = .ok r → osCondPost cb ss r
  | key, .nullv, cb, ss => by
      intro _ hi r hrun
      replace hrun : (Except.ok (ss, cb.push .and [.lit (key ++ " IS NULL")]) :
        Except String (SpecStore × SCond)) = .ok r := hrun
      injection hrun with h
      subst h
      exact ⟨le_refl _, fun i _ _ => rfl, rfl, [⟨.and, [.lit (key ++ " IS NULL")]⟩], rfl,
        (List.append_nil _).symm⟩
  | key, .scalar v, cb, ss => by
      intro _ hi r hrun
      replace hrun : (Except.ok ((sAdd ss cb.ctx v).1, cb.push .and
        [.lit (key ++ " = "), (sAdd ss cb.ctx v).2]) :
        Except String (SpecStore × SCond)) = .ok r := hrun
      injection hrun with h
      subst h
      refine ⟨le_of_eq (length_sAdd ss cb.ctx v).symm, ?_, rfl,
        [⟨.and, [.lit (key ++ " = "), (sAdd ss cb.ctx v).2]⟩], rfl, ?_⟩
      · intro i hi2 hne
        exact sGet_sAdd_ne ss cb.ctx i v hne
      · rw [sGet_sAdd_self ss cb.ctx v hi]
        rfl
  | key, .cmp op x, cb, ss => by
      intro hcv hi r hrun
      exact osHandleOp key op x cb ss hcv hi r hrun

theorem osHandleOp : ∀ (key op : String) (x : Operand) (cb : SCond) (ss : SpecStore),
    orderedOperandB x = true → cb.ctx < ss.length →
    ∀ r, specHandleOperator key op x cb ss = .ok r → osCondPost cb ss r
  | key, op, .val v, cb, ss => by
      intro _ hi r hrun
      unfold specHandleOperator at hrun
      by_cases h1 : allowedOperators.contains op = false
      · rw [if_pos h1] at hrun
        exact Except.noConfusion hrun
      · rw [if_neg h1] at hrun
        by_cases h2 : op = "IN" ∨ op = "NOT IN"
        · rw [if_pos h2] at hrun
          cases v with
          | vArr vs =>
              replace hrun : (Except.ok ((sAddChunks ss cb.ctx vs).1, cb.push .and
                (.lit (key ++ " " ++ op ++ " (") :: (chunksJoinSep ", "
                  (((sAddChunks ss cb.ctx vs).2).map (fun t => [t])) ++ [.lit ")"]))) :
                Except String (SpecStore × SCond)) = .ok r := hrun
              injection hrun with h
              subst h
              refine ⟨?_, ?_, rfl, [⟨.and, .lit (key ++ " " ++ op ++ " (") ::
                (chunksJoinSep ", " (((sAddChunks ss cb.ctx vs).2).map (fun t => [t])) ++
                  [.lit ")"])⟩], by rfl, ?_⟩
              · rw [sAddChunks_fst, length_sAddMany]
              · intro i hi2 hne
                rw [sAddChunks_fst, sGet_sAddMany_ne ss cb.ctx i vs hne]
              · rw [sAddChunks_fst, sGet_sAddMany_self ss cb.ctx vs hi]
                congr 1
                rw [show partsVals [(⟨Conn.and, Chunk.lit (key ++ " " ++ op ++ " (") ::
                  (chunksJoinSep ", " (((sAddChunks ss cb.ctx vs).2).map (fun t => [t])) ++
                    [Chunk.lit ")"])⟩ : SCondNode)] =
                  textVals (chunksJoinSep ", " (((sAddChunks ss cb.ctx vs).2).map
                    (fun t => [t])) ++ [Chunk.lit ")"]) from by
                    rw [partsVals, partsVals, List.append_nil]
                    rfl]
                rw [textVals_pushLit, inChunks_textVals]
          | vInt n =>
              replace hrun : (Except.error (op ++ " expects array") :
                Except String (SpecStore × SCond)) = .ok r := hrun
              exact Except.noConfusion hrun
          | vStr t =>
              replace hrun : (Except.error (op ++ " expects array") :
                Except String (SpecStore × SCond)) = .ok r := hrun
              exact Except.noConfusion hrun
          | vBool b =>
              replace hrun : (Except.error (op ++ " expects array") :
                Except String (SpecStore × SCond)) = .ok r := hrun
              exact Except.noConfusion hrun
          | vNull =>
              replace hrun : (Except.error (op ++ " expects array") :
                Except String (SpecStore × SCond)) = .ok r := hrun
              exact Except.noConfusion hrun
          | vObj =>
              replace hrun : (Except.error (op ++ " expects array") :
                Except String (SpecStore × SCond)) = .ok r := hrun
              exact Except.noConfusion hrun
        · rw [if_neg h2] at hrun
          by_cases h3 : op = "BETWEEN"
          · rw [if_pos h3] at hrun
            cases v with
            | vArr vs =>
                cases vs with
                | nil =>
                    replace hrun : (Except.error "BETWEEN expects [min,max]" :
                      Except String (SpecStore × SCond)) = .ok r := hrun
                    exact Except.noConfusion hrun
                | cons va t =>
                    cases t with
                    | nil =>
                        replace hrun : (Except.error "BETWEEN expects [min,max]" :
                          Except String (SpecStore × SCond)) = .ok r := hrun
                        exact Except.noConfusion hrun
                    | cons vb t2 =>
                        cases t2 with
                        | cons vc t3 =>
                            replace hrun : (Except.error "BETWEEN expects [min,max]" :
                              Except String (SpecStore × SCond)) = .ok r := hrun
                            exact Except.noConfusion hrun
                        | nil =>
                            replace hrun : (Except.ok
                              ((sAdd (sAdd ss cb.ctx va).1 cb.ctx vb).1, cb.push .and
                                [.lit (key ++ " BETWEEN "), (sAdd ss cb.ctx va).2,
                                  .lit " AND ", (sAdd (sAdd ss cb.ctx va).1 cb.ctx vb).2]) :
                              Except String (SpecStore × SCond)) = .ok r := hrun
                            injection hrun with h
                            subst h
                            refine ⟨?_, ?_, rfl,
                              [⟨.and, [.lit (key ++ " BETWEEN "), (sAdd ss cb.ctx va).2,
                                .lit " AND ", (sAdd (sAdd ss cb.ctx va).1 cb.ctx vb).2]⟩],
                              by rfl, ?_⟩
                            · rw [length_sAdd, length_sAdd]
                            · intro i hi2 hne
                              rw [sGet_sAdd_ne _ _ _ _ hne, sGet_sAdd_ne _ _ _ _ hne]
                            · rw [sGet_sAdd_self _ _ _ (by rw [length_sAdd]; exact hi),
                                sGet_sAdd_self _ _ _ hi, List.append_assoc]
                              rfl
            | vInt n =>
                replace hrun : (Except.error "BETWEEN expects [min,max]" :
                  Except String (SpecStore × SCond)) = .ok r := hrun
                exact Except.noConfusion hrun
            | vStr t =>
                replace hrun : (Except.error "BETWEEN expects [min,max]" :
                  Except String (SpecStore × SCond)) = .ok r := hrun
                exact Except.noConfusion hrun
            | vBool b =>
                replace hrun : (Except.error "BETWEEN expects [min,max]" :
                  Except String (SpecStore × SCond)) = .ok r := hrun
                exact Except.noConfusion hrun
            | vNull =>
                replace hrun : (Except.error "BETWEEN expects [min,max]" :
                  Except String (SpecStore × SCond)) = .ok r := hrun
                exact Except.noConfusion hrun
            | vObj =>
                replace hrun : (Except.error "BETWEEN expects [min,max]" :
                  Except String (SpecStore × SCond)) = .ok r := hrun
                exact Except.noConfusion hrun
          · rw [if_neg h3] at hrun
            by_cases h4 : op = "EXISTS"
            · rw [if_pos h4] at hrun
              replace hrun : (Except.error "EXISTS expects QueryBuilder" :
                Except String (SpecStore × SCond)) = .ok r := hrun
              exact Except.noConfusion hrun
            · rw [if_neg h4] at hrun
              replace hrun : (Except.ok ((sAdd ss cb.ctx v).1, cb.push .and
                [.lit (key ++ " " ++ op ++ " "), (sAdd ss cb.ctx v).2]) :
                Except String (SpecStore × SCond)) = .ok r := hrun
              injection hrun with h
              subst h
              refine ⟨le_of_eq (length_sAdd ss cb.ctx v).symm, ?_, rfl,
                [⟨.and, [.lit (key ++ " " ++ op ++ " "), (sAdd ss cb.ctx v).2]⟩],
                by rfl, ?_⟩
              · intro i hi2 hne
                exact sGet_sAdd_ne ss cb.ctx i v hne
              · rw [sGet_sAdd_self ss cb.ctx v hi]
                rfl
  | key, op, .sub p, cb, ss => by
      intro hx hi r hrun
      have hp : orderedPlanB p = true := hx
      unfold specHandleOperator at hrun
      by_cases h1 : allowedOperators.contains op = false
      · rw [if_pos h1] at hrun
        exact Except.noConfusion hrun
      · rw [if_neg h1] at hrun
        by_cases h2 : op = "IN" ∨ op = "NOT IN"
        · rw [if_pos h2] at hrun
          replace hrun : (Except.error (op ++ " expects array") :
            Except String (SpecStore × SCond)) = .ok r := hrun
          exact Except.noConfusion hrun
        · rw [if_neg h2] at hrun
          by_cases h3 : op = "BETWEEN"
          · rw [if_pos h3] at hrun
            replace hrun : (Except.error "BETWEEN expects [min,max]" :
              Except String (SpecStore × SCond)) = .ok r := hrun
            exact Except.noConfusion hrun
          · rw [if_neg h3] at hrun
            by_cases h4 : op = "EXISTS"
            · rw [if_pos h4] at hrun
              replace hrun : (specRunPlan p ss >>= fun pq =>
                .ok (sAddMany (specBuild pq.1 pq.2).1 cb.ctx (specBuild pq.1 pq.2).2.2,
                  cb.push .and (.lit "EXISTS (" :: ((specBuild pq.1 pq.2).2.1 ++
                    [.lit ")"])))) = .ok r := hrun
              cases hsp : specRunPlan p ss with
              | error e =>
                  rw [hsp] at hrun
                  exact Except.noConfusion hrun
              | ok a =>
                  rw [hsp] at hrun
                  replace hrun : (Except.ok
                    (sAddMany (specBuild a.1 a.2).1 cb.ctx (specBuild a.1 a.2).2.2,
                      cb.push .and (.lit "EXISTS (" :: ((specBuild a.1 a.2).2.1 ++
                        [.lit ")"]))) :
                    Except String (SpecStore × SCond)) = .ok r := hrun
                  injection hrun with h
                  subst h
                  have h1 := osRunPlan p ss hp a hsp
                  obtain ⟨hle1, hfr1, hctx1, hcctx1, hhctx1, hctes1, hsum1⟩ := h1
                  have hbn := specBuild_nilCtes a.1 a.2 hctes1
                  refine ⟨?_, ?_, rfl, [⟨.and, .lit "EXISTS (" ::
                    ((specBuild a.1 a.2).2.1 ++ [.lit ")"])⟩], by rfl, ?_⟩
                  · rw [hbn.1, length_sAddMany]
                    exact hle1
                  · intro i hi2 hne
                    rw [hbn.1, sGet_sAddMany_ne a.1 cb.ctx i _ hne, hfr1 i hi2]
                  · rw [hbn.1, hbn.2,
                      sGet_sAddMany_self a.1 cb.ctx _ (lt_of_lt_of_le hi hle1),
                      hfr1 cb.ctx hi]
                    congr 1
                    rw [show partsVals [(⟨Conn.and, Chunk.lit "EXISTS (" ::
                      ((specBuild a.1 a.2).2.1 ++ [Chunk.lit ")"])⟩ : SCondNode)] =
                      textVals ((specBuild a.1 a.2).2.1 ++ [Chunk.lit ")"]) from by
                        rw [partsVals, partsVals, List.append_nil]
                        rfl]
                    rw [textVals_pushLit, specBuild_textVals a.1 a.2 hctes1, ← wVals_def,
                      ← hVals_def, ← hsum1]
            · rw [if_neg h4] at hrun
              replace hrun : (Except.ok ((sAdd ss cb.ctx .vObj).1, cb.push .and
                [.lit (key ++ " " ++ op ++ " "), (sAdd ss cb.ctx .vObj).2]) :
                Except String (SpecStore × SCond)) = .ok r := hrun
              injection hrun with h
              subst h
              refine ⟨le_of_eq (length_sAdd ss cb.ctx .vObj).symm, ?_, rfl,
                [⟨.and, [.lit (key ++ " " ++ op ++ " "), (sAdd ss cb.ctx .vObj).2]⟩],
                by rfl, ?_⟩
              · intro i hi2 hne
                exact sGet_sAdd_ne ss cb.ctx i .vObj hne
              · rw [sGet_sAdd_self ss cb.ctx .vObj hi]
                rfl

theorem osRunCondOps : ∀ (ops : List CondOp) (cb : SCond) (ss : SpecStore),
    orderedCondOpsB ops = true → cb.ctx < ss.length →
    ∀ r, specRunCondOps ops cb ss = .ok r → osCondPost cb ss r
  | [], cb, ss => by
      intro _ hi r hrun
      replace hrun : (Except.ok (ss, cb) : Except String (SpecStore × SCond)) = .ok r := hrun
      injection hrun with h
      subst h
      exact ⟨le_refl _, fun i _ _ => rfl, rfl, [], (List.append_nil _).symm,
        (List.append_nil _).symm⟩
  | o :: rest, cb, ss => by
      intro horder hi r hrun
      have h3 : (orderedCondOpB o && orderedCondOpsB rest) = true := horder
      rw [Bool.and_eq_true] at h3
      obtain ⟨ho, hrest⟩ := h3
      cases hco : specRunCondOp o cb ss with
      | error e =>
          rw [specRunCondOps_cons_error _ _ _ _ e hco] at hrun
          exact Except.noConfusion hrun
      | ok a =>
          rw [specRunCondOps_cons_ok _ _ _ _ a hco] at hrun
          have h1 := osRunCondOp o cb ss ho hi a hco
          have h2 := osRunCondOps rest a.2 a.1 hrest
            (by rw [h1.2.2.1]; exact lt_of_lt_of_le hi h1.1) r hrun
          exact osCondPost_comp cb ss a r h1 h2

theorem osRunCondOp : ∀ (o : CondOp) (cb : SCond) (ss : SpecStore),
    orderedCondOpB o = true → cb.ctx < ss.length →
    ∀ r, specRunCondOp o cb ss = .ok r → osCondPost cb ss r
  | .centry key cv, cb, ss => by
      intro ho hi r hrun
      exact osCondEntry key cv cb ss ho hi r hrun
  | .craw e, cb, ss => by
      intro _ hi r hrun
      replace hrun : (Except.ok (ss, cb.push .and [.lit e]) :
        Except String (SpecStore × SCond)) = .ok r := hrun
      injection hrun with h
      subst h
      exact ⟨le_refl _, fun i _ _ => rfl, rfl, [⟨.and, [.lit e]⟩], rfl,
        (List.append_nil _).symm⟩
  | .cgroup conn cops, cb, ss => by
      intro ho hi r hrun
      have hcops : orderedCondOpsB cops = true := ho
      cases hce : specRunCondOps cops ⟨cb.ctx, []⟩ ss with
      | error e =>
          rw [specRunCondOp_cgroup_error conn cops cb ss e hce] at hrun
          exact Except.noConfusion hrun
      | ok a =>
          rw [specRunCondOp_cgroup_ok conn cops cb ss a hce] at hrun
          have h1 := osRunCondOps cops ⟨cb.ctx, []⟩ ss hcops hi a hce
          obtain ⟨hle1, hfr1, hctx1, dps, hparts, hsum1⟩ := h1
          rw [show (⟨cb.ctx, []⟩ : SCond).parts = [] from rfl, List.nil_append] at hparts
          rw [show (⟨cb.ctx, []⟩ : SCond).ctx = cb.ctx from rfl] at hctx1 hsum1
          by_cases hnil : a.2.parts = []
          · rw [if_pos hnil] at hrun
            replace hrun : (Except.ok (a.1, cb) :
              Except String (SpecStore × SCond)) = .ok r := hrun
            injection hrun with h
            subst h
            refine ⟨hle1, hfr1, rfl, [], (List.append_nil _).symm, ?_⟩
            have hdps : dps = [] := by
              rw [← hparts]
              exact hnil
            rw [hsum1, hdps]
          · rw [if_neg hnil] at hrun
            replace hrun : (Except.ok (a.1, cb.push conn
              ([.lit "("] ++ sJoinParts a.2.parts ++ [.lit ")"])) :
              Except String (SpecStore × SCond)) = .ok r := hrun
            injection hrun with h
            subst h
            refine ⟨hle1, hfr1, rfl,
              [⟨conn, [.lit "("] ++ sJoinParts a.2.parts ++ [.lit ")"]⟩], by rfl, ?_⟩
            rw [hsum1]
            congr 1
            rw [← hparts]
            rw [show partsVals [(⟨conn, [Chunk.lit "("] ++ sJoinParts a.2.parts ++
              [Chunk.lit ")"]⟩ : SCondNode)] = textVals ([Chunk.lit "("] ++
              sJoinParts a.2.parts ++ [Chunk.lit ")"]) from by
                rw [partsVals, partsVals, List.append_nil], textVals_pushLit,
              textVals_append, textVals_sJoinParts]
            rfl
end

theorem osPlanD (p : Plan) (sk : Chunks) (ps : List Val) (ho : orderedPlanB p = true)
    (h : specPlanD p = .ok (sk, ps)) : textVals sk = ps := by
  rw [specPlanD] at h
  cases hsp : specRunPlan p [] with
  | error e =>
      rw [hsp] at h
      exact Except.noConfusion h
  | ok a =>
      rw [hsp] at h
      replace h : (Except.ok ((specBuild a.1 a.2).2.1, (specBuild a.1 a.2).2.2) :
        Except String (Chunks × List Val)) = .ok (sk, ps) := h
      injection h with h
      rw [Prod.mk.injEq] at h
      obtain ⟨hsk, hps⟩ := h
      have h1 := osRunPlan p [] ho a hsp
      obtain ⟨_, _, hctx, _, _, hctes, hsum⟩ := h1
      have hbn := specBuild_nilCtes a.1 a.2 hctes
      have htv := specBuild_textVals a.1 a.2 hctes
      rw [← hsk, ← hps, htv, ← wVals_def, ← hVals_def, ← hsum, hbn.2]

/-- C2 (amended): for a program whose chained calls register parameters in
text order — no `withCte`, `fromSubquery` only before any other
registering call, and every `where`-family call before every
`having`-family call, recursively — the result of `build()` is a skeleton
of literal text and placeholder tokens in which the k-th placeholder
token (in text order) carries exactly `params[k-1]`, and the number of
placeholder tokens equals `params.length`.  The unrestricted original
claim fails when a having-family call precedes a where-family call. -/
theorem placeholder_alignment (d : Dialect) (p : Plan) (r : String × List Val)
    (ho : orderedPlanB p = true) (hr : runPlanD d p = .ok r) :
    ∃ sk, r.1 = renderChunks d sk ∧ textVals sk = r.2 ∧ countHoles sk = r.2.length := by
  have h := simPlanD d p
  rw [hr] at h
  cases hsp : specPlanD p with
  | error e =>
      rw [hsp] at h
      exact h.elim
  | ok sr =>
      rw [hsp] at h
      have htv : textVals sr.1 = sr.2 := osPlanD p sr.1 sr.2 ho (by rw [hsp])
      refine ⟨sr.1, h.1, ?_, ?_⟩
      · rw [h.2]
        exact htv
      · rw [countHoles_eq_length_textVals, h.2, htv]

theorem placeholder_alignment_witness :
    orderedPlanB groupingPlan = true ∧
    runPlanD PostgresDialect groupingPlan =
      .ok ("SELECT * FROM t WHERE a = $1 AND (b = $2 OR (c = $3))",
        [.vInt 1, .vInt 2, .vInt 3]) ∧
    ∃ sk, "SELECT * FROM t WHERE a = $1 AND (b = $2 OR (c = $3))" =
        renderChunks PostgresDialect sk ∧
      textVals sk = [.vInt 1, .vInt 2, .vInt 3] ∧
      countHoles sk = ([Val.vInt 1, .vInt 2, .vInt 3]).length :=
  ⟨by rfl, by rfl,
    placeholder_alignment PostgresDialect groupingPlan
      ("SELECT * FROM t WHERE a = $1 AND (b = $2 OR (c = $3))",
        [.vInt 1, .vInt 2, .vInt 3])
      (by rfl) (by rfl)⟩

/-- C2, counterexample to the unrestricted claim: a `having` call made
before a `where` call registers its parameter first, while its
placeholder is rendered after the WHERE clause's; the emitted text-order
values `[2, 1]` disagree with the params array `[1, 2]`, so substituting
`params[k-1]` for placeholder `k` swaps the two comparisons. -/
theorem placeholder_alignment_counterexample :
    runPlanD MysqlDialect havingFirstPlan =
      .ok ("SELECT * FROM t WHERE w = ? HAVING h = ?", [.vInt 1, .vInt 2]) ∧
    specPlanD havingFirstPlan = .ok
      ([.lit "SELECT * FROM ", .lit "t", .lit " ", .lit "WHERE ", .lit "w = ",
        .hole 2 (.vInt 2), .lit " ", .lit "HAVING ", .lit "h = ", .hole 1 (.vInt 1)],
        [.vInt 1, .vInt 2]) ∧
    textVals [.lit "SELECT * FROM ", .lit "t", .lit " ", .lit "WHERE ", .lit "w = ",
        Chunk.hole 2 (.vInt 2), .lit " ", .lit "HAVING ", .lit "h = ",
        .hole 1 (.vInt 1)] = [.vInt 2, .vInt 1] ∧
    ([Val.vInt 2, Val.vInt 1] ≠ [Val.vInt 1, Val.vInt 2]) := by
  refine ⟨by decide, by decide, by decide, by decide⟩
